import Mathlib

/-!
# QR generator

Shallow embedding of `src/js/app.js` (class `QRGenerator`): the
medical-status classifier `hasMedicalInfo`, the two payload builders
`buildBadgeQRPayload` and `buildDiscQRPayload`, the record preparation done by
`generateIndividual` and `generateBulk` before they call the builders, the
file names, the text fields and the placeholders of `createBadge` and
`createDisc`, the two exporters `convertSvgToPdfBlob` and
`convertSvgToDocxBlob`, the batch run of `generateBulk` and the archive of
`downloadAll`.

Modelling conventions.

* A JavaScript string is a Lean `String` (a sequence of Unicode scalar
  values).  A record field holds `none` when the property is absent
  (`undefined`) and `some s` when it holds the string `s`; spreadsheet cells
  holding numbers are outside this type.
* `String.prototype.trim` removes the ECMAScript `WhiteSpace` and
  `LineTerminator` code points from both ends; `isWhiteSpace` lists them.
* `String.prototype.toLowerCase` is modelled on the Basic Latin letters
  `A`–`Z`; every other character is left as it is.  The six entries of
  `noResponses` are written in the letters `a c d e g i l n o r s t y`, the
  space and `/` only, and the Unicode lower-case mapping sends no character
  outside `A`–`Z` to a sequence of those, so membership of the lower-cased
  text in `noResponses` is the same under the full mapping.
-/

namespace QRGenerator

/-! ## JavaScript string primitives -/

/-- Code points removed by `String.prototype.trim`: the ECMAScript `WhiteSpace`
production (TAB, VT, FF, SP, NBSP, ZWNBSP and the category `Zs`) together with
`LineTerminator` (LF, CR, LS, PS). -/
def whiteSpaceCodes : List Nat :=
  [0x09, 0x0A, 0x0B, 0x0C, 0x0D, 0x20, 0xA0, 0x1680,
   0x2000, 0x2001, 0x2002, 0x2003, 0x2004, 0x2005, 0x2006, 0x2007, 0x2008, 0x2009, 0x200A,
   0x2028, 0x2029, 0x202F, 0x205F, 0x3000, 0xFEFF]

/-- Whether `trim` treats the character as white space. -/
def isWhiteSpace (c : Char) : Bool := whiteSpaceCodes.contains c.toNat

/-- Model of `String.prototype.trim`: white space is dropped from both ends. -/
def trim (s : String) : String :=
  ⟨(s.data.dropWhile isWhiteSpace).rdropWhile isWhiteSpace⟩

/-- Model of `String.prototype.toLowerCase` (Basic Latin letters). -/
def toLowerCase (s : String) : String := ⟨s.data.map Char.toLower⟩

/-- JavaScript truthiness of a field: `undefined` and `''` are falsy, every
other string is truthy. -/
def truthy : Option String → Bool
  | none => false
  | some s => s != ""

/-- The expression `v || d` for a field `v` and a string `d`. -/
def orElse (v : Option String) (d : String) : String :=
  match v with
  | none => d
  | some s => if s != "" then s else d

/-- One step of the loop of `Array.prototype.join`: the state is the index `k`
and the text `R` built so far; the separator is appended before every element
but the first. -/
def joinStep (sep : String) (st : Nat × String) (element : String) : Nat × String :=
  (st.1 + 1, (if st.1 > 0 then st.2 ++ sep else st.2) ++ element)

/-- Model of `Array.prototype.join` on an array of strings: the loop of
`joinStep` run from index `0` and the empty text. -/
def join (sep : String) (lines : List String) : String :=
  (lines.foldl (joinStep sep) (0, "")).2

/-- The pieces of a character sequence between line feeds. -/
def splitLF : List Char → List (List Char)
  | [] => [[]]
  | c :: cs =>
    if c = '\n' then [] :: splitLF cs
    else (c :: (splitLF cs).headD []) :: (splitLF cs).tail

/-- The lines of a text: the maximal pieces between line feeds. -/
def payloadLines (s : String) : List String := (splitLF s.data).map String.mk

/-- Number of lines of a text. -/
def lineCount (s : String) : Nat := (payloadLines s).length

/-! ## hasMedicalInfo (app.js 21-30) -/

/-- The list `noResponses` of `hasMedicalInfo`. -/
def noResponses : List String :=
  ["none", "n/a", "no allergies", "no conditions", "no allergy", "no condition"]

/-- `hasMedicalInfo(value)`: a falsy value gives `false`; otherwise the value
is trimmed and lower-cased, an empty result gives `false`, and the answer is
whether the result is not in `noResponses`. -/
def hasMedicalInfo (value : Option String) : Bool :=
  match value with
  | none => false
  | some v =>
    if v = "" then false
    else
      let trimmed := toLowerCase (trim v)
      if trimmed = "" then false
      else !noResponses.contains trimmed

/-! ## Records -/

/-- The record shape shared by the form data of `generateIndividual`, the rows
of `bulkData` and the objects handed to the payload builders.  A field is
`none` when the object has no such property. -/
structure Record where
  idNumber : Option String := none
  name : Option String := none
  contactNumber : Option String := none
  iceContactName : Option String := none
  iceContactSurname : Option String := none
  iceContactNumber : Option String := none
  medicalAidName : Option String := none
  medicalAidNumber : Option String := none
  medicalAidPlan : Option String := none
  allergies : Option String := none
  medicalConditions : Option String := none
  startingDate : Option String := none
  membershipNumber : Option String := none
  position : Option String := none
  rank : Option String := none
  vehicleMake : Option String := none
  vehicleModel : Option String := none
  vehicleColor : Option String := none
  vehicleRegistration : Option String := none
  country : Option String := none
  deriving DecidableEq, Repr

/-- The statement `if (v) lines.push(f(v))` as a transformer of the array
`lines`: a truthy field appends one element, a falsy one leaves the array as
it is. -/
def pushIf (lines : List String) (v : Option String) (f : String → String) : List String :=
  match v with
  | none => lines
  | some s => if s != "" then lines ++ [f s] else lines

/-- The statement `lines.push(line)`. -/
def push (lines : List String) (line : String) : List String := lines ++ [line]

/-! ## buildBadgeQRPayload (app.js 484-519) -/

/-- `buildBadgeQRPayload(data)`: the ten statements on the array `lines`, then
`lines.join('\n')`. -/
def buildBadgeQRPayload (data : Record) : String :=
  let lines : List String := []
  let lines := pushIf lines data.name (fun s => s)
  let lines := pushIf lines data.idNumber (fun s => s)
  let lines := pushIf lines data.contactNumber (fun s => s)
  let lines := pushIf lines data.iceContactName (fun s => "ICE: " ++ s)
  let lines := pushIf lines data.iceContactNumber (fun s => "ICE No.: " ++ s)
  let lines := pushIf lines data.medicalAidName (fun s => "MED AID: " ++ s)
  let lines := pushIf lines data.medicalAidPlan (fun s => s)
  let lines := pushIf lines data.medicalAidNumber (fun s => s)
  let lines := push lines ("Allergies: " ++ orElse data.allergies "No")
  let lines := push lines ("Medical conditions: " ++ orElse data.medicalConditions "No")
  join "\n" lines

/-! ## buildDiscQRPayload (app.js 521-562) -/

/-- `buildDiscQRPayload(data)`: the twelve statements on the array `lines`,
then `lines.join('\n')`. -/
def buildDiscQRPayload (data : Record) : String :=
  let lines : List String := []
  let lines := pushIf lines data.name (fun s => s)
  let lines := pushIf lines data.contactNumber (fun s => s)
  let lines := pushIf lines data.iceContactName (fun s => "ICE: " ++ s)
  let lines := pushIf lines data.iceContactNumber (fun s => "ICE No.: " ++ s)
  let lines := pushIf lines data.medicalAidName (fun s => "MED AID: " ++ s)
  let lines := pushIf lines data.medicalAidPlan (fun s => s)
  let lines := pushIf lines data.medicalAidNumber (fun s => s)
  let lines := push lines ("Allergies: " ++ orElse data.allergies "No")
  let lines := push lines ("Medical conditions: " ++ orElse data.medicalConditions "No")
  let lines := pushIf lines data.vehicleMake (fun s => "Vehicle Info: " ++ s)
  let lines := pushIf lines data.vehicleModel (fun s => s)
  let lines := pushIf lines data.vehicleRegistration (fun s => s)
  join "\n" lines

/-! ## Record preparation in generateIndividual (app.js 306-401) -/

/-- The values read from the form controls: a control's `value` is always a
string. -/
structure FormValues where
  idNumber : String := ""
  name : String := ""
  contactNumber : String := ""
  iceContactName : String := ""
  iceContactNumber : String := ""
  medicalAidName : String := ""
  medicalAidNumber : String := ""
  medicalAidPlan : String := ""
  allergies : String := ""
  medicalConditions : String := ""
  startingDate : String := ""
  membershipNumber : String := ""
  position : String := ""
  rank : String := ""
  vehicleMake : String := ""
  vehicleModel : String := ""
  vehicleColor : String := ""
  vehicleRegistration : String := ""
  country : String := ""
  deriving DecidableEq, Repr

/-- The object `formData`: every control value trimmed. -/
def collectFormData (form : FormValues) : Record where
  idNumber := some (trim form.idNumber)
  name := some (trim form.name)
  contactNumber := some (trim form.contactNumber)
  iceContactName := some (trim form.iceContactName)
  iceContactNumber := some (trim form.iceContactNumber)
  medicalAidName := some (trim form.medicalAidName)
  medicalAidNumber := some (trim form.medicalAidNumber)
  medicalAidPlan := some (trim form.medicalAidPlan)
  allergies := some (trim form.allergies)
  medicalConditions := some (trim form.medicalConditions)
  startingDate := some (trim form.startingDate)
  membershipNumber := some (trim form.membershipNumber)
  position := some (trim form.position)
  rank := some (trim form.rank)
  vehicleMake := some (trim form.vehicleMake)
  vehicleModel := some (trim form.vehicleModel)
  vehicleColor := some (trim form.vehicleColor)
  vehicleRegistration := some (trim form.vehicleRegistration)
  country := some (trim form.country)

/-- The values of `requiredFields` in `formData`, in the order of the list. -/
def requiredFields (formData : Record) : List (Option String) :=
  [formData.idNumber, formData.name, formData.contactNumber, formData.iceContactName,
   formData.iceContactNumber, formData.startingDate, formData.membershipNumber,
   formData.position, formData.country]

/-- The list `missingFields`: the required fields whose value is falsy. -/
def missingFields (formData : Record) : List (Option String) :=
  (requiredFields formData).filter (fun v => !truthy v)

/-- The text `'Yes'` or `'No'` chosen by `hasMedicalInfo(v) ? 'Yes' : 'No'`. -/
def yesNo (v : Option String) : String := if hasMedicalInfo v then "Yes" else "No"

/-- The object `qrCodeData` of `generateIndividual`. -/
def qrCodeData (formData : Record) : Record where
  idNumber := formData.idNumber
  name := formData.name
  contactNumber := formData.contactNumber
  iceContactName := formData.iceContactName
  iceContactNumber := formData.iceContactNumber
  medicalAidName := formData.medicalAidName
  medicalAidNumber := formData.medicalAidNumber
  medicalAidPlan := formData.medicalAidPlan
  allergies := some (yesNo formData.allergies)
  medicalConditions := some (yesNo formData.medicalConditions)

/-- The object `discQrCodeData` of `generateIndividual`. -/
def discQrCodeData (formData : Record) : Record where
  idNumber := formData.idNumber
  name := formData.name
  contactNumber := formData.contactNumber
  iceContactName := formData.iceContactName
  iceContactNumber := formData.iceContactNumber
  medicalAidName := formData.medicalAidName
  medicalAidNumber := formData.medicalAidNumber
  medicalAidPlan := formData.medicalAidPlan
  allergies := some (yesNo formData.allergies)
  medicalConditions := some (yesNo formData.medicalConditions)
  vehicleMake := formData.vehicleMake
  vehicleModel := formData.vehicleModel
  vehicleRegistration := formData.vehicleRegistration

/-- The payload part of `generateIndividual`: `none` when a required field is
missing (the function alerts and returns before any payload is built),
otherwise the pair `(qrPayload, discPayload)`. -/
def generateIndividualPayloads (form : FormValues) : Option (String × String) :=
  let formData := collectFormData form
  if (missingFields formData).length > 0 then none
  else some (buildBadgeQRPayload (qrCodeData formData),
             buildDiscQRPayload (discQrCodeData formData))

/-! ## Record preparation in generateBulk (app.js 1743-1797) -/

/-- The expression `row.field || ''`. -/
def orEmpty (v : Option String) : Option String := some (orElse v "")

/-- The object `badgeQrCodeData` of `generateBulk`. -/
def badgeQrCodeData (row : Record) : Record where
  idNumber := orEmpty row.idNumber
  name := orEmpty row.name
  contactNumber := orEmpty row.contactNumber
  iceContactName := orEmpty row.iceContactName
  iceContactSurname := orEmpty row.iceContactSurname
  iceContactNumber := orEmpty row.iceContactNumber
  medicalAidName := orEmpty row.medicalAidName
  medicalAidNumber := orEmpty row.medicalAidNumber
  medicalAidPlan := orEmpty row.medicalAidPlan
  allergies := some (yesNo row.allergies)
  medicalConditions := some (yesNo row.medicalConditions)

/-- The object `discQrCodeData` of `generateBulk`. -/
def bulkDiscQrCodeData (row : Record) : Record where
  idNumber := orEmpty row.idNumber
  name := orEmpty row.name
  contactNumber := orEmpty row.contactNumber
  iceContactName := orEmpty row.iceContactName
  iceContactSurname := orEmpty row.iceContactSurname
  iceContactNumber := orEmpty row.iceContactNumber
  medicalAidName := orEmpty row.medicalAidName
  medicalAidNumber := orEmpty row.medicalAidNumber
  medicalAidPlan := orEmpty row.medicalAidPlan
  allergies := some (yesNo row.allergies)
  medicalConditions := some (yesNo row.medicalConditions)
  vehicleMake := orEmpty row.vehicleMake
  vehicleModel := orEmpty row.vehicleModel
  vehicleRegistration := orEmpty row.vehicleRegistration

/-- The payload part of one iteration of `generateBulk`: the pair
`(badgeQrDataStr, discQrDataStr)` built for the row. -/
def generateBulkPayloads (row : Record) : String × String :=
  (buildBadgeQRPayload (badgeQrCodeData row), buildDiscQRPayload (bulkDiscQrCodeData row))

/-- The minimal record of the end-to-end example, as form values. -/
def minimalForm : FormValues where
  idNumber := "1"
  name := "A B"
  contactNumber := "555"
  iceContactName := "C"
  iceContactNumber := "556"
  startingDate := "1/1/24"
  membershipNumber := "M1"
  position := "P"
  country := "X"

/-- The minimal record of the end-to-end example, as a row of `bulkData`. -/
def minimalRow : Record where
  idNumber := some "1"
  name := some "A B"
  contactNumber := some "555"
  iceContactName := some "C"
  iceContactNumber := some "556"
  medicalAidName := some ""
  medicalAidNumber := some ""
  medicalAidPlan := some ""
  allergies := some ""
  medicalConditions := some ""
  startingDate := some "1/1/24"
  membershipNumber := some "M1"
  position := some "P"
  rank := some ""
  vehicleMake := some ""
  vehicleModel := some ""
  vehicleRegistration := some ""
  country := some "X"

/-! ## Specification-side vocabulary

The definitions below follow the wording of the specification, not the code;
the theorems compare the code with them. -/

/-- Specification: the line of an optional field, `label` followed by the
value, or no line when the field is empty or absent. -/
def optionalLine (label : String) (v : Option String) : Option String :=
  match v with
  | none => none
  | some s => if s = "" then none else some (label ++ s)

/-- Specification: the value shown on a medical-status line, `No` in place of
an empty or absent value. -/
def statusValue (v : Option String) : String :=
  match v with
  | none => "No"
  | some s => if s = "" then "No" else s

/-- Specification: the identity, contact, emergency and medical-aid lines of
the badge, in their fixed order, empty fields left out. -/
def badgeOptionalLines (r : Record) : List String :=
  List.filterMap id
    [optionalLine "" r.name,
     optionalLine "" r.idNumber,
     optionalLine "" r.contactNumber,
     optionalLine "ICE: " r.iceContactName,
     optionalLine "ICE No.: " r.iceContactNumber,
     optionalLine "MED AID: " r.medicalAidName,
     optionalLine "" r.medicalAidPlan,
     optionalLine "" r.medicalAidNumber]

/-- Specification: the same lines for the disc, which carries no id line. -/
def discOptionalLines (r : Record) : List String :=
  List.filterMap id
    [optionalLine "" r.name,
     optionalLine "" r.contactNumber,
     optionalLine "ICE: " r.iceContactName,
     optionalLine "ICE No.: " r.iceContactNumber,
     optionalLine "MED AID: " r.medicalAidName,
     optionalLine "" r.medicalAidPlan,
     optionalLine "" r.medicalAidNumber]

/-- Specification: the two medical-status lines, always present. -/
def statusLines (r : Record) : List String :=
  ["Allergies: " ++ statusValue r.allergies,
   "Medical conditions: " ++ statusValue r.medicalConditions]

/-- Specification: the two medical-status lines of the pipeline, `Yes` when
`hasMedicalInfo` holds of the source field and `No` otherwise. -/
def normalisedStatusLines (allergies medicalConditions : Option String) : List String :=
  ["Allergies: " ++ (if hasMedicalInfo allergies then "Yes" else "No"),
   "Medical conditions: " ++ (if hasMedicalInfo medicalConditions then "Yes" else "No")]

/-- A record with every field of the payloads filled in. -/
def sampleRecord : Record where
  idNumber := some "1"
  name := some "A B"
  contactNumber := some "555"
  iceContactName := some "C"
  iceContactNumber := some "556"
  medicalAidName := some "Aid"
  medicalAidNumber := some "77"
  medicalAidPlan := some "Plan"
  allergies := some "Yes"
  medicalConditions := some "No"
  vehicleMake := some "Toyota"
  vehicleModel := some "Hilux"
  vehicleRegistration := some "CA 1"

/-- The sample record with two line feeds inside its name, as a spreadsheet
cell with line breaks provides. -/
def lineFeedRecord : Record := { sampleRecord with name := some "A\nB\nC" }

/-- The sample record with another vehicle. -/
def otherVehicleRecord : Record :=
  { sampleRecord with
    vehicleMake := some "Ford", vehicleModel := none, vehicleRegistration := some "" }

/-- Specification: the field is empty or absent. -/
def isEmptyField (v : Option String) : Prop := v = none ∨ v = some ""

instance (v : Option String) : Decidable (isEmptyField v) := by
  unfold isEmptyField; infer_instance

/-- Specification: every field of the record is empty or absent. -/
def Record.allEmpty (r : Record) : Prop :=
  isEmptyField r.idNumber ∧ isEmptyField r.name ∧ isEmptyField r.contactNumber ∧
  isEmptyField r.iceContactName ∧ isEmptyField r.iceContactSurname ∧
  isEmptyField r.iceContactNumber ∧ isEmptyField r.medicalAidName ∧
  isEmptyField r.medicalAidNumber ∧ isEmptyField r.medicalAidPlan ∧
  isEmptyField r.allergies ∧ isEmptyField r.medicalConditions ∧
  isEmptyField r.startingDate ∧ isEmptyField r.membershipNumber ∧
  isEmptyField r.position ∧ isEmptyField r.rank ∧ isEmptyField r.vehicleMake ∧
  isEmptyField r.vehicleModel ∧ isEmptyField r.vehicleColor ∧
  isEmptyField r.vehicleRegistration ∧ isEmptyField r.country

instance (r : Record) : Decidable r.allEmpty := by
  unfold Record.allEmpty; infer_instance

/-- A record whose every field is present and empty. -/
def blankRecord : Record where
  idNumber := some ""
  name := some ""
  contactNumber := some ""
  iceContactName := some ""
  iceContactSurname := some ""
  iceContactNumber := some ""
  medicalAidName := some ""
  medicalAidNumber := some ""
  medicalAidPlan := some ""
  allergies := some ""
  medicalConditions := some ""
  startingDate := some ""
  membershipNumber := some ""
  position := some ""
  rank := some ""
  vehicleMake := some ""
  vehicleModel := some ""
  vehicleColor := some ""
  vehicleRegistration := some ""
  country := some ""

/-- Specification: the vehicle block of the disc, up to three lines. -/
def vehicleBlock (r : Record) : List String :=
  List.filterMap id
    [optionalLine "Vehicle Info: " r.vehicleMake,
     optionalLine "" r.vehicleModel,
     optionalLine "" r.vehicleRegistration]

/-- Specification: a record with its three vehicle fields removed. -/
def withoutVehicle (r : Record) : Record :=
  { r with vehicleMake := none, vehicleModel := none, vehicleRegistration := none }

/-- Specification: no line feed occurs in the field. -/
def noLineFeed (v : Option String) : Prop :=
  match v with
  | none => True
  | some s => '\n' ∉ s.data

instance (v : Option String) : Decidable (noLineFeed v) := by
  cases v <;> unfold noLineFeed <;> infer_instance

/-- Specification: no line feed occurs in any field the builders read. -/
def Record.noLineFeeds (r : Record) : Prop :=
  noLineFeed r.name ∧ noLineFeed r.idNumber ∧ noLineFeed r.contactNumber ∧
  noLineFeed r.iceContactName ∧ noLineFeed r.iceContactNumber ∧
  noLineFeed r.medicalAidName ∧ noLineFeed r.medicalAidPlan ∧
  noLineFeed r.medicalAidNumber ∧ noLineFeed r.allergies ∧
  noLineFeed r.medicalConditions ∧ noLineFeed r.vehicleMake ∧
  noLineFeed r.vehicleModel ∧ noLineFeed r.vehicleRegistration

instance (r : Record) : Decidable r.noLineFeeds := by
  unfold Record.noLineFeeds; infer_instance

/-- Specification: the text consists of white space only. -/
def allWhiteSpace (s : String) : Prop := ∀ c ∈ s.data, isWhiteSpace c = true

instance (s : String) : Decidable (allWhiteSpace s) := by
  unfold allWhiteSpace; infer_instance

/-- Specification: the words of a character sequence, the maximal pieces free
of white space, with `cur` the word being read (reversed). -/
def wordsAux : List Char → List Char → List (List Char)
  | [], cur => if cur = [] then [] else [cur.reverse]
  | c :: cs, cur =>
    if isWhiteSpace c then
      (if cur = [] then wordsAux cs [] else cur.reverse :: wordsAux cs [])
    else wordsAux cs (c :: cur)

/-- Specification: a text read without regard to letter case and to white
space, leading, trailing or between words: its lower-cased words. -/
def caseSpaceNormalForm (s : String) : List (List Char) :=
  wordsAux (toLowerCase s).data []

/-- Specification: two texts differ only in letter case and in white space. -/
def differOnlyInCaseAndSpace (u v : String) : Prop :=
  caseSpaceNormalForm u = caseSpaceNormalForm v

instance (u v : String) : Decidable (differOnlyInCaseAndSpace u v) := by
  unfold differOnlyInCaseAndSpace; infer_instance

/-! ## File names (app.js 1158-1181, 2033-2053) -/

/-- The loop behind `s.replace(/\s+/g, '_')`: every character outside white
space is copied, and one underscore is written for each maximal run of white
space; `inRun` records that the preceding character belonged to the run
already replaced. -/
def replaceWhiteSpaceRuns : Bool → List Char → List Char
  | _, [] => []
  | inRun, c :: cs =>
    if isWhiteSpace c then
      (if inRun then replaceWhiteSpaceRuns true cs else '_' :: replaceWhiteSpaceRuns true cs)
    else c :: replaceWhiteSpaceRuns false cs

/-- The expression `name.replace(/\s+/g, '_')`. -/
def sanitizeName (name : String) : String := ⟨replaceWhiteSpaceRuns false name.data⟩

/-- The loop behind `s.split(/\s+/)`: the pieces between maximal runs of white
space, an empty piece standing before a leading run and after a trailing one;
`inRun` records that the preceding character belonged to the current
separator. -/
def splitWhiteSpaceRuns : Bool → List Char → List (List Char)
  | _, [] => [[]]
  | inRun, c :: cs =>
    if isWhiteSpace c then
      (if inRun then splitWhiteSpaceRuns true cs else [] :: splitWhiteSpaceRuns true cs)
    else
      (c :: (splitWhiteSpaceRuns false cs).headD []) :: (splitWhiteSpaceRuns false cs).tail

/-- The expression `s.split(/\s+/)`. -/
def splitWhiteSpace (s : String) : List String :=
  (splitWhiteSpaceRuns false s.data).map String.mk

/-- The constant `fileExtension` of `downloadAll`. -/
def fileExtension (fileFormat : String) : String :=
  if fileFormat = "docx" then "docx" else "pdf"

/-- The constant `fileName` of `downloadAll` for an item of the cache with the
given `name` and `type`. -/
def archiveFileName (name type fileFormat : String) : String :=
  sanitizeName name ++ "_" ++ type ++ "." ++ fileExtension fileFormat

/-- The file name handed to the converter by `downloadIndividual(type)`: the
value of the name control is trimmed, its white space replaced, and the
extension chosen by the selected file format. -/
def downloadIndividualFileName (nameValue type fileFormat : String) : String :=
  let name := trim nameValue
  let fullName := sanitizeName name
  if fileFormat = "docx" then fullName ++ "_" ++ type ++ ".docx"
  else fullName ++ "_" ++ type ++ ".pdf"

/-! ## Badge text fields (app.js 856-967) -/

/-- The expression `s.includes(sub)`. -/
def includes (s sub : String) : Bool := decide (sub.data <:+: s.data)

/-- The pieces of a character sequence between occurrences of `sep`. -/
def splitAt (sep : Char) : List Char → List (List Char)
  | [] => [[]]
  | c :: cs =>
    if c = sep then [] :: splitAt sep cs
    else (c :: (splitAt sep cs).headD []) :: (splitAt sep cs).tail

/-- The expression `s.split(',')`. -/
def splitComma (s : String) : List String := (splitAt ',' s.data).map String.mk

/-- The two readings of `new Date()` taken by `createBadge`: `getFullYear()`
and `getMonth()`, the latter from 0 (January) to 11 (December). -/
structure JsDate where
  fullYear : Int
  month : Fin 12
  deriving DecidableEq, Repr

/-- The constant `expiryYear`. -/
def expiryYear (today : JsDate) : Int :=
  if today.month.val = 11 then today.fullYear + 1 else today.fullYear

/-- The constant `expiryDateStr`. -/
def expiryDateStr (today : JsDate) : String := "31/12/" ++ toString (expiryYear today)

/-- What `createBadge` needs to know of a `text` element of the template: its
`textContent`, and whether `querySelector('tspan')` finds a `tspan` in it. -/
structure TextElement where
  textContent : String
  hasTspan : Bool
  deriving DecidableEq, Repr

/-- The changes `createBadge` makes to one `text` element. -/
inductive TextEffect where
  /-- The call `updateTextContent(textElement, newText)`; `none` is the value
  `undefined`. -/
  | updateTextContent (newText : Option String)
  /-- The statements `textElement.style.display = 'none'` and
  `textElement.setAttribute('visibility', 'hidden')`; the element stays in
  the document. -/
  | hide
  /-- The content is cleared and one `tspan` is appended per rank, the first
  at the position of the old `tspan`, each further one a line below
  (`dy = 1.2em`). -/
  | setTspans (ranks : List String)
  deriving DecidableEq, Repr

/-- The constant `ranksToDisplay` built from `displayInfo.rank`. -/
def ranksToDisplay (rank : String) : List String :=
  let ranks := ((splitComma rank).map trim).filter (fun r => r.length > 0)
  ranks.take 5

/-- The statements of `createBadge` on the element that reads `Rank`. -/
def rankEffects (rank : Option String) (el : TextElement) : List TextEffect :=
  match rank with
  | none => [TextEffect.hide]
  | some r =>
    if r = "" then [TextEffect.hide]
    else
      let rankLower := trim (toLowerCase r)
      if rankLower = "none" ∨ rankLower = "n/a" ∨ rankLower = "" then [TextEffect.hide]
      else
        let shown := ranksToDisplay r
        if el.hasTspan ∧ shown.length > 1 then [TextEffect.setTspans shown]
        else [TextEffect.updateTextContent shown.head?]

/-- The body of the loop of `createBadge` over the `text` elements, for one
element: the changes made to it, in the order of the statements.  `name` is
the parameter `name`, `displayInfo` the parameter of that name (`none` for
`null`); the conditions all read the trimmed text the element had before. -/
def badgeTextEffects (today : JsDate) (name : String) (displayInfo : Option Record)
    (el : TextElement) : List TextEffect :=
  match displayInfo with
  | none => []
  | some info =>
    let textContent := trim el.textContent
    let nameFx :=
      if toLowerCase textContent = "name surname" ∨ textContent = "name surname" then
        (if truthy info.name then [TextEffect.updateTextContent info.name]
         else [TextEffect.updateTextContent (some name)])
      else []
    let memberFx :=
      if (includes textContent "MemberNo:" ∨ includes textContent "Member No:")
          ∧ truthy info.membershipNumber then
        [TextEffect.updateTextContent (some ("Member No: " ++ orElse info.membershipNumber ""))]
      else []
    let joinedFx :=
      if includes textContent "Joined:" ∧ truthy info.startingDate then
        [TextEffect.updateTextContent (some ("Joined: " ++ orElse info.startingDate ""))]
      else []
    let expiryFx :=
      if includes textContent "Card Expires:" ∨ includes textContent "Cardexpires:" then
        [TextEffect.updateTextContent (some ("Card Expires: " ++ expiryDateStr today))]
      else []
    let positionFx :=
      if textContent = "Position" ∧ truthy info.position then
        [TextEffect.updateTextContent info.position]
      else []
    let rankFx := if textContent = "Rank" then rankEffects info.rank el else []
    nameFx ++ memberFx ++ joinedFx ++ expiryFx ++ positionFx ++ rankFx

/-! ## generateIndividual: what is created (app.js 296-425) -/

/-- The calls `generateIndividual` makes after reading the form. -/
inductive IndividualAction where
  /-- The call `alert('Please fill in all required fields marked with *')`. -/
  | alert
  /-- The call `createBadge(fullName, qrPayload, ...)`. -/
  | createBadge (qrPayload : String)
  /-- The call `createDisc(fullName, discPayload, ...)`. -/
  | createDisc (discPayload : String)
  deriving DecidableEq, Repr

/-- The calls made by `generateIndividual` for the selected `type`:
the alert alone when a required field is missing, otherwise the badge and the
disc the type asks for.  `badgeThrows` tells whether `createBadge` throws, in
which case the function is left before the disc. -/
def generateIndividual (type : String) (form : FormValues) (badgeThrows : Bool) :
    List IndividualAction :=
  let formData := collectFormData form
  if (missingFields formData).length > 0 then [IndividualAction.alert]
  else
    let qrPayload := buildBadgeQRPayload (qrCodeData formData)
    let discPayload := buildDiscQRPayload (discQrCodeData formData)
    if type = "badge" ∨ type = "both" then
      if badgeThrows then [IndividualAction.createBadge qrPayload]
      else if type = "disc" ∨ type = "both" then
        [IndividualAction.createBadge qrPayload, IndividualAction.createDisc discPayload]
      else [IndividualAction.createBadge qrPayload]
    else if type = "disc" ∨ type = "both" then [IndividualAction.createDisc discPayload]
    else []

/-- Specification: the ranks a list of changes leaves on display in the Rank
region, judged by the last change. -/
def displayedRanks (fx : List TextEffect) : List String :=
  match fx.getLast? with
  | some (TextEffect.updateTextContent (some t)) => [t]
  | some (TextEffect.setTspans ranks) => ranks
  | _ => []

/-- Specification: the comma-separated entries of a rank string, each
trimmed, the empty ones dropped. -/
def rankEntries (rank : String) : List String :=
  ((splitComma rank).map trim).filter (fun r => r ≠ "")

/-- Specification: the rank field is suppressed: absent, empty, white space
only, or `none` or `n/a` up to letter case and surrounding white space. -/
def rankSuppressed (rank : Option String) : Prop :=
  match rank with
  | none => True
  | some r => r = "" ∨ allWhiteSpace r ∨ toLowerCase (trim r) = "none" ∨
      toLowerCase (trim r) = "n/a"

instance (rank : Option String) : Decidable (rankSuppressed rank) := by
  cases rank <;> unfold rankSuppressed <;> infer_instance

/-- The Rank element of a template, with and without a `tspan`. -/
def rankElement (hasTspan : Bool) : TextElement :=
  { textContent := "Rank", hasTspan := hasTspan }

/-- A date in June 2025 and one in December 2025. -/
def sampleDates : JsDate × JsDate := ({ fullYear := 2025, month := 5 }, { fullYear := 2025, month := 11 })

/-! ## JavaScript numbers

A number is `NaN`, an infinity or a finite value.  A finite value is the
rational number a binary64 floating-point number stands for; the operators
`*` and `/`, the decimal literals of the code and `parseFloat` round the exact
result to the nearest binary64 number, a tie going to the even significand
(`roundDouble`).  The two zeros are one value. -/

/-- A JavaScript number. -/
inductive JsNumber where
  | nan
  | posInf
  | negInf
  | fin (q : ℚ)
  deriving DecidableEq, Repr

/-- The power of two `2 ^ e`. -/
def twoPow (e : Int) : ℚ :=
  if 0 ≤ e then ((2 ^ e.toNat : Nat) : ℚ) else 1 / ((2 ^ (-e).toNat : Nat) : ℚ)

/-- The number of halvings that take `n` below 2, at most `fuel` of them. -/
def floorLog2Aux : Nat → Nat → Nat
  | 0, _ => 0
  | fuel + 1, n => if 2 ≤ n then floorLog2Aux fuel (n / 2) + 1 else 0

/-- The binary logarithm of a positive natural number, rounded down. -/
def floorLog2 (n : Nat) : Nat := floorLog2Aux n n

/-- The binary exponent of a positive rational `a`: the integer `e` with
`2 ^ e ≤ a < 2 ^ (e + 1)`. -/
def binaryExponent (a : ℚ) : Int :=
  let e0 : Int := (floorLog2 a.num.natAbs : Int) - (floorLog2 a.den : Int)
  if twoPow e0 ≤ a then e0 else e0 - 1

/-- The integer nearest to `x`, a tie going to the even one. -/
def roundHalfEven (x : ℚ) : Int :=
  let f := ⌊x⌋
  let d := x - f
  if d < 1 / 2 then f else if 1 / 2 < d then f + 1 else if f % 2 = 0 then f else f + 1

/-- The binary64 number nearest to the real number `q` (round to nearest, ties
to even): 53 significant bits, the least exponent -1022 (below it the numbers
are subnormal, multiples of `2 ^ -1074`), and an infinity from `2 ^ 1024`
on. -/
def roundDouble (q : ℚ) : JsNumber :=
  if q = 0 then JsNumber.fin 0
  else
    let a := if 0 < q then q else -q
    let e := max (binaryExponent a) (-1022)
    let ulp := twoPow (e - 52)
    let r := (roundHalfEven (a / ulp) : ℚ) * ulp
    if twoPow 1024 ≤ r then (if 0 < q then JsNumber.posInf else JsNumber.negInf)
    else JsNumber.fin (if 0 < q then r else -r)

namespace JsNumber

/-- Sign of a number: `1`, `0` or `-1`; `0` for `NaN`. -/
def sign : JsNumber → Int
  | nan => 0
  | posInf => 1
  | negInf => -1
  | fin q => if 0 < q then 1 else if q < 0 then -1 else 0

/-- The infinity of the given sign, `NaN` for the sign `0`. -/
def ofSign (s : Int) : JsNumber :=
  if 0 < s then posInf else if s < 0 then negInf else nan

/-- The operator `*`: the exact product, rounded. -/
def mul : JsNumber → JsNumber → JsNumber
  | fin a, fin b => roundDouble (a * b)
  | nan, _ => nan
  | _, nan => nan
  | a, b => ofSign (sign a * sign b)

/-- The operator `/`: the exact quotient, rounded; a zero divisor counts as
positive. -/
def div : JsNumber → JsNumber → JsNumber
  | nan, _ => nan
  | _, nan => nan
  | fin a, fin b => if b = 0 then ofSign (sign (fin a)) else roundDouble (a / b)
  | fin _, _ => fin 0
  | _, posInf => nan
  | _, negInf => nan
  | a, fin b => if b < 0 then ofSign (- sign a) else a

/-- The operator `>`. -/
def gt : JsNumber → JsNumber → Bool
  | nan, _ => false
  | _, nan => false
  | fin a, fin b => decide (b < a)
  | posInf, posInf => false
  | posInf, _ => true
  | _, posInf => false
  | negInf, _ => false
  | _, negInf => true

/-- The function `Math.round`: the nearest integer, a tie going up.  The
result is exact: the integer nearest to a binary64 number is a binary64
number. -/
def round : JsNumber → JsNumber
  | fin q => fin (⌊q + 1 / 2⌋ : Int)
  | x => x

end JsNumber

/-- Value of a run of decimal digits. -/
def digitsValue (ds : List Char) : Nat :=
  ds.foldl (fun n c => 10 * n + (c.toNat - 48)) 0

/-- The exponent part of a decimal literal at the head of `t`: `e` or `E`, an
optional sign and at least one digit; `0` when there is none. -/
def exponentPart (t : List Char) : Int :=
  match t with
  | [] => 0
  | c :: r =>
    if c = 'e' ∨ c = 'E' then
      match r with
      | '-' :: ds =>
        if ds.takeWhile Char.isDigit = [] then 0
        else - (digitsValue (ds.takeWhile Char.isDigit) : Int)
      | '+' :: ds => (digitsValue (ds.takeWhile Char.isDigit) : Int)
      | ds => (digitsValue (ds.takeWhile Char.isDigit) : Int)
    else 0

/-- The unsigned decimal literal at the head of `t`: digits, an optional
fraction and an optional exponent, rounded to the nearest binary64 number;
`NaN` when no digit stands there. -/
def unsignedDecimal (t : List Char) : JsNumber :=
  let intDigits := t.takeWhile Char.isDigit
  let afterInt := t.dropWhile Char.isDigit
  let fracDigits :=
    match afterInt with
    | '.' :: r => r.takeWhile Char.isDigit
    | _ => []
  let afterFrac :=
    match afterInt with
    | '.' :: r => r.dropWhile Char.isDigit
    | _ => afterInt
  if intDigits = [] ∧ fracDigits = [] then JsNumber.nan
  else
    let mantissa : ℚ := (digitsValue (intDigits ++ fracDigits) : ℚ) / (10 ^ fracDigits.length : Nat)
    let e := exponentPart afterFrac
    if 0 ≤ e then roundDouble (mantissa * (10 ^ e.toNat : Nat))
    else roundDouble (mantissa / (10 ^ (-e).toNat : Nat))

/-- The literal after the sign: `Infinity` or an unsigned decimal. -/
def unsignedLiteral (t : List Char) : JsNumber :=
  if "Infinity".data.isPrefixOf t then JsNumber.posInf else unsignedDecimal t

/-- Model of the global function `parseFloat` on a string: leading white
space is skipped and the longest prefix that is a decimal literal is
evaluated; `NaN` when there is none. -/
def parseFloat (s : String) : JsNumber :=
  match s.data.dropWhile isWhiteSpace with
  | '-' :: r => JsNumber.mul (JsNumber.fin (-1)) (unsignedLiteral r)
  | '+' :: r => unsignedLiteral r
  | t => unsignedLiteral t

/-- The call `parseFloat(v)` on the result of `getAttribute` or on an array
element: `null` and `undefined` read as `NaN`. -/
def parseFloatOf (v : Option String) : JsNumber :=
  match v with
  | none => JsNumber.nan
  | some s => parseFloat s

/-! ## The resolved document read by the exporters (app.js 2089-2470)

The exporters parse the serialized document again; the model starts from the
parsed document: the three attributes of the root element that are read, and
the elements below it in document order, each with the attributes the
exporters look at. -/

/-- An element of the parsed document. -/
structure SvgElement where
  tag : String
  id : Option String := none
  /-- The attribute `href` in no namespace (`getAttribute('href')`). -/
  href : Option String := none
  /-- The attribute `href` of the XLink namespace (`getAttributeNS`). -/
  xlinkHref : Option String := none
  x : Option String := none
  y : Option String := none
  width : Option String := none
  height : Option String := none
  deriving DecidableEq, Repr

/-- The parsed document: `width`, `height` and `viewBox` of the root element
(`none` when `getAttribute` returns `null`) and the elements in document
order. -/
structure SvgDocument where
  width : Option String := none
  height : Option String := none
  viewBox : Option String := none
  elements : List SvgElement := []
  deriving DecidableEq, Repr

/-- The selector `image[id*="QR"], image[id*="PHQR"]` on one element. -/
def matchesQrSelector (el : SvgElement) : Bool :=
  (el.tag == "image") &&
    (match el.id with
     | none => false
     | some i => includes i "QR" || includes i "PHQR")

/-- The call `svgDoc.querySelectorAll('image[id*="QR"], image[id*="PHQR"]')`:
the matching elements in document order. -/
def imageElements (doc : SvgDocument) : List SvgElement :=
  doc.elements.filter matchesQrSelector

/-- The expression `getAttribute('href') || getAttributeNS(xlink, 'href')`. -/
def hrefOf (el : SvgElement) : Option String :=
  if truthy el.href then el.href else el.xlinkHref

/-- The test `href && href.startsWith('data:image')`. -/
def isDataImage (href : Option String) : Bool :=
  match href with
  | none => false
  | some h => (h != "") && "data:image".data.isPrefixOf h.data

/-- An image drawn on the canvas: `ctx.drawImage(image, x, y, w, h)`. -/
structure Overlay where
  dataUrl : String
  x : JsNumber
  y : JsNumber
  w : JsNumber
  h : JsNumber
  deriving DecidableEq, Repr

/-- The value `canvas.width` (or `canvas.height`) holds after the assignment
of the number `v`.  The attribute is an `unsigned long`: `NaN` and the
infinities are converted to 0, a finite number loses its fraction and is
reduced modulo `2 ^ 32`; a value above 2147483647 is replaced by the default
of the attribute, 300 for the width and 150 for the height. -/
def canvasSize (default : Nat) (v : JsNumber) : Nat :=
  match v with
  | JsNumber.fin q =>
    let n : Int := if 0 ≤ q then ⌊q⌋ else -⌊-q⌋
    let m := (n % 4294967296).toNat
    if m ≤ 2147483647 then m else default
  | _ => 0

/-- The canvas an exporter paints: the constant `scale`, the size of the
canvas as read back from `canvas.width` and `canvas.height`, painted white and
then with the document over the whole of it, and the overlaid images in
order. -/
structure Raster where
  scale : JsNumber
  width : Nat
  height : Nat
  overlays : List Overlay
  deriving DecidableEq, Repr

/-- What the browser does with the images an exporter loads. -/
structure RenderEnv where
  /-- The document itself loads as an image (`img.onload` rather than
  `img.onerror`). -/
  svgLoads : Bool
  /-- The image of the given data URL loads. -/
  imageLoads : String → Bool
  /-- The call `canvas.toBlob` produces a blob. -/
  blobCreated : Bool

/-- State in which a promise ends. -/
inductive Settled (α : Type) where
  | resolved (value : α)
  | rejected
  /-- The promise is never settled. -/
  | pending
  deriving DecidableEq, Repr

/-- The arguments `convertSvgToPdfBlob` hands to jsPDF: the constructor
options, the rectangle of `addImage`, and the canvas whose picture is added. -/
structure PdfOutput where
  orientation : String
  unit : String
  format : JsNumber × JsNumber
  imageX : JsNumber
  imageY : JsNumber
  imageWidth : JsNumber
  imageHeight : JsNumber
  raster : Raster
  deriving DecidableEq, Repr

/-- The numbers `convertSvgToDocxBlob` writes into `word/document.xml`, the
constants `pageWidthMm` and `pageHeightMm` they are computed from, and the
canvas whose picture is stored as `word/media/image1.png`. -/
structure DocxOutput where
  pageWidthMm : JsNumber
  pageHeightMm : JsNumber
  widthEMU : JsNumber
  heightEMU : JsNumber
  pageWidthTwips : JsNumber
  pageHeightTwips : JsNumber
  orientation : String
  /-- The attributes of `w:pgMar`: top, right, bottom, left, header, footer,
  gutter. -/
  margins : List String
  raster : Raster
  deriving DecidableEq, Repr

/-- `convertSvgToPdfBlob(svgContent)`, on the parsed document.  The calls
into the canvas and into jsPDF are taken to return: the promise is rejected
when an image does not load. -/
def convertSvgToPdfBlob (env : RenderEnv) (doc : SvgDocument) : Settled PdfOutput :=
  let widthAttr := doc.width
  let heightAttr := doc.height
  let viewBox := doc.viewBox
  let parts := splitWhiteSpace (viewBox.getD "")
  let canvasWidth := if truthy viewBox then parseFloatOf parts[2]? else JsNumber.fin 595
  let canvasHeight := if truthy viewBox then parseFloatOf parts[3]? else JsNumber.fin 842
  let pdfWidthMm :=
    if truthy widthAttr ∧ includes (widthAttr.getD "") "mm" then parseFloatOf widthAttr
    else if truthy widthAttr then
      JsNumber.mul (JsNumber.div (parseFloatOf widthAttr) (JsNumber.fin 96)) (roundDouble 25.4)
    else JsNumber.mul (JsNumber.div canvasWidth (JsNumber.fin 96)) (roundDouble 25.4)
  let pdfHeightMm :=
    if truthy heightAttr ∧ includes (heightAttr.getD "") "mm" then parseFloatOf heightAttr
    else if truthy heightAttr then
      JsNumber.mul (JsNumber.div (parseFloatOf heightAttr) (JsNumber.fin 96)) (roundDouble 25.4)
    else JsNumber.mul (JsNumber.div canvasHeight (JsNumber.fin 96)) (roundDouble 25.4)
  let qrImages := (imageElements doc).filter (fun img => isDataImage (hrefOf img))
  let scale := if JsNumber.gt pdfWidthMm (JsNumber.fin 250) then JsNumber.fin 10 else JsNumber.fin 3
  let canvas : Raster :=
    { scale := scale
      width := canvasSize 300 (JsNumber.mul canvasWidth scale)
      height := canvasSize 150 (JsNumber.mul canvasHeight scale)
      overlays := qrImages.map (fun img =>
        { dataUrl := (hrefOf img).getD ""
          x := JsNumber.mul (parseFloatOf img.x) scale
          y := JsNumber.mul (parseFloatOf img.y) scale
          w := JsNumber.mul (parseFloatOf img.width) scale
          h := JsNumber.mul (parseFloatOf img.height) scale }) }
  if !env.svgLoads then Settled.rejected
  else if qrImages.any (fun img => !env.imageLoads ((hrefOf img).getD "")) then Settled.rejected
  else
    Settled.resolved
      { orientation := if JsNumber.gt pdfWidthMm pdfHeightMm then "landscape" else "portrait"
        unit := "mm"
        format := (pdfWidthMm, pdfHeightMm)
        imageX := JsNumber.fin 0
        imageY := JsNumber.fin 0
        imageWidth := pdfWidthMm
        imageHeight := pdfHeightMm
        raster := canvas }

/-- `convertSvgToDocxBlob(svgContent)`, on the parsed document.  An overlaid
image that does not load leaves the promise pending: its `onerror` is not
handled.  The calls into the canvas, the file reader and JSZip are taken to
return. -/
def convertSvgToDocxBlob (env : RenderEnv) (doc : SvgDocument) : Settled DocxOutput :=
  let widthAttr := doc.width
  let heightAttr := doc.height
  let viewBox := doc.viewBox
  let parts := splitWhiteSpace (viewBox.getD "")
  let canvasWidth := if truthy viewBox then parseFloatOf parts[2]? else JsNumber.fin 595
  let canvasHeight := if truthy viewBox then parseFloatOf parts[3]? else JsNumber.fin 842
  let pageWidthMm :=
    if truthy widthAttr ∧ includes (widthAttr.getD "") "mm" then parseFloatOf widthAttr
    else if truthy widthAttr then
      JsNumber.mul (JsNumber.div (parseFloatOf widthAttr) (JsNumber.fin 96)) (roundDouble 25.4)
    else JsNumber.mul (JsNumber.div canvasWidth (JsNumber.fin 96)) (roundDouble 25.4)
  let pageHeightMm :=
    if truthy heightAttr ∧ includes (heightAttr.getD "") "mm" then parseFloatOf heightAttr
    else if truthy heightAttr then
      JsNumber.mul (JsNumber.div (parseFloatOf heightAttr) (JsNumber.fin 96)) (roundDouble 25.4)
    else JsNumber.mul (JsNumber.div canvasHeight (JsNumber.fin 96)) (roundDouble 25.4)
  let scale := if JsNumber.gt pageWidthMm (JsNumber.fin 250) then JsNumber.fin 10 else JsNumber.fin 3
  let isLandscape := JsNumber.gt pageWidthMm pageHeightMm
  let drawn := (imageElements doc).filter (fun imgEl => isDataImage (hrefOf imgEl))
  let canvas : Raster :=
    { scale := scale
      width := canvasSize 300 (JsNumber.mul canvasWidth scale)
      height := canvasSize 150 (JsNumber.mul canvasHeight scale)
      overlays := drawn.map (fun imgEl =>
        { dataUrl := (hrefOf imgEl).getD ""
          x := JsNumber.mul (parseFloatOf imgEl.x) scale
          y := JsNumber.mul (parseFloatOf imgEl.y) scale
          w := JsNumber.mul (parseFloatOf imgEl.width) scale
          h := JsNumber.mul (parseFloatOf imgEl.height) scale }) }
  if !env.svgLoads then Settled.rejected
  else if drawn.any (fun imgEl => !env.imageLoads ((hrefOf imgEl).getD "")) then Settled.pending
  else if !env.blobCreated then Settled.rejected
  else
    Settled.resolved
      { pageWidthMm := pageWidthMm
        pageHeightMm := pageHeightMm
        widthEMU :=
          JsNumber.round (JsNumber.mul (JsNumber.div pageWidthMm (roundDouble 25.4))
            (JsNumber.fin 914400))
        heightEMU :=
          JsNumber.round (JsNumber.mul (JsNumber.div pageHeightMm (roundDouble 25.4))
            (JsNumber.fin 914400))
        pageWidthTwips := JsNumber.round (JsNumber.mul pageWidthMm (roundDouble 56.692913386))
        pageHeightTwips := JsNumber.round (JsNumber.mul pageHeightMm (roundDouble 56.692913386))
        orientation := if isLandscape then "landscape" else "portrait"
        margins := ["0", "0", "0", "0", "0", "0", "0"]
        raster := canvas }

/-- An environment in which every image loads and the blob is created. -/
def allLoads : RenderEnv :=
  { svgLoads := true, imageLoads := fun _ => true, blobCreated := true }

/-- A page of 210 mm by 297 mm with a view box of other proportions. -/
def a4Document : SvgDocument :=
  { width := some "210mm", height := some "297mm", viewBox := some "0 -5 1000 400" }

/-- A page of 297 mm by 210 mm. -/
def wideDocument : SvgDocument :=
  { width := some "297mm", height := some "210mm", viewBox := some "0 0 297 210" }

/-- A page whose width is given in millimetres and whose height in pixels. -/
def mixedUnitsDocument : SvgDocument :=
  { width := some "76.2mm", height := some "288", viewBox := some "0 0 288 288" }

/-- A document without `width` and `height`, with a view box of a width that
is not a whole number. -/
def fractionalDocument : SvgDocument :=
  { viewBox := some "0 0 85.6 54" }

/-! ## Specification-side vocabulary of the exporters -/

/-- Specification: the width of the view box, the third number of a non-empty
`viewBox` attribute, and 595 when there is no view box. -/
def viewBoxWidth (doc : SvgDocument) : JsNumber :=
  match doc.viewBox with
  | none => JsNumber.fin 595
  | some v => if v = "" then JsNumber.fin 595 else parseFloatOf (splitWhiteSpace v)[2]?

/-- Specification: the height of the view box, the fourth number of a
non-empty `viewBox` attribute, and 842 when there is no view box. -/
def viewBoxHeight (doc : SvgDocument) : JsNumber :=
  match doc.viewBox with
  | none => JsNumber.fin 842
  | some v => if v = "" then JsNumber.fin 842 else parseFloatOf (splitWhiteSpace v)[3]?

/-- Specification: pixels to millimetres at 96 pixels and 25.4 millimetres to
the inch. -/
def pxToMm (px : JsNumber) : JsNumber :=
  JsNumber.mul (JsNumber.div px (JsNumber.fin 96)) (roundDouble 25.4)

/-- Specification: the physical size in millimetres declared by a `width` or
`height` attribute: its number when the attribute contains `mm`; otherwise,
when the attribute has a value, its number taken as pixels; otherwise the size
of the view box taken as pixels. -/
def physicalSize (attr : Option String) (viewBoxSize : JsNumber) : JsNumber :=
  match attr with
  | none => pxToMm viewBoxSize
  | some a =>
    if a = "" then pxToMm viewBoxSize
    else if includes a "mm" then parseFloat a
    else pxToMm (parseFloat a)

/-- Specification: the physical width of the document in millimetres. -/
def widthMm (doc : SvgDocument) : JsNumber := physicalSize doc.width (viewBoxWidth doc)

/-- Specification: the physical height of the document in millimetres. -/
def heightMm (doc : SvgDocument) : JsNumber := physicalSize doc.height (viewBoxHeight doc)

/-- Specification: the render scale of a physical width: 10 above 250 mm, 3
otherwise. -/
def renderScale (widthMm : JsNumber) : JsNumber :=
  if JsNumber.gt widthMm (JsNumber.fin 250) then JsNumber.fin 10 else JsNumber.fin 3

/-- Specification: landscape when the width exceeds the height, portrait
otherwise. -/
def orientationOf (widthMm heightMm : JsNumber) : String :=
  if JsNumber.gt widthMm heightMm then "landscape" else "portrait"

/-- Specification: the rectangle of an image element multiplied by the scale. -/
def overlayOf (scale : JsNumber) (el : SvgElement) : Overlay :=
  { dataUrl := (hrefOf el).getD ""
    x := JsNumber.mul (parseFloatOf el.x) scale
    y := JsNumber.mul (parseFloatOf el.y) scale
    w := JsNumber.mul (parseFloatOf el.width) scale
    h := JsNumber.mul (parseFloatOf el.height) scale }

/-- Specification: the element is re-drawn by the second pass: an `image`
whose id contains `QR` and whose href is a `data:image` URL. -/
def isRedrawn (el : SvgElement) : Bool :=
  matchesQrSelector el && isDataImage (hrefOf el)

/-- Specification: the canvas of a document: view box times scale in whole
pixels, with the re-drawn images in document order. -/
def rasterOf (doc : SvgDocument) : Raster :=
  { scale := renderScale (widthMm doc)
    width := canvasSize 300 (JsNumber.mul (viewBoxWidth doc) (renderScale (widthMm doc)))
    height := canvasSize 150 (JsNumber.mul (viewBoxHeight doc) (renderScale (widthMm doc)))
    overlays := (doc.elements.filter isRedrawn).map (overlayOf (renderScale (widthMm doc))) }

/-- Specification: the ids of the image nodes that resolution inserts. -/
def filledIds : List String :=
  ["QRB1-filled", "QRB2-filled", "PHQR-filled", "PB1-filled", "PB2-filled", "PHF1-filled",
   "PHF2-filled", "PHF-filled"]

/-- A resolved badge holding a code image, a photo and a flag. -/
def resolvedBadge : SvgDocument :=
  { width := some "85.6mm", height := some "54mm", viewBox := some "0 0 3000 2000"
    elements :=
      [ { tag := "image", id := some "QRB1-filled", href := some "data:image/png;base64,AAAA",
          xlinkHref := some "data:image/png;base64,AAAA",
          x := some "352.50965", y := some "-475.41942", width := some "608.51559",
          height := some "546.501291" },
        { tag := "image", id := some "PB1-filled",
          xlinkHref := some "data:image/jpeg;base64,BBBB",
          x := some "561.42716", y := some "418.3492", width := some "388.95755",
          height := some "493.9761" },
        { tag := "image", id := some "PHF1-filled", href := some "data:image/svg+xml;base64,CCCC",
          xlinkHref := some "data:image/svg+xml;base64,CCCC",
          x := some "918.31811", y := some "2420.2032", width := some "242.67909",
          height := some "171.7762" } ] }

/-! ## generateBulk, createBulkBadge, createBulkDisc (app.js 1704-1990) -/

/-- How `createBadge` or `createDisc` ends for a row: with a wrapper that
holds the resolved document, without one (the template is not loaded, the
function returns early), or with an exception. -/
inductive Creation where
  | created (svgContent : SvgDocument)
  | noTemplate
  | throws
  deriving DecidableEq, Repr

/-- An item of `qrDataCache`. -/
structure CacheItem where
  name : String
  type : String
  svgContent : SvgDocument
  pdfBlob : PdfOutput
  deriving DecidableEq, Repr

/-- `createBulkBadge`: the badge is created and, when a wrapper is found,
converted to PDF and pushed on the cache; `rejected` is an exception. -/
def createBulkBadge (env : RenderEnv) (name : String) (creation : Creation)
    (cache : List CacheItem) : Settled (List CacheItem) :=
  match creation with
  | Creation.throws => Settled.rejected
  | Creation.noTemplate => Settled.resolved cache
  | Creation.created svgContent =>
    match convertSvgToPdfBlob env svgContent with
    | Settled.resolved pdfBlob =>
      Settled.resolved (cache ++
        [{ name := name, type := "badge", svgContent := svgContent, pdfBlob := pdfBlob }])
    | Settled.rejected => Settled.rejected
    | Settled.pending => Settled.pending

/-- `createBulkDisc`: as `createBulkBadge`, with the type `disc`. -/
def createBulkDisc (env : RenderEnv) (name : String) (creation : Creation)
    (cache : List CacheItem) : Settled (List CacheItem) :=
  match creation with
  | Creation.throws => Settled.rejected
  | Creation.noTemplate => Settled.resolved cache
  | Creation.created svgContent =>
    match convertSvgToPdfBlob env svgContent with
    | Settled.resolved pdfBlob =>
      Settled.resolved (cache ++
        [{ name := name, type := "disc", svgContent := svgContent, pdfBlob := pdfBlob }])
    | Settled.rejected => Settled.rejected
    | Settled.pending => Settled.pending

/-- What a run of `generateBulk` leaves behind: the cache, the rows for which
the `catch` of the loop logged an error, the rows whose disc was skipped, the
payloads built, and whether the run ended with the alert for missing data. -/
structure BulkState where
  cache : List CacheItem
  errors : List Nat
  skippedDiscs : List Nat
  payloads : List (String × String)
  alerted : Bool
  deriving DecidableEq, Repr

/-- The test of `generateBulk` on the vehicle make of a row. -/
def discWanted (row : Record) : Bool :=
  let vehicleMake := toLowerCase (trim (orElse row.vehicleMake ""))
  (vehicleMake != "") && (vehicleMake != "none") && (vehicleMake != "n/a")

/-- One turn of the loop of `generateBulk`, for the row of index `i`; `badge`
and `disc` tell how the creation of its badge and of its disc ends. -/
def processRow (type : String) (env : RenderEnv) (i : Nat) (row : Record)
    (badge disc : Creation) (st : BulkState) : Settled BulkState :=
  let fullName := orElse row.name ""
  let st := { st with payloads := st.payloads ++ [generateBulkPayloads row] }
  let afterBadge :=
    if type = "badge" ∨ type = "both" then createBulkBadge env fullName badge st.cache
    else Settled.resolved st.cache
  match afterBadge with
  | Settled.pending => Settled.pending
  | Settled.rejected => Settled.resolved { st with errors := st.errors ++ [i] }
  | Settled.resolved cache1 =>
    if type = "disc" ∨ type = "both" then
      if discWanted row then
        match createBulkDisc env fullName disc cache1 with
        | Settled.pending => Settled.pending
        | Settled.rejected =>
          Settled.resolved { st with cache := cache1, errors := st.errors ++ [i] }
        | Settled.resolved cache2 => Settled.resolved { st with cache := cache2 }
      else
        Settled.resolved { st with cache := cache1, skippedDiscs := st.skippedDiscs ++ [i] }
    else Settled.resolved { st with cache := cache1 }

/-- The loop of `generateBulk` from the row of index `i` on. -/
def bulkLoop (type : String) (env : RenderEnv) (badge disc : Nat → Creation) :
    Nat → List Record → BulkState → Settled BulkState
  | _, [], st => Settled.resolved st
  | i, row :: rows, st =>
    match processRow type env i row (badge i) (disc i) st with
    | Settled.resolved st1 => bulkLoop type env badge disc (i + 1) rows st1
    | Settled.rejected => Settled.rejected
    | Settled.pending => Settled.pending

/-- `generateBulk()` for the selected `type` on the rows of `bulkData`;
`prior` is the cache before the call, which stays when there is no data. -/
def generateBulk (type : String) (rows : List Record) (env : RenderEnv)
    (badge disc : Nat → Creation) (prior : List CacheItem) : Settled BulkState :=
  if rows = [] then
    Settled.resolved
      { cache := prior, errors := [], skippedDiscs := [], payloads := [], alerted := true }
  else
    bulkLoop type env badge disc 0 rows
      { cache := [], errors := [], skippedDiscs := [], payloads := [], alerted := false }

/-! ## downloadAll (app.js 1992-2078) -/

/-- A file put into the archive. -/
inductive FileBlob where
  | pdf (blob : PdfOutput)
  | docx (blob : DocxOutput)
  deriving DecidableEq, Repr

/-- What an entry of the archive holds: a file or a folder. -/
inductive ZipEntry where
  | file (blob : FileBlob)
  | folder
  deriving DecidableEq, Repr

/-- The archive: the object `files` of JSZip, its keys in the order of their
insertion, each with its entry.  A file name ends in its extension and a
folder name in `/`, so that no key is an array index, which would stand before
the other keys.  The definitions below follow the functions of JSZip 3 behind
`zip.file(name, data)`, with the default option `createFolders: true`. -/
@[reducible]
def ZipFiles : Type := List (String × ZipEntry)

/-- The test `this.files[name]`. -/
def hasEntry (files : ZipFiles) (name : String) : Bool :=
  files.any (fun e => e.1 == name)

/-- The assignment `this.files[name] = object`: an entry of the same name is
overwritten where it stands, a new name is added at the end. -/
def setEntry (files : ZipFiles) (name : String) (entry : ZipEntry) : ZipFiles :=
  if hasEntry files name then
    files.map (fun e => if e.1 = name then (name, entry) else e)
  else files ++ [(name, entry)]

/-- `forceTrailingSlash(path)`: a `/` is added unless the path ends in one. -/
def forceTrailingSlash (path : String) : String :=
  if path.data.getLast? = some '/' then path else path ++ "/"

/-- The position of the last `/` of a path, `path.lastIndexOf("/")`. -/
def lastSlash (path : List Char) : Option Nat :=
  let k := path.reverse.indexOf '/'
  if k < path.length then some (path.length - 1 - k) else none

/-- `parentFolder(path)`: a `/` at the end is dropped, and the path is cut
before its last `/`; the empty string when there is none or when it is the
first character. -/
def parentFolder (path : String) : String :=
  let path := if path.data.getLast? = some '/' then path.data.dropLast else path.data
  match lastSlash path with
  | some i => if 0 < i then ⟨path.take i⟩ else ""
  | none => ""

/-- `fileAdd(name, data, o)` with `folderAdd` in it: for a folder the name
gets its `/`; a parent folder that is not in the archive yet is added first,
with its own parents, and then the entry is set.  The first argument bounds
the depth of the folders: every parent is shorter than its child, so the
length of the name is enough (`fileAdd_fuel`). -/
def fileAdd : Nat → ZipFiles → String → ZipEntry → Bool → ZipFiles
  | 0, files, name, entry, dir =>
    setEntry files (if dir then forceTrailingSlash name else name) entry
  | fuel + 1, files, name, entry, dir =>
    let name := if dir then forceTrailingSlash name else name
    let parent := parentFolder name
    let files :=
      if parent = "" then files
      else if hasEntry files (forceTrailingSlash parent) then files
      else fileAdd fuel files (forceTrailingSlash parent) ZipEntry.folder true
    setEntry files name entry

/-- The call `zip.file(fileName, fileBlob)`. -/
def zipFile (zip : ZipFiles) (fileName : String) (fileBlob : FileBlob) : ZipFiles :=
  fileAdd fileName.length zip fileName (ZipEntry.file fileBlob) false

/-- How `downloadAll` ends. -/
inductive Download where
  /-- The cache is empty: `alert('No badges/discs to download')`. -/
  | nothingToDownload
  /-- The archive is generated and saved, with these entries. -/
  | saved (entries : ZipFiles)
  /-- A conversion failed: the `catch` alerts, no archive is saved. -/
  | failed
  /-- A conversion never settles. -/
  | pending
  deriving DecidableEq, Repr

/-- The loop of `downloadAll` over the items of the cache. -/
def zipLoop (fileFormat : String) (env : RenderEnv) :
    List CacheItem → ZipFiles → Download
  | [], zip => Download.saved zip
  | item :: items, zip =>
    let fileName := archiveFileName item.name item.type fileFormat
    if fileFormat = "docx" then
      match convertSvgToDocxBlob env item.svgContent with
      | Settled.resolved fileBlob =>
        zipLoop fileFormat env items (zipFile zip fileName (FileBlob.docx fileBlob))
      | Settled.rejected => Download.failed
      | Settled.pending => Download.pending
    else zipLoop fileFormat env items (zipFile zip fileName (FileBlob.pdf item.pdfBlob))

/-- `downloadAll()` on the cache, for the selected file format. -/
def downloadAll (cache : List CacheItem) (fileFormat : String) (env : RenderEnv) : Download :=
  if cache = [] then Download.nothingToDownload
  else zipLoop fileFormat env cache []

/-! ## Specification-side vocabulary of the batch run -/

/-- Specification: the item stored for a document that was created and
converted: its name, its kind, the document and the PDF made from it. -/
def storedItem (name type : String) (svgContent : SvgDocument) (pdfBlob : PdfOutput) :
    CacheItem :=
  { name := name, type := type, svgContent := svgContent, pdfBlob := pdfBlob }

/-- Specification: the entries one creation adds to the cache, `none` when
the creation or the conversion to PDF throws. -/
def pushed (env : RenderEnv) (name type : String) (creation : Creation) :
    Option (List CacheItem) :=
  match creation with
  | Creation.throws => none
  | Creation.noTemplate => some []
  | Creation.created svgContent =>
    match convertSvgToPdfBlob env svgContent with
    | Settled.resolved pdfBlob => some [storedItem name type svgContent pdfBlob]
    | _ => none

/-- Specification: the run includes badges. -/
def wantsBadges (type : String) : Bool := type == "badge" || type == "both"

/-- Specification: the run includes discs. -/
def wantsDiscs (type : String) : Bool := type == "disc" || type == "both"

/-- Specification: the entries the badge step of a row adds, `none` when it
throws; no entries when the run has no badges. -/
def badgeStep (type : String) (env : RenderEnv) (row : Record) (badge : Creation) :
    Option (List CacheItem) :=
  if wantsBadges type then pushed env (orElse row.name "") "badge" badge else some []

/-- Specification: the disc of the row is attempted: the run includes discs,
the badge step did not throw, and the row has a vehicle make. -/
def discAttempted (type : String) (env : RenderEnv) (row : Record) (badge : Creation) : Bool :=
  (badgeStep type env row badge).isSome && wantsDiscs type && discWanted row

/-- Specification: the entries a row adds to the cache. -/
def rowEntries (type : String) (env : RenderEnv) (row : Record) (badge disc : Creation) :
    List CacheItem :=
  (badgeStep type env row badge).getD [] ++
    (if discAttempted type env row badge then
      (pushed env (orElse row.name "") "disc" disc).getD []
     else [])

/-- Specification: the row is logged as failed: its badge step throws, or its
disc is attempted and throws. -/
def rowFailed (type : String) (env : RenderEnv) (row : Record) (badge disc : Creation) : Bool :=
  (badgeStep type env row badge).isNone ||
    (discAttempted type env row badge && (pushed env (orElse row.name "") "disc" disc).isNone)

/-- Specification: the disc of the row is skipped for want of a vehicle. -/
def rowSkipped (type : String) (env : RenderEnv) (row : Record) (badge : Creation) : Bool :=
  (badgeStep type env row badge).isSome && wantsDiscs type && !discWanted row

/-- Specification: the state after the rows numbered from `i` on. -/
def stateAfter (type : String) (env : RenderEnv) (badge disc : Nat → Creation) (i : Nat)
    (rows : List Record) (st : BulkState) : BulkState :=
  { cache := st.cache ++
      (rows.enumFrom i).flatMap (fun ir => rowEntries type env ir.2 (badge ir.1) (disc ir.1))
    errors := st.errors ++
      ((rows.enumFrom i).filter
        (fun ir => rowFailed type env ir.2 (badge ir.1) (disc ir.1))).map Prod.fst
    skippedDiscs := st.skippedDiscs ++
      ((rows.enumFrom i).filter (fun ir => rowSkipped type env ir.2 (badge ir.1))).map Prod.fst
    payloads := st.payloads ++ rows.map generateBulkPayloads
    alerted := st.alerted }

/-- The state in which the loop of `generateBulk` starts. -/
def emptyState : BulkState :=
  { cache := [], errors := [], skippedDiscs := [], payloads := [], alerted := false }

/-- Specification: the file name of an item in the archive. -/
def itemFileName (fileFormat : String) (item : CacheItem) : String :=
  archiveFileName item.name item.type fileFormat

/-- A PDF made of a page of 210 mm by 297 mm. -/
def samplePdf : PdfOutput :=
  { orientation := "portrait", unit := "mm"
    format := (JsNumber.fin 210, JsNumber.fin 297)
    imageX := JsNumber.fin 0, imageY := JsNumber.fin 0
    imageWidth := JsNumber.fin 210, imageHeight := JsNumber.fin 297
    raster :=
      { scale := JsNumber.fin 3, width := 3000, height := 1200
        overlays := [] } }

/-- The badge stored for a member called `A B`. -/
def sampleItem : CacheItem :=
  { name := "A B", type := "badge", svgContent := a4Document, pdfBlob := samplePdf }

/-- Specification: the names of the entries of an archive, in their order. -/
def entryNames (files : ZipFiles) : List String := files.map Prod.fst

/-- Specification: the entry an archive holds under a name. -/
def entryOf (files : ZipFiles) (name : String) : Option ZipEntry :=
  (files.find? (fun e => e.1 == name)).map Prod.snd

/-- Specification: the entry made of an item: the PDF stored with it, or in
the docx format the document converted from it. -/
def itemEntry (env : RenderEnv) (fileFormat : String) (item : CacheItem) : Option ZipEntry :=
  if fileFormat = "docx" then
    match convertSvgToDocxBlob env item.svgContent with
    | Settled.resolved fileBlob => some (ZipEntry.file (FileBlob.docx fileBlob))
    | _ => none
  else some (ZipEntry.file (FileBlob.pdf item.pdfBlob))

/-- Specification: the last item of the cache that has the file name `name`. -/
def lastItem (fileFormat : String) (cache : List CacheItem) (name : String) :
    Option CacheItem :=
  cache.reverse.find? (fun item => itemFileName fileFormat item == name)

/-- The badge stored for a member called `D/E`. -/
def slashItem : CacheItem :=
  { name := "D/E", type := "badge", svgContent := a4Document, pdfBlob := samplePdf }

/-! ## Placeholders of the templates (createBadge 614-853, createDisc 1014-1136)

The template is modelled as the sequence of its nodes in document order.  A
placeholder is one node of it: in the templates the placeholders are path
elements, which have no element below them.  Geometry is written in exact
rationals. -/

/-- The attribute `transform="rotate(angle, cx, cy)"`. -/
structure Rotation where
  angle : ℚ
  cx : ℚ
  cy : ℚ
  deriving DecidableEq, Repr

/-- An `image` element created by `createBadge` or `createDisc`. -/
structure ImageNode where
  id : String
  /-- Set by `setAttribute('href', ...)`. -/
  href : Option String
  /-- Set by `setAttributeNS(xlink, 'href', ...)`. -/
  xlinkHref : Option String
  x : ℚ
  y : ℚ
  width : ℚ
  height : ℚ
  preserveAspectRatio : String
  transform : Option Rotation := none
  deriving DecidableEq, Repr

/-- A node of the document: an element of the template, known by its tag, its
id and the rest of its markup, or an image put in by the resolution. -/
inductive TemplateNode where
  | original (tag : String) (id : Option String) (markup : String)
  | image (img : ImageNode)
  deriving DecidableEq, Repr

/-- The id of a node. -/
def nodeId : TemplateNode → Option String
  | TemplateNode.original _ id _ => id
  | TemplateNode.image img => some img.id

/-- The statements `const el = svgDoc.getElementById(id); if (el)
el.parentNode.replaceChild(image, el)`: the first node of that id, when there
is one, gives its place to the image. -/
def replaceById (doc : List TemplateNode) (id : String) (image : ImageNode) :
    List TemplateNode :=
  match doc with
  | [] => []
  | n :: rest =>
    if nodeId n = some id then TemplateNode.image image :: rest
    else n :: replaceById rest id image

/-- The image put in place of `QRB1`. -/
def qrb1Image (qrDataUrl : String) : ImageNode :=
  { id := "QRB1-filled", href := some qrDataUrl, xlinkHref := some qrDataUrl
    x := 352.50965, y := -475.41942, width := 608.51559, height := 546.501291
    preserveAspectRatio := "xMidYMid meet" }

/-- The image put in place of `QRB2`. -/
def qrb2Image (qrDataUrl : String) : ImageNode :=
  { id := "QRB2-filled", href := some qrDataUrl, xlinkHref := some qrDataUrl
    x := 2154.9928, y := 1815.0152, width := 608.3699, height := 573.3398
    preserveAspectRatio := "xMidYMid meet" }

/-- The image put in place of `PB1`; only the XLink `href` is set. -/
def pb1Image (photoDataUrl : String) : ImageNode :=
  { id := "PB1-filled", href := none, xlinkHref := some photoDataUrl
    x := 561.42716, y := 418.3492, width := 950.38471 - 561.42716
    height := 912.3253 - 418.3492
    preserveAspectRatio := "none" }

/-- The image put in place of `PB2`; only the XLink `href` is set. -/
def pb2Image (photoDataUrl : String) : ImageNode :=
  { id := "PB2-filled", href := none, xlinkHref := some photoDataUrl
    x := 1182.2103, y := 2156.4435, width := 326.7244, height := 435.6325
    preserveAspectRatio := "none" }

/-- The image put in place of `PHF1`. -/
def phf1Image (flagDataUrl : String) : ImageNode :=
  { id := "PHF1-filled", href := some flagDataUrl, xlinkHref := some flagDataUrl
    x := 918.31811, y := 2420.2032, width := 242.67909, height := 171.7762
    preserveAspectRatio := "none" }

/-- The image put in place of `PHF2`. -/
def phf2Image (flagDataUrl : String) : ImageNode :=
  { id := "PHF2-filled", href := some flagDataUrl, xlinkHref := some flagDataUrl
    x := 718.77918, y := 1477.2516, width := 242.67906, height := 171.7761
    preserveAspectRatio := "none" }

/-- The image put in place of `PHQR`. -/
def phqrImage (qrDataUrl : String) : ImageNode :=
  { id := "PHQR-filled", href := some qrDataUrl, xlinkHref := some qrDataUrl
    x := 48.718242, y := 143.71721, width := 32.613481, height := 31.90175
    preserveAspectRatio := "none" }

/-- The flag image of the disc for a placeholder at `(phf_x, phf_y)` of the
size `phf_width` by `phf_height`: width and height are swapped, the origin is
adjusted, and the image is turned by -90 degrees about the centre of the
placeholder. -/
def rotatedFlagImage (phf_x phf_y phf_width phf_height : ℚ) (flagDataUrl : String) :
    ImageNode :=
  let adjusted_x := phf_x + (phf_width - phf_height) / 2
  let adjusted_y := phf_y + (phf_height - phf_width) / 2
  let centerX := phf_x + phf_width / 2
  let centerY := phf_y + phf_height / 2
  { id := "PHF-filled", href := some flagDataUrl, xlinkHref := some flagDataUrl
    x := adjusted_x, y := adjusted_y, width := phf_height, height := phf_width
    preserveAspectRatio := "none"
    transform := some { angle := -90, cx := centerX, cy := centerY } }

/-- The image put in place of `PHF`, with the literal geometry of the disc. -/
def phfImage (flagDataUrl : String) : ImageNode :=
  rotatedFlagImage 37.049837 132.13499 10.176637 14.37718 flagDataUrl

/-- The placeholder part of `createBadge` on a loaded template.
`photoDataUrl` is the parameter of that name; `flagDataUrl` is the data URL of
the flag, `none` when no country is given, no flag is mapped to the country,
or the flag does not load. -/
def resolveBadgePlaceholders (template : List TemplateNode) (qrDataUrl : String)
    (photoDataUrl flagDataUrl : Option String) : List TemplateNode :=
  let svgDoc := template
  let svgDoc := replaceById svgDoc "QRB1" (qrb1Image qrDataUrl)
  let svgDoc := replaceById svgDoc "QRB2" (qrb2Image qrDataUrl)
  let svgDoc :=
    match photoDataUrl with
    | some url =>
      if url != "" then
        replaceById (replaceById svgDoc "PB1" (pb1Image url)) "PB2" (pb2Image url)
      else svgDoc
    | none => svgDoc
  let svgDoc :=
    match flagDataUrl with
    | some url => replaceById (replaceById svgDoc "PHF1" (phf1Image url)) "PHF2" (phf2Image url)
    | none => svgDoc
  svgDoc

/-- The placeholder part of `createDisc` on a loaded template. -/
def resolveDiscPlaceholders (template : List TemplateNode) (qrDataUrl : String)
    (flagDataUrl : Option String) : List TemplateNode :=
  let svgDoc := template
  let svgDoc := replaceById svgDoc "PHQR" (phqrImage qrDataUrl)
  let svgDoc :=
    match flagDataUrl with
    | some url => replaceById svgDoc "PHF" (phfImage url)
    | none => svgDoc
  svgDoc

/-- Specification: the number of nodes of the document with the given id. -/
def occurrences (doc : List TemplateNode) (id : String) : Nat :=
  (doc.filter (fun n => decide (nodeId n = some id))).length

/-- Specification: the node after the resolution of the badge: a placeholder
gives the image of its literal geometry, the photo regions only when a photo
is supplied and the flag regions only when a flag is available; every other
node is itself. -/
def resolvedBadgeNode (qrDataUrl : String) (photoDataUrl flagDataUrl : Option String)
    (n : TemplateNode) : TemplateNode :=
  if nodeId n = some "QRB1" then TemplateNode.image (qrb1Image qrDataUrl)
  else if nodeId n = some "QRB2" then TemplateNode.image (qrb2Image qrDataUrl)
  else if nodeId n = some "PB1" ∧ truthy photoDataUrl then
    TemplateNode.image (pb1Image (photoDataUrl.getD ""))
  else if nodeId n = some "PB2" ∧ truthy photoDataUrl then
    TemplateNode.image (pb2Image (photoDataUrl.getD ""))
  else if nodeId n = some "PHF1" ∧ flagDataUrl.isSome then
    TemplateNode.image (phf1Image (flagDataUrl.getD ""))
  else if nodeId n = some "PHF2" ∧ flagDataUrl.isSome then
    TemplateNode.image (phf2Image (flagDataUrl.getD ""))
  else n

/-- Specification: the node after the resolution of the disc. -/
def resolvedDiscNode (qrDataUrl : String) (flagDataUrl : Option String)
    (n : TemplateNode) : TemplateNode :=
  if nodeId n = some "PHQR" then TemplateNode.image (phqrImage qrDataUrl)
  else if nodeId n = some "PHF" ∧ flagDataUrl.isSome then
    TemplateNode.image (phfImage (flagDataUrl.getD ""))
  else n

/-- Specification: a turn by -90 degrees about `(cx, cy)`, in the coordinates
of the document. -/
def turnMinus90 (cx cy : ℚ) (p : ℚ × ℚ) : ℚ × ℚ :=
  (cx + (p.2 - cy), cy - (p.1 - cx))

/-- A badge template: the six placeholders among other nodes. -/
def sampleBadgeTemplate : List TemplateNode :=
  [ TemplateNode.original "rect" (some "frame") "<rect id=\"frame\"/>",
    TemplateNode.original "path" (some "QRB1") "<path id=\"QRB1\"/>",
    TemplateNode.original "text" none "<text>name surname</text>",
    TemplateNode.original "path" (some "PB1") "<path id=\"PB1\"/>",
    TemplateNode.original "path" (some "PHF1") "<path id=\"PHF1\"/>",
    TemplateNode.original "path" (some "QRB2") "<path id=\"QRB2\"/>",
    TemplateNode.original "path" (some "PB2") "<path id=\"PB2\"/>",
    TemplateNode.original "path" (some "PHF2") "<path id=\"PHF2\"/>" ]

end QRGenerator

namespace QRGenerator

/-! ## Lemmas on the string primitives -/

theorem joinStep_foldl (sep : String) (rest : List String) :
    ∀ (k : Nat) (acc : String), 0 < k →
      (rest.foldl (joinStep sep) (k, acc)).2 = String.intercalate.go acc sep rest := by
  induction rest with
  | nil => intro k acc _; rfl
  | cons a rest ih =>
    intro k acc hk
    simp only [List.foldl_cons, joinStep, hk, if_true, String.intercalate.go]
    exact ih (k + 1) (acc ++ sep ++ a) (Nat.succ_pos k)

/-- The loop of `join` computes the library's `String.intercalate`. -/
theorem join_eq_intercalate (sep : String) (lines : List String) :
    join sep lines = String.intercalate sep lines := by
  cases lines with
  | nil => rfl
  | cons a rest =>
    simp only [join, List.foldl_cons, joinStep, String.intercalate]
    have h := joinStep_foldl sep rest 1 ("" ++ a) Nat.one_pos
    simpa using h

theorem intercalate_go_data (sep : String) (rest : List String) :
    ∀ acc : String, (String.intercalate.go acc sep rest).data =
      acc.data ++ rest.flatMap (fun a => sep.data ++ a.data) := by
  induction rest with
  | nil => intro acc; simp [String.intercalate.go]
  | cons a rest ih =>
    intro acc
    simp [String.intercalate.go, ih, String.data_append, List.append_assoc]

theorem join_cons_data (sep a : String) (rest : List String) :
    (join sep (a :: rest)).data = a.data ++ rest.flatMap (fun b => sep.data ++ b.data) := by
  rw [join_eq_intercalate]
  simp [String.intercalate, intercalate_go_data]

theorem pushIf_eq (lines : List String) (v : Option String) (label : String) :
    pushIf lines v (fun s => label ++ s) = lines ++ (optionalLine label v).toList := by
  cases v with
  | none => simp [pushIf, optionalLine]
  | some s =>
    by_cases h : s = "" <;> simp [pushIf, optionalLine, h]

theorem pushIf_id_eq (lines : List String) (v : Option String) :
    pushIf lines v (fun s => s) = lines ++ (optionalLine "" v).toList := by
  cases v with
  | none => simp [pushIf, optionalLine]
  | some s =>
    by_cases h : s = "" <;> simp [pushIf, optionalLine, h]

theorem orElse_eq_statusValue (v : Option String) : orElse v "No" = statusValue v := by
  cases v with
  | none => rfl
  | some s => by_cases h : s = "" <;> simp [orElse, statusValue, h]

theorem filterMap_id_cons (o : Option String) (l : List (Option String)) :
    List.filterMap id (o :: l) = o.toList ++ List.filterMap id l := by
  cases o <;> simp

theorem join_snoc_suffix (sep x : String) (lines : List String) :
    x.data <:+ (join sep (lines ++ [x])).data := by
  cases lines with
  | nil => simp [join, joinStep]
  | cons a rest =>
    rw [List.cons_append, join_cons_data]
    simp only [List.flatMap_append, List.flatMap_cons, List.flatMap_nil, List.append_nil]
    exact ⟨a.data ++ rest.flatMap (fun b => sep.data ++ b.data) ++ sep.data, by simp⟩

theorem splitLF_ne_nil (l : List Char) : splitLF l ≠ [] := by
  cases l with
  | nil => simp [splitLF]
  | cons c cs => by_cases h : c = '\n' <;> simp [splitLF, h]

theorem splitLF_append_lf (a b : List Char) :
    splitLF (a ++ '\n' :: b) = splitLF a ++ splitLF b := by
  induction a with
  | nil => simp [splitLF]
  | cons c cs ih =>
    by_cases h : c = '\n'
    · simp [splitLF, h, ih]
    · have hne := splitLF_ne_nil cs
      cases hs : splitLF cs with
      | nil => exact absurd hs hne
      | cons l ls => simp [splitLF, h, ih, hs]

theorem splitLF_append_flatMap (rest : List String) :
    ∀ pre : List Char,
      splitLF (pre ++ rest.flatMap (fun b => "\n".data ++ b.data)) =
        splitLF pre ++ rest.flatMap (fun b => splitLF b.data) := by
  induction rest with
  | nil => intro pre; simp
  | cons b rest ih =>
    intro pre
    have h : pre ++ (b :: rest).flatMap (fun b => "\n".data ++ b.data) =
        pre ++ '\n' :: (b.data ++ rest.flatMap (fun b => "\n".data ++ b.data)) := by
      simp
    rw [h, splitLF_append_lf, ih]
    simp

/-- The lines of a joined text are the lines of its elements, in order. -/
theorem payloadLines_join (a : String) (rest : List String) :
    payloadLines (join "\n" (a :: rest)) = (a :: rest).flatMap payloadLines := by
  simp only [payloadLines, join_cons_data, splitLF_append_flatMap, List.map_append,
    List.flatMap_cons, List.map_flatMap]
  rfl

theorem splitLF_of_not_mem (l : List Char) (h : '\n' ∉ l) : splitLF l = [l] := by
  induction l with
  | nil => rfl
  | cons c cs ih =>
    have hc : c ≠ '\n' := fun e => h (by simp [e])
    have hcs : '\n' ∉ cs := fun e => h (List.mem_cons_of_mem _ e)
    simp [splitLF, hc, ih hcs]

/-! ## The payload builders -/

/-- The array built by `buildBadgeQRPayload`, in the vocabulary of the
specification. -/
theorem buildBadgeQRPayload_eq_join (data : Record) :
    buildBadgeQRPayload data = join "\n" (badgeOptionalLines data ++ statusLines data) := by
  simp only [buildBadgeQRPayload, badgeOptionalLines, statusLines, pushIf_eq, pushIf_id_eq, push,
    orElse_eq_statusValue, filterMap_id_cons, List.filterMap_nil, List.nil_append,
    List.append_nil, List.append_assoc, List.singleton_append]

/-- The array built by `buildDiscQRPayload`, in the vocabulary of the
specification. -/
theorem buildDiscQRPayload_eq_join (data : Record) :
    buildDiscQRPayload data =
      join "\n" (discOptionalLines data ++ statusLines data ++ vehicleBlock data) := by
  simp only [buildDiscQRPayload, discOptionalLines, statusLines, vehicleBlock, pushIf_eq,
    pushIf_id_eq, push, orElse_eq_statusValue, filterMap_id_cons, List.filterMap_nil,
    List.nil_append, List.append_nil, List.append_assoc, List.singleton_append,
    List.cons_append]

theorem optionalLine_of_isEmptyField (label : String) (v : Option String)
    (h : isEmptyField v) : optionalLine label v = none := by
  rcases h with h | h <;> simp [h, optionalLine]

theorem statusValue_of_isEmptyField (v : Option String) (h : isEmptyField v) :
    statusValue v = "No" := by
  rcases h with h | h <;> simp [h, statusValue]

/-- C1: for every record, `buildBadgeQRPayload` returns the lines name,
idNumber, contactNumber, `ICE: `+iceContactName, `ICE No.: `+iceContactNumber,
`MED AID: `+medicalAidName, medicalAidPlan, medicalAidNumber in this order,
each one left out when its field is empty or absent, followed always by
`Allergies: `+allergies and `Medical conditions: `+medicalConditions (with `No`
for an empty value), joined by single line feeds; the text ends with the last
line, so no line feed trails it. -/
theorem buildBadgeQRPayload_spec (data : Record) :
    buildBadgeQRPayload data =
      String.intercalate "\n"
        (List.filterMap id
          [optionalLine "" data.name,
           optionalLine "" data.idNumber,
           optionalLine "" data.contactNumber,
           optionalLine "ICE: " data.iceContactName,
           optionalLine "ICE No.: " data.iceContactNumber,
           optionalLine "MED AID: " data.medicalAidName,
           optionalLine "" data.medicalAidPlan,
           optionalLine "" data.medicalAidNumber]
         ++ ["Allergies: " ++ statusValue data.allergies,
             "Medical conditions: " ++ statusValue data.medicalConditions])
    ∧ ("Medical conditions: " ++ statusValue data.medicalConditions).data
        <:+ (buildBadgeQRPayload data).data := by
  constructor
  · rw [buildBadgeQRPayload_eq_join, join_eq_intercalate]; rfl
  · simp only [buildBadgeQRPayload, push, orElse_eq_statusValue]
    exact join_snoc_suffix _ _ _

/-- C2: for every record, `buildDiscQRPayload` returns the lines name,
contactNumber, `ICE: `+iceContactName, `ICE No.: `+iceContactNumber,
`MED AID: `+medicalAidName, medicalAidPlan, medicalAidNumber (each left out
when its field is empty), then always the Allergies and Medical conditions
lines, then `Vehicle Info: `+vehicleMake, vehicleModel, vehicleRegistration
(each left out when empty), joined by line feeds; for a record with every
field empty the result is exactly the two medical-status lines with `No`. -/
theorem buildDiscQRPayload_spec (data : Record) :
    buildDiscQRPayload data =
      String.intercalate "\n"
        (List.filterMap id
          [optionalLine "" data.name,
           optionalLine "" data.contactNumber,
           optionalLine "ICE: " data.iceContactName,
           optionalLine "ICE No.: " data.iceContactNumber,
           optionalLine "MED AID: " data.medicalAidName,
           optionalLine "" data.medicalAidPlan,
           optionalLine "" data.medicalAidNumber]
         ++ ["Allergies: " ++ statusValue data.allergies,
             "Medical conditions: " ++ statusValue data.medicalConditions]
         ++ List.filterMap id
          [optionalLine "Vehicle Info: " data.vehicleMake,
           optionalLine "" data.vehicleModel,
           optionalLine "" data.vehicleRegistration])
    ∧ (data.allEmpty →
        buildDiscQRPayload data = "Allergies: No\nMedical conditions: No") := by
  constructor
  · rw [buildDiscQRPayload_eq_join, join_eq_intercalate]; rfl
  · intro h
    obtain ⟨_, h2, h3, h4, _, h6, h7, h8, h9, h10, h11, _, _, _, _, h16, h17, _, h19, _⟩ := h
    rw [buildDiscQRPayload_eq_join]
    simp only [discOptionalLines, statusLines, vehicleBlock,
      optionalLine_of_isEmptyField _ _ h2, optionalLine_of_isEmptyField _ _ h3,
      optionalLine_of_isEmptyField _ _ h4, optionalLine_of_isEmptyField _ _ h6,
      optionalLine_of_isEmptyField _ _ h7, optionalLine_of_isEmptyField _ _ h8,
      optionalLine_of_isEmptyField _ _ h9, optionalLine_of_isEmptyField _ _ h16,
      optionalLine_of_isEmptyField _ _ h17, optionalLine_of_isEmptyField _ _ h19,
      statusValue_of_isEmptyField _ h10, statusValue_of_isEmptyField _ h11]
    decide

/-- Witness for C2 at the record whose fields are all the empty string. -/
theorem buildDiscQRPayload_spec_witness :
    blankRecord.allEmpty ∧
      buildDiscQRPayload blankRecord = "Allergies: No\nMedical conditions: No" :=
  ⟨by simp [Record.allEmpty, isEmptyField, blankRecord],
   (buildDiscQRPayload_spec blankRecord).2
     (by simp [Record.allEmpty, isEmptyField, blankRecord])⟩

theorem join_append_eq (sep a : String) (rest block : List String) :
    join sep (a :: rest ++ block) = join sep (join sep (a :: rest) :: block) := by
  apply String.ext
  rw [List.cons_append, join_cons_data, join_cons_data, join_cons_data]
  simp [List.flatMap_append]

theorem statusLines_ne_nil (r : Record) (pre : List String) :
    ∃ a rest, pre ++ statusLines r = a :: rest := by
  cases pre with
  | nil => exact ⟨_, _, rfl⟩
  | cons a rest => exact ⟨a, rest ++ statusLines r, rfl⟩

/-- C3, counterexample: for the sample record the lines of the badge payload
are not an initial part of the lines of the disc payload, whatever block is
appended. -/
theorem disc_lines_badge_lines_counterexample :
    ¬ ∃ block : List String,
        payloadLines (buildDiscQRPayload sampleRecord) =
          payloadLines (buildBadgeQRPayload sampleRecord) ++ block := by
  rintro ⟨block, h⟩
  have hp : payloadLines (buildBadgeQRPayload sampleRecord)
      <+: payloadLines (buildDiscQRPayload sampleRecord) := ⟨block, h.symm⟩
  revert hp
  decide

/-- C3, amended: for every record the disc payload is the badge payload of the
same record without its id number, followed by the vehicle block (at most
three lines), each vehicle line preceded by a line feed. -/
theorem buildDiscQRPayload_eq_badge_without_id (r : Record) :
    buildDiscQRPayload r =
      String.intercalate "\n"
        (buildBadgeQRPayload { r with idNumber := none } :: vehicleBlock r)
    ∧ (vehicleBlock r).length ≤ 3 := by
  constructor
  · rw [buildDiscQRPayload_eq_join, buildBadgeQRPayload_eq_join, ← join_eq_intercalate]
    have hb : badgeOptionalLines { r with idNumber := none } = discOptionalLines r := by
      simp only [badgeOptionalLines, discOptionalLines, filterMap_id_cons]
      rfl
    have hs : statusLines { r with idNumber := none } = statusLines r := rfl
    rw [hb, hs]
    obtain ⟨a, rest, e⟩ := statusLines_ne_nil r (discOptionalLines r)
    rw [e]
    exact join_append_eq _ _ _ _
  · unfold vehicleBlock
    exact le_trans (List.length_filterMap_le _ _) (by simp)

/-! ## The record preparation of the two pipelines -/

theorem optionalLine_orEmpty (label : String) (v : Option String) :
    optionalLine label (orEmpty v) = optionalLine label v := by
  cases v with
  | none => simp [orEmpty, orElse, optionalLine]
  | some s => by_cases h : s = "" <;> simp [orEmpty, orElse, optionalLine, h]

theorem statusValue_yesNo (v : Option String) :
    statusValue (some (yesNo v)) = if hasMedicalInfo v then "Yes" else "No" := by
  cases h : hasMedicalInfo v <;> simp [statusValue, yesNo, h]

theorem statusLines_normalised (r : Record) (a m : Option String)
    (ha : r.allergies = some (yesNo a)) (hm : r.medicalConditions = some (yesNo m)) :
    statusLines r = normalisedStatusLines a m := by
  simp only [statusLines, normalisedStatusLines, ha, hm, statusValue_yesNo]

theorem badgeOptionalLines_badgeQrCodeData (row : Record) :
    badgeOptionalLines (badgeQrCodeData row) = badgeOptionalLines row := by
  simp only [badgeOptionalLines, badgeQrCodeData, optionalLine_orEmpty]

theorem discOptionalLines_bulkDiscQrCodeData (row : Record) :
    discOptionalLines (bulkDiscQrCodeData row) = discOptionalLines row := by
  simp only [discOptionalLines, bulkDiscQrCodeData, optionalLine_orEmpty]

theorem vehicleBlock_bulkDiscQrCodeData (row : Record) :
    vehicleBlock (bulkDiscQrCodeData row) = vehicleBlock row := by
  simp only [vehicleBlock, bulkDiscQrCodeData, optionalLine_orEmpty]

/-- The payloads built by one iteration of `generateBulk`, in the vocabulary
of the specification. -/
theorem generateBulkPayloads_eq (row : Record) :
    generateBulkPayloads row =
      (join "\n" (badgeOptionalLines row
          ++ normalisedStatusLines row.allergies row.medicalConditions),
       join "\n" (discOptionalLines row
          ++ normalisedStatusLines row.allergies row.medicalConditions
          ++ vehicleBlock row)) := by
  simp only [generateBulkPayloads, buildBadgeQRPayload_eq_join, buildDiscQRPayload_eq_join,
    badgeOptionalLines_badgeQrCodeData, discOptionalLines_bulkDiscQrCodeData,
    vehicleBlock_bulkDiscQrCodeData,
    statusLines_normalised (badgeQrCodeData row) row.allergies row.medicalConditions rfl rfl,
    statusLines_normalised (bulkDiscQrCodeData row) row.allergies row.medicalConditions rfl rfl]

/-- The payloads built by `generateIndividual` once the required fields are
present, in the vocabulary of the specification. -/
theorem generateIndividualPayloads_eq (form : FormValues) (p : String × String)
    (h : generateIndividualPayloads form = some p) :
    p =
      (join "\n" (badgeOptionalLines (collectFormData form)
          ++ normalisedStatusLines (some (trim form.allergies))
               (some (trim form.medicalConditions))),
       join "\n" (discOptionalLines (collectFormData form)
          ++ normalisedStatusLines (some (trim form.allergies))
               (some (trim form.medicalConditions))
          ++ vehicleBlock (collectFormData form))) := by
  unfold generateIndividualPayloads at h
  simp only at h
  split at h
  · exact absurd h (by simp)
  · have e := Option.some.inj h
    rw [← e]
    simp only [buildBadgeQRPayload_eq_join, buildDiscQRPayload_eq_join,
      statusLines_normalised (qrCodeData (collectFormData form)) (some (trim form.allergies))
        (some (trim form.medicalConditions)) rfl rfl,
      statusLines_normalised (discQrCodeData (collectFormData form))
        (some (trim form.allergies)) (some (trim form.medicalConditions)) rfl rfl]
    rfl

theorem payloadLines_of_not_mem (x : String) (h : '\n' ∉ x.data) : payloadLines x = [x] := by
  simp [payloadLines, splitLF_of_not_mem _ h]

theorem mem_payloadLines_join (x : String) (lines : List String) (hx : '\n' ∉ x.data)
    (hm : x ∈ lines) : x ∈ payloadLines (join "\n" lines) := by
  cases lines with
  | nil => simp at hm
  | cons a rest =>
    rw [payloadLines_join, List.mem_flatMap]
    exact ⟨x, hm, by simp [payloadLines_of_not_mem x hx]⟩

theorem normalisedStatusLines_no_lf (a m : Option String) (x : String)
    (hx : x ∈ normalisedStatusLines a m) : '\n' ∉ x.data := by
  unfold normalisedStatusLines at hx
  cases ha : hasMedicalInfo a <;> cases hm : hasMedicalInfo m <;>
    simp only [ha, hm, List.mem_cons, List.mem_singleton, List.not_mem_nil, or_false, if_true,
      Bool.false_eq_true, if_false] at hx <;>
    rcases hx with rfl | rfl <;> decide

/-- C4: for every row processed by `generateBulk` and every form processed by
`generateIndividual` (one that passes the required-field check, so that
payloads are built), the badge and disc payloads carry, after the optional
lines, the line `Allergies: Yes` when `hasMedicalInfo` holds of the allergies
field and `Allergies: No` otherwise, and likewise `Medical conditions: Yes` or
`Medical conditions: No`; nothing else follows the two labels, and both lines
occur among the lines of each payload. -/
theorem payloads_carry_normalised_status (row : Record) (form : FormValues)
    (p : String × String) (h : generateIndividualPayloads form = some p) :
    (∀ a m : Option String, normalisedStatusLines a m =
        [if hasMedicalInfo a then "Allergies: Yes" else "Allergies: No",
         if hasMedicalInfo m then "Medical conditions: Yes" else "Medical conditions: No"])
    ∧ (generateBulkPayloads row).1 =
        String.intercalate "\n" (badgeOptionalLines row
          ++ normalisedStatusLines row.allergies row.medicalConditions)
    ∧ (generateBulkPayloads row).2 =
        String.intercalate "\n" (discOptionalLines row
          ++ normalisedStatusLines row.allergies row.medicalConditions
          ++ vehicleBlock row)
    ∧ p.1 =
        String.intercalate "\n" (badgeOptionalLines (collectFormData form)
          ++ normalisedStatusLines (collectFormData form).allergies
               (collectFormData form).medicalConditions)
    ∧ p.2 =
        String.intercalate "\n" (discOptionalLines (collectFormData form)
          ++ normalisedStatusLines (collectFormData form).allergies
               (collectFormData form).medicalConditions
          ++ vehicleBlock (collectFormData form))
    ∧ (∀ x ∈ normalisedStatusLines row.allergies row.medicalConditions,
        x ∈ payloadLines (generateBulkPayloads row).1 ∧
        x ∈ payloadLines (generateBulkPayloads row).2)
    ∧ (∀ x ∈ normalisedStatusLines (collectFormData form).allergies
               (collectFormData form).medicalConditions,
        x ∈ payloadLines p.1 ∧ x ∈ payloadLines p.2) := by
  have hb := generateBulkPayloads_eq row
  have hi := generateIndividualPayloads_eq form p h
  refine ⟨?_, ?_, ?_, ?_, ?_, ?_, ?_⟩
  · intro a m
    unfold normalisedStatusLines
    cases hasMedicalInfo a <;> cases hasMedicalInfo m <;> decide
  · simp only [hb, join_eq_intercalate]
  · simp only [hb, join_eq_intercalate]
  · simp only [hi, join_eq_intercalate]; rfl
  · simp only [hi, join_eq_intercalate]; rfl
  · intro x hx
    have hlf := normalisedStatusLines_no_lf _ _ x hx
    rw [hb]
    exact ⟨mem_payloadLines_join x _ hlf (by simp [hx]),
      mem_payloadLines_join x _ hlf (by simp [hx])⟩
  · intro x hx
    have hlf := normalisedStatusLines_no_lf _ _ x hx
    have hx2 : x ∈ normalisedStatusLines (some (trim form.allergies))
        (some (trim form.medicalConditions)) := hx
    rw [hi]
    exact ⟨mem_payloadLines_join x _ hlf (by simp [hx2]),
      mem_payloadLines_join x _ hlf (by simp [hx2])⟩

/-- Witness for C4 at the minimal form and the minimal row. -/
theorem payloads_carry_normalised_status_witness :
    generateIndividualPayloads minimalForm =
        some ("A B\n1\n555\nICE: C\nICE No.: 556\nAllergies: No\nMedical conditions: No",
              "A B\n555\nICE: C\nICE No.: 556\nAllergies: No\nMedical conditions: No")
    ∧ "Allergies: No" ∈ payloadLines
        "A B\n1\n555\nICE: C\nICE No.: 556\nAllergies: No\nMedical conditions: No" :=
  ⟨by decide,
   ((payloads_carry_normalised_status minimalRow minimalForm _
      (by decide : generateIndividualPayloads minimalForm =
        some ("A B\n1\n555\nICE: C\nICE No.: 556\nAllergies: No\nMedical conditions: No",
              "A B\n555\nICE: C\nICE No.: 556\nAllergies: No\nMedical conditions: No"))).2.2.2.2.2.2
      "Allergies: No" (by decide)).1⟩

/-! ## hasMedicalInfo -/

theorem trim_eq_empty_iff (v : String) : trim v = "" ↔ allWhiteSpace v := by
  have key : (v.data.dropWhile isWhiteSpace).rdropWhile isWhiteSpace = [] ↔
      ∀ c ∈ v.data, isWhiteSpace c = true := by
    rw [List.rdropWhile_eq_nil_iff, ← List.dropWhile_eq_nil_iff (p := isWhiteSpace),
      List.dropWhile_idempotent, List.dropWhile_eq_nil_iff]
  unfold allWhiteSpace trim
  rw [← key]
  constructor
  · intro h; exact congrArg String.data h
  · intro h; exact String.ext h

theorem toLowerCase_eq_empty_iff (s : String) : toLowerCase s = "" ↔ s = "" := by
  unfold toLowerCase
  constructor
  · intro h
    have h2 : s.data.map Char.toLower = [] := congrArg String.data h
    exact String.ext (List.map_eq_nil_iff.mp h2)
  · intro h; subst h; rfl

theorem allWhiteSpace_empty : allWhiteSpace "" := by
  intro c hc; simp at hc

/-- The value of `hasMedicalInfo` on a string, as one condition. -/
theorem hasMedicalInfo_eq_false_iff (v : String) :
    hasMedicalInfo (some v) = false ↔
      allWhiteSpace v ∨ toLowerCase (trim v) ∈ noResponses := by
  unfold hasMedicalInfo
  by_cases h1 : v = ""
  · subst h1; simp [allWhiteSpace_empty]
  · by_cases h2 : toLowerCase (trim v) = ""
    · have hw : allWhiteSpace v := (trim_eq_empty_iff v).mp ((toLowerCase_eq_empty_iff _).mp h2)
      simp [h1, h2, hw]
    · have hw : ¬ allWhiteSpace v := fun hw =>
        h2 ((toLowerCase_eq_empty_iff _).mpr ((trim_eq_empty_iff v).mpr hw))
      simp [h1, h2, hw]

/-- C5: for every string `v`, `hasMedicalInfo(v)` is false exactly when `v`
is empty, consists only of white space, or, after trimming and lower-casing,
is one of `none`, `n/a`, `no allergies`, `no conditions`, `no allergy`,
`no condition`, and true for every other string; it is false for `None`,
`n/a`, the empty string and `No Allergy`, true for `Penicillin`, and it has a
value on every input. -/
theorem hasMedicalInfo_spec (v : String) :
    (hasMedicalInfo (some v) = false ↔
      (v = "" ∨ allWhiteSpace v ∨
        toLowerCase (trim v) ∈
          ["none", "n/a", "no allergies", "no conditions", "no allergy", "no condition"]))
    ∧ (hasMedicalInfo (some v) = true ↔
      ¬ (v = "" ∨ allWhiteSpace v ∨
        toLowerCase (trim v) ∈
          ["none", "n/a", "no allergies", "no conditions", "no allergy", "no condition"]))
    ∧ hasMedicalInfo (some "None") = false
    ∧ hasMedicalInfo (some "n/a") = false
    ∧ hasMedicalInfo (some "") = false
    ∧ hasMedicalInfo (some "No Allergy") = false
    ∧ hasMedicalInfo (some "Penicillin") = true
    ∧ (∃ b : Bool, hasMedicalInfo (some v) = b) := by
  have key : hasMedicalInfo (some v) = false ↔
      (v = "" ∨ allWhiteSpace v ∨
        toLowerCase (trim v) ∈
          ["none", "n/a", "no allergies", "no conditions", "no allergy", "no condition"]) := by
    rw [hasMedicalInfo_eq_false_iff]
    constructor
    · rintro (h | h)
      · exact Or.inr (Or.inl h)
      · exact Or.inr (Or.inr h)
    · rintro (h | h | h)
      · subst h; exact Or.inl allWhiteSpace_empty
      · exact Or.inl h
      · exact Or.inr h
  refine ⟨key, ?_, by decide, by decide, by decide, by decide, by decide, ⟨_, rfl⟩⟩
  rw [← key]
  cases hasMedicalInfo (some v) <;> simp

theorem isWhiteSpace_toLower (c : Char) : isWhiteSpace c.toLower = isWhiteSpace c := by
  by_cases h : c.toNat ≥ 65 ∧ c.toNat ≤ 90
  · have hc : c = Char.ofNat c.toNat := (Char.ofNat_toNat c).symm
    obtain ⟨h1, h2⟩ := h
    generalize c.toNat = n at hc h1 h2
    subst hc
    interval_cases n <;> decide
  · simp [Char.toLower, h]

theorem trim_toLowerCase (s : String) : trim (toLowerCase s) = toLowerCase (trim s) := by
  have hp : (isWhiteSpace ∘ Char.toLower) = isWhiteSpace := by
    funext c; exact isWhiteSpace_toLower c
  apply String.ext
  simp only [trim, toLowerCase, List.rdropWhile, List.dropWhile_map, ← List.map_reverse, hp]

theorem rdropWhile_append_of_pos (p : Char → Bool) (a r : List Char) (h : ∀ c ∈ r, p c = true) :
    (a ++ r).rdropWhile p = a.rdropWhile p := by
  simp only [List.rdropWhile, List.reverse_append]
  rw [List.dropWhile_append_of_pos (by simpa using h)]

theorem trim_ws_append (l a : String) (h : allWhiteSpace l) : trim (l ++ a) = trim a := by
  apply String.ext
  simp only [trim, String.data_append]
  rw [List.dropWhile_append_of_pos h]

theorem trim_append_ws (a r : String) (h : allWhiteSpace r) : trim (a ++ r) = trim a := by
  apply String.ext
  simp only [trim, String.data_append, List.dropWhile_append]
  split
  · rename_i he
    have he2 : a.data.dropWhile isWhiteSpace = [] := by simpa using he
    rw [he2, (List.dropWhile_eq_nil_iff).mpr h]
  · exact rdropWhile_append_of_pos _ _ _ h

/-- The value of `hasMedicalInfo` depends only on the trimmed, lower-cased
text. -/
theorem hasMedicalInfo_congr (u v : String)
    (h : toLowerCase (trim u) = toLowerCase (trim v)) :
    hasMedicalInfo (some u) = hasMedicalInfo (some v) := by
  have hw : allWhiteSpace u ↔ allWhiteSpace v := by
    rw [← trim_eq_empty_iff, ← trim_eq_empty_iff, ← toLowerCase_eq_empty_iff,
      ← toLowerCase_eq_empty_iff (trim v), h]
  have hu := hasMedicalInfo_eq_false_iff u
  have hv := hasMedicalInfo_eq_false_iff v
  rw [h, hw] at hu
  cases hx : hasMedicalInfo (some u) <;> cases hy : hasMedicalInfo (some v) <;>
    simp_all

/-- C6, counterexample: `no allergies` and `no  allergies` differ only in the
white space between the two words, yet `hasMedicalInfo` is false on the first
and true on the second. -/
theorem hasMedicalInfo_inner_space_counterexample :
    ¬ ∀ u v : String, differOnlyInCaseAndSpace u v →
        hasMedicalInfo (some u) = hasMedicalInfo (some v) := by
  intro h
  have h1 := h "no allergies" "no  allergies" (by decide)
  revert h1
  decide

/-- C6, amended: `hasMedicalInfo` is insensitive to letter case and to leading
and trailing white space: two strings whose cores are equal up to letter case,
each core wrapped in any white space on the left and on the right, get the
same result. -/
theorem hasMedicalInfo_case_and_outer_space (a b l r l2 r2 : String)
    (hcase : toLowerCase a = toLowerCase b)
    (hl : allWhiteSpace l) (hr : allWhiteSpace r)
    (hl2 : allWhiteSpace l2) (hr2 : allWhiteSpace r2) :
    hasMedicalInfo (some (l ++ a ++ r)) = hasMedicalInfo (some (l2 ++ b ++ r2)) := by
  apply hasMedicalInfo_congr
  rw [trim_append_ws _ _ hr, trim_ws_append _ _ hl, trim_append_ws _ _ hr2,
    trim_ws_append _ _ hl2, ← trim_toLowerCase, ← trim_toLowerCase, hcase]

/-- Witness for C6 (amended) at `No Allergy` against ` no allergy` followed by
a line feed. -/
theorem hasMedicalInfo_case_and_outer_space_witness :
    hasMedicalInfo (some ("" ++ "No Allergy" ++ "")) =
      hasMedicalInfo (some (" " ++ "no allergy" ++ "\n")) :=
  hasMedicalInfo_case_and_outer_space "No Allergy" "no allergy" "" "" " " "\n"
    (by decide) (by decide) (by decide) (by decide) (by decide)

/-! ## The minimal record -/

/-- C7: for the minimal record, with all medical and vehicle fields empty, the
badge payload built by either pipeline (`hasMedicalInfo` normalisation followed
by `buildBadgeQRPayload`) is exactly the seven-line text of the specification. -/
theorem minimal_record_badge_payload :
    (generateIndividualPayloads minimalForm).map Prod.fst =
      some "A B\n1\n555\nICE: C\nICE No.: 556\nAllergies: No\nMedical conditions: No"
    ∧ (generateBulkPayloads minimalRow).1 =
      "A B\n1\n555\nICE: C\nICE No.: 556\nAllergies: No\nMedical conditions: No"
    ∧ buildBadgeQRPayload (qrCodeData (collectFormData minimalForm)) =
      "A B\n1\n555\nICE: C\nICE No.: 556\nAllergies: No\nMedical conditions: No" := by
  decide

/-- C8, counterexample: the badge payload of the minimal record does not
consist of 8 lines. -/
theorem minimal_record_line_count_counterexample :
    lineCount (buildBadgeQRPayload minimalRow) ≠ 8
    ∧ lineCount (generateBulkPayloads minimalRow).1 ≠ 8 := by
  decide

/-- C8, amended: the badge payload of the minimal record consists of 7 lines,
the five identity and contact lines and the two medical-status lines; the
lines of the empty optional fields 6 to 8 (medical aid name, plan and number)
are omitted. -/
theorem minimal_record_line_count :
    lineCount (buildBadgeQRPayload minimalRow) = 7
    ∧ lineCount (generateBulkPayloads minimalRow).1 = 7
    ∧ payloadLines (buildBadgeQRPayload minimalRow) =
        ["A B", "1", "555", "ICE: C", "ICE No.: 556", "Allergies: No",
         "Medical conditions: No"] := by
  decide

/-! ## Line counts -/

theorem optionalLine_no_lf (label : String) (v : Option String) (x : String)
    (hl : '\n' ∉ label.data) (hv : noLineFeed v) (hx : optionalLine label v = some x) :
    '\n' ∉ x.data := by
  cases v with
  | none => simp [optionalLine] at hx
  | some s =>
    by_cases h : s = ""
    · simp [optionalLine, h] at hx
    · simp only [optionalLine, h, if_false, Option.some.injEq] at hx
      subst hx
      have hs : '\n' ∉ s.data := hv
      simp [String.data_append, hl, hs]

theorem statusValue_no_lf (v : Option String) (hv : noLineFeed v) :
    '\n' ∉ (statusValue v).data := by
  cases v with
  | none => decide
  | some s =>
    by_cases h : s = ""
    · simp only [statusValue, h, if_true]; decide
    · simp only [statusValue, h, if_false]; exact hv

theorem badgeOptionalLines_no_lf (r : Record) (h : r.noLineFeeds) :
    ∀ x ∈ badgeOptionalLines r, '\n' ∉ x.data := by
  obtain ⟨h1, h2, h3, h4, h5, h6, h7, h8, _⟩ := h
  intro x hx
  simp only [badgeOptionalLines, List.mem_filterMap, List.mem_cons, List.mem_singleton,
    List.not_mem_nil, or_false, id] at hx
  obtain ⟨o, ho, hox⟩ := hx
  rcases ho with rfl | rfl | rfl | rfl | rfl | rfl | rfl | rfl
  · exact optionalLine_no_lf _ _ x (by decide) h1 hox
  · exact optionalLine_no_lf _ _ x (by decide) h2 hox
  · exact optionalLine_no_lf _ _ x (by decide) h3 hox
  · exact optionalLine_no_lf _ _ x (by decide) h4 hox
  · exact optionalLine_no_lf _ _ x (by decide) h5 hox
  · exact optionalLine_no_lf _ _ x (by decide) h6 hox
  · exact optionalLine_no_lf _ _ x (by decide) h7 hox
  · exact optionalLine_no_lf _ _ x (by decide) h8 hox

theorem discOptionalLines_subset (r : Record) :
    ∀ x ∈ discOptionalLines r, x ∈ badgeOptionalLines r := by
  intro x hx
  simp only [discOptionalLines, badgeOptionalLines, List.mem_filterMap, List.mem_cons,
    List.mem_singleton, List.not_mem_nil, or_false, id] at hx ⊢
  obtain ⟨o, ho, hox⟩ := hx
  exact ⟨o, by tauto, hox⟩

theorem statusLines_no_lf (r : Record) (h : r.noLineFeeds) :
    ∀ x ∈ statusLines r, '\n' ∉ x.data := by
  obtain ⟨_, _, _, _, _, _, _, _, h9, h10, _⟩ := h
  intro x hx
  simp only [statusLines, List.mem_cons, List.mem_singleton, List.not_mem_nil, or_false] at hx
  rcases hx with rfl | rfl
  · have := statusValue_no_lf _ h9
    simp [String.data_append, this]
  · have := statusValue_no_lf _ h10
    simp [String.data_append, this]

theorem vehicleBlock_no_lf (r : Record) (h : r.noLineFeeds) :
    ∀ x ∈ vehicleBlock r, '\n' ∉ x.data := by
  obtain ⟨_, _, _, _, _, _, _, _, _, _, h11, h12, h13⟩ := h
  intro x hx
  simp only [vehicleBlock, List.mem_filterMap, List.mem_cons, List.mem_singleton,
    List.not_mem_nil, or_false, id] at hx
  obtain ⟨o, ho, hox⟩ := hx
  rcases ho with rfl | rfl | rfl
  · exact optionalLine_no_lf _ _ x (by decide) h11 hox
  · exact optionalLine_no_lf _ _ x (by decide) h12 hox
  · exact optionalLine_no_lf _ _ x (by decide) h13 hox

theorem flatMap_payloadLines_of_no_lf (lines : List String)
    (h : ∀ x ∈ lines, '\n' ∉ x.data) : lines.flatMap payloadLines = lines := by
  induction lines with
  | nil => rfl
  | cons a rest ih =>
    rw [List.flatMap_cons, payloadLines_of_not_mem a (h a (List.mem_cons_self _ _)),
      ih (fun x hx => h x (List.mem_cons_of_mem _ hx))]
    rfl

/-- A joined text whose elements hold no line feed has its elements as lines. -/
theorem payloadLines_join_of_no_lf (lines : List String) (hne : lines ≠ [])
    (h : ∀ x ∈ lines, '\n' ∉ x.data) : payloadLines (join "\n" lines) = lines := by
  cases lines with
  | nil => exact absurd rfl hne
  | cons a rest => rw [payloadLines_join, flatMap_payloadLines_of_no_lf _ h]

theorem badgeOptionalLines_length (r : Record) : (badgeOptionalLines r).length ≤ 8 :=
  le_trans (List.length_filterMap_le _ _) (by simp)

theorem discOptionalLines_length (r : Record) : (discOptionalLines r).length ≤ 7 :=
  le_trans (List.length_filterMap_le _ _) (by simp)

theorem vehicleBlock_length (r : Record) : (vehicleBlock r).length ≤ 3 :=
  le_trans (List.length_filterMap_le _ _) (by simp)

/-- C9, counterexample: for the sample record with two line feeds inside its
name the badge payload has more than 10 lines and the disc payload more than
13. -/
theorem line_count_bound_counterexample :
    ¬ (lineCount (buildBadgeQRPayload lineFeedRecord) ≤ 10)
    ∧ ¬ (lineCount (buildDiscQRPayload lineFeedRecord) ≤ 13) := by
  decide

/-- C9, amended: for every record none of whose fields holds a line feed, the
badge payload has at most 10 lines and the disc payload has at most 13 lines,
a line being a maximal piece of the payload between line feeds. -/
theorem line_count_bound (r : Record) (h : r.noLineFeeds) :
    lineCount (buildBadgeQRPayload r) ≤ 10 ∧ lineCount (buildDiscQRPayload r) ≤ 13 := by
  have hb := badgeOptionalLines_no_lf r h
  have hs := statusLines_no_lf r h
  have hv := vehicleBlock_no_lf r h
  have hd : ∀ x ∈ discOptionalLines r, '\n' ∉ x.data :=
    fun x hx => hb x (discOptionalLines_subset r x hx)
  constructor
  · rw [lineCount, buildBadgeQRPayload_eq_join, payloadLines_join_of_no_lf]
    · have := badgeOptionalLines_length r
      simp only [List.length_append, statusLines, List.length_cons, List.length_nil]
      omega
    · simp [statusLines]
    · intro x hx
      rcases List.mem_append.mp hx with hx | hx
      · exact hb x hx
      · exact hs x hx
  · rw [lineCount, buildDiscQRPayload_eq_join, payloadLines_join_of_no_lf]
    · have := discOptionalLines_length r
      have := vehicleBlock_length r
      simp only [List.length_append, statusLines, List.length_cons, List.length_nil]
      omega
    · simp [statusLines]
    · intro x hx
      rcases List.mem_append.mp hx with hx | hx
      · rcases List.mem_append.mp hx with hx | hx
        · exact hd x hx
        · exact hs x hx
      · exact hv x hx

/-- Witness for C9 (amended) at the sample record, whose badge payload has
exactly 10 lines. -/
theorem line_count_bound_witness :
    sampleRecord.noLineFeeds
    ∧ lineCount (buildBadgeQRPayload sampleRecord) = 10
    ∧ lineCount (buildBadgeQRPayload sampleRecord) ≤ 10
    ∧ lineCount (buildDiscQRPayload sampleRecord) ≤ 13 :=
  ⟨by decide, by decide, line_count_bound sampleRecord (by decide)⟩

/-! ## The badge and the vehicle fields -/

/-- C10: the badge payload never includes a vehicle line: two records that
agree on every field except vehicleMake, vehicleModel and vehicleRegistration
have the same badge payload. -/
theorem buildBadgeQRPayload_ignores_vehicle (r1 r2 : Record)
    (h : withoutVehicle r1 = withoutVehicle r2) :
    buildBadgeQRPayload r1 = buildBadgeQRPayload r2 := by
  have e : ∀ r : Record, buildBadgeQRPayload r = buildBadgeQRPayload (withoutVehicle r) :=
    fun _ => rfl
  rw [e r1, e r2, h]

/-- Witness for C10 at the sample record and the same record with another
vehicle. -/
theorem buildBadgeQRPayload_ignores_vehicle_witness :
    withoutVehicle sampleRecord = withoutVehicle otherVehicleRecord
    ∧ sampleRecord ≠ otherVehicleRecord
    ∧ buildBadgeQRPayload sampleRecord = buildBadgeQRPayload otherVehicleRecord :=
  ⟨by decide, by decide, buildBadgeQRPayload_ignores_vehicle sampleRecord otherVehicleRecord
    (by decide)⟩

/-! ## File names -/

theorem replaceWhiteSpaceRuns_no_ws (l : List Char) :
    ∀ inRun : Bool, ∀ c ∈ replaceWhiteSpaceRuns inRun l, isWhiteSpace c = false := by
  induction l with
  | nil => intro inRun c hc; simp [replaceWhiteSpaceRuns] at hc
  | cons a as ih =>
    intro inRun c hc
    by_cases ha : isWhiteSpace a = true
    · cases inRun
      · simp only [replaceWhiteSpaceRuns, ha, if_true, Bool.false_eq_true, if_false,
          List.mem_cons] at hc
        rcases hc with rfl | hc
        · decide
        · exact ih true c hc
      · simp only [replaceWhiteSpaceRuns, ha, if_true] at hc
        exact ih true c hc
    · simp only [replaceWhiteSpaceRuns, ha, Bool.false_eq_true, if_false, List.mem_cons] at hc
      rcases hc with rfl | hc
      · simpa using ha
      · exact ih false c hc

theorem replaceWhiteSpaceRuns_of_no_ws (l : List Char)
    (h : ∀ c ∈ l, isWhiteSpace c = false) :
    ∀ inRun : Bool, replaceWhiteSpaceRuns inRun l = l := by
  induction l with
  | nil => intro inRun; rfl
  | cons a as ih =>
    intro inRun
    have ha : isWhiteSpace a = false := h a (List.mem_cons_self _ _)
    simp [replaceWhiteSpaceRuns, ha, ih (fun c hc => h c (List.mem_cons_of_mem _ hc))]

theorem splitWhiteSpaceRuns_ne_nil (l : List Char) (inRun : Bool) :
    splitWhiteSpaceRuns inRun l ≠ [] := by
  induction l generalizing inRun with
  | nil => simp [splitWhiteSpaceRuns]
  | cons a as ih =>
    by_cases ha : isWhiteSpace a = true
    · cases inRun
      · simp [splitWhiteSpaceRuns, ha]
      · simpa [splitWhiteSpaceRuns, ha] using ih true
    · simp [splitWhiteSpaceRuns, ha]

/-- The pieces of `split(/\s+/)` glued with underscores give the text of
`replace(/\s+/g, '_')`. -/
theorem replaceWhiteSpaceRuns_eq_glue (l : List Char) :
    ∀ inRun : Bool, ∃ p ps, splitWhiteSpaceRuns inRun l = p :: ps ∧
      replaceWhiteSpaceRuns inRun l = p ++ ps.flatMap (fun b => "_".data ++ b) := by
  induction l with
  | nil => intro inRun; exact ⟨[], [], rfl, rfl⟩
  | cons a as ih =>
    intro inRun
    by_cases ha : isWhiteSpace a = true
    · obtain ⟨p, ps, hs, hr⟩ := ih true
      cases inRun
      · refine ⟨[], p :: ps, by simp [splitWhiteSpaceRuns, ha, hs], ?_⟩
        simp [replaceWhiteSpaceRuns, ha, hr]
      · exact ⟨p, ps, by simp [splitWhiteSpaceRuns, ha, hs],
          by simp [replaceWhiteSpaceRuns, ha, hr]⟩
    · obtain ⟨p, ps, hs, hr⟩ := ih false
      exact ⟨a :: p, ps, by simp [splitWhiteSpaceRuns, ha, hs],
        by simp [replaceWhiteSpaceRuns, ha, hr]⟩

theorem sanitizeName_eq_join_split (name : String) :
    sanitizeName name = join "_" (splitWhiteSpace name) := by
  obtain ⟨p, ps, hs, hr⟩ := replaceWhiteSpaceRuns_eq_glue name.data false
  apply String.ext
  simp only [sanitizeName, splitWhiteSpace, hs, List.map_cons, join_cons_data, hr,
    List.flatMap_map]

/-- C21: for every item name, kind and file format, the archive entry name of
`downloadAll` and the file name of `downloadIndividual` (built from the trimmed
name) are the name with every maximal run of white space replaced by one
underscore, then `_`, the kind, `.` and the extension, `docx` for the docx
format and `pdf` otherwise; the sanitized name is the pieces between the runs
of white space joined by underscores, holds no white space, and sanitizing it
again changes nothing. -/
theorem archiveFileName_spec (name kind fileFormat : String) :
    archiveFileName name kind fileFormat =
      sanitizeName name ++ "_" ++ kind ++ "." ++ (if fileFormat = "docx" then "docx" else "pdf")
    ∧ downloadIndividualFileName name kind fileFormat =
      sanitizeName (trim name) ++ "_" ++ kind ++ "." ++
        (if fileFormat = "docx" then "docx" else "pdf")
    ∧ sanitizeName name = String.intercalate "_" (splitWhiteSpace name)
    ∧ (∀ c ∈ (sanitizeName name).data, isWhiteSpace c = false)
    ∧ sanitizeName (sanitizeName name) = sanitizeName name
    ∧ sanitizeName "John  Smith" = "John_Smith"
    ∧ sanitizeName "A \t B\nC" = "A_B_C" := by
  have hws : ∀ c ∈ (sanitizeName name).data, isWhiteSpace c = false :=
    replaceWhiteSpaceRuns_no_ws name.data false
  refine ⟨rfl, ?_, ?_, hws, ?_, by decide, by decide⟩
  · unfold downloadIndividualFileName
    by_cases h : fileFormat = "docx" <;> simp [h, String.append_assoc]
  · rw [sanitizeName_eq_join_split, join_eq_intercalate]
  · apply String.ext
    exact replaceWhiteSpaceRuns_of_no_ws _ hws false

/-! ## Badge text fields -/

/-- On the element that reads `Rank` only the rank statements apply. -/
theorem badgeTextEffects_rank (today : JsDate) (name : String) (info : Record)
    (el : TextElement) (h : trim el.textContent = "Rank") :
    badgeTextEffects today name (some info) el = rankEffects info.rank el := by
  have h1 : ¬ (toLowerCase "Rank" = "name surname" ∨ "Rank" = "name surname") := by decide
  have h2 : ¬ ((includes "Rank" "MemberNo:" = true ∨ includes "Rank" "Member No:" = true)
      ∧ truthy info.membershipNumber = true) := fun hh => absurd hh.1 (by decide)
  have h3 : ¬ (includes "Rank" "Joined:" = true ∧ truthy info.startingDate = true) :=
    fun hh => absurd hh.1 (by decide)
  have h4 : ¬ (includes "Rank" "Card Expires:" = true ∨ includes "Rank" "Cardexpires:" = true) := by
    decide
  have h5 : ¬ ("Rank" = "Position" ∧ truthy info.position = true) :=
    fun hh => absurd hh.1 (by decide)
  simp only [badgeTextEffects, h, h1, h2, h3, h4, h5, if_false, if_true, List.nil_append]

theorem rankLower_eq_empty_iff (r : String) :
    trim (toLowerCase r) = "" ↔ allWhiteSpace r := by
  rw [trim_toLowerCase, toLowerCase_eq_empty_iff, trim_eq_empty_iff]

theorem rankSuppressed_iff (r : String) :
    rankSuppressed (some r) ↔
      (r = "" ∨ trim (toLowerCase r) = "none" ∨ trim (toLowerCase r) = "n/a"
        ∨ trim (toLowerCase r) = "") := by
  have e : toLowerCase (trim r) = "" ↔ allWhiteSpace r :=
    (toLowerCase_eq_empty_iff (trim r)).trans (trim_eq_empty_iff r)
  simp only [rankSuppressed, trim_toLowerCase, e]
  tauto

theorem rankEffects_of_suppressed (rank : Option String) (el : TextElement)
    (h : rankSuppressed rank) : rankEffects rank el = [TextEffect.hide] := by
  cases rank with
  | none => rfl
  | some r =>
    rw [rankSuppressed_iff] at h
    by_cases h0 : r = ""
    · simp [rankEffects, h0]
    · have h1 : trim (toLowerCase r) = "none" ∨ trim (toLowerCase r) = "n/a"
          ∨ trim (toLowerCase r) = "" := by tauto
      simp only [rankEffects, h0, if_false, h1, if_true]

theorem rankEffects_of_not_suppressed (r : String) (el : TextElement)
    (h : ¬ rankSuppressed (some r)) :
    rankEffects (some r) el =
      if el.hasTspan = true ∧ (ranksToDisplay r).length > 1 then
        [TextEffect.setTspans (ranksToDisplay r)]
      else [TextEffect.updateTextContent (ranksToDisplay r).head?] := by
  rw [rankSuppressed_iff] at h
  have h0 : r ≠ "" := fun e => h (Or.inl e)
  have h1 : ¬ (trim (toLowerCase r) = "none" ∨ trim (toLowerCase r) = "n/a"
      ∨ trim (toLowerCase r) = "") := fun e => h (Or.inr e)
  simp only [rankEffects, h0, if_false, h1]

/-- C23: for every current date, the expiry text written on the badge, into
each text element that reads `Card Expires:` or `Cardexpires:`, is
`Card Expires: 31/12/Y`, and it is the last text written there; `Y` is the
current year in the months January to November and the next year in
December. -/
theorem expiry_text_written (today : JsDate) (name : String) (info : Record)
    (el : TextElement)
    (h : includes (trim el.textContent) "Card Expires:" = true
      ∨ includes (trim el.textContent) "Cardexpires:" = true) :
    (badgeTextEffects today name (some info) el).getLast? =
      some (TextEffect.updateTextContent (some ("Card Expires: 31/12/" ++
        toString (if today.month.val = 11 then today.fullYear + 1 else today.fullYear))))
    ∧ (today.month.val ≤ 10 → expiryDateStr today = "31/12/" ++ toString today.fullYear)
    ∧ (today.month.val = 11 →
        expiryDateStr today = "31/12/" ++ toString (today.fullYear + 1)) := by
  refine ⟨?_, ?_, ?_⟩
  · have hp : ¬ (trim el.textContent = "Position" ∧ truthy info.position = true) := by
      rintro ⟨e, _⟩
      rw [e] at h
      revert h
      decide
    have hr : trim el.textContent ≠ "Rank" := by
      intro e
      rw [e] at h
      revert h
      decide
    have hx : ∀ t : String, "Card Expires: " ++ ("31/12/" ++ t) = "Card Expires: 31/12/" ++ t := by
      intro t
      rw [← String.append_assoc]
      rfl
    simp only [badgeTextEffects, h, hp, hr, if_true, if_false, List.append_nil, expiryDateStr,
      expiryYear, hx]
    simp
  · intro hm
    have : today.month.val ≠ 11 := by omega
    simp [expiryDateStr, expiryYear, this]
  · intro hm
    simp [expiryDateStr, expiryYear, hm]

/-- Witness for C23 at a date in December 2025. -/
theorem expiry_text_written_witness :
    (badgeTextEffects sampleDates.2 "A B" (some minimalRow)
        { textContent := "Card Expires: 01/01/2000", hasTspan := true }).getLast? =
      some (TextEffect.updateTextContent (some "Card Expires: 31/12/2026")) :=
  (expiry_text_written sampleDates.2 "A B" minimalRow
    { textContent := "Card Expires: 01/01/2000", hasTspan := true } (by decide)).1

/-- C25: the Rank text region, the text element that reads `Rank`, is hidden
exactly when the rank field is absent, empty, white space only, or equal to
`none` or `n/a` up to letter case and surrounding white space; hiding is the
only change made then, the element stays in the document, and for every other
rank value the element is not hidden. -/
theorem rank_region_hidden_iff (today : JsDate) (name : String) (info : Record)
    (el : TextElement) (h : trim el.textContent = "Rank") :
    (TextEffect.hide ∈ badgeTextEffects today name (some info) el ↔
      (info.rank = none ∨ info.rank = some "" ∨
        ∃ r, info.rank = some r ∧
          (allWhiteSpace r ∨ toLowerCase (trim r) = "none" ∨ toLowerCase (trim r) = "n/a")))
    ∧ (TextEffect.hide ∈ badgeTextEffects today name (some info) el →
        badgeTextEffects today name (some info) el = [TextEffect.hide]) := by
  rw [badgeTextEffects_rank today name info el h]
  have key : TextEffect.hide ∈ rankEffects info.rank el ↔ rankSuppressed info.rank := by
    constructor
    · intro hm
      by_contra hs
      cases hr : info.rank with
      | none => rw [hr] at hs; exact hs trivial
      | some r =>
        rw [hr] at hs hm
        rw [rankEffects_of_not_suppressed r el hs] at hm
        split at hm <;> simp at hm
    · intro hs
      rw [rankEffects_of_suppressed _ el hs]
      simp
  refine ⟨?_, fun hm => rankEffects_of_suppressed _ el (key.mp hm)⟩
  rw [key]
  cases hr : info.rank with
  | none => simp [rankSuppressed]
  | some r =>
    simp only [rankSuppressed, Option.some.injEq, false_or, reduceCtorEq]
    constructor
    · rintro (h0 | h1)
      · exact Or.inl h0
      · exact Or.inr ⟨r, rfl, h1⟩
    · rintro (h0 | ⟨r2, e, h1⟩)
      · exact Or.inl h0
      · subst e; exact Or.inr h1

/-- Witness for C25 at the rank ` N/A ` on the Rank element. -/
theorem rank_region_hidden_iff_witness :
    badgeTextEffects sampleDates.1 "A B" (some { rank := some " N/A " }) (rankElement true) =
      [TextEffect.hide] :=
  (rank_region_hidden_iff sampleDates.1 "A B" { rank := some " N/A " } (rankElement true)
    (by decide)).2 (by decide)

theorem ranksToDisplay_eq (rank : String) :
    ranksToDisplay rank = (rankEntries rank).take 5 := by
  have hf : ∀ l : List String,
      l.filter (fun r => decide (r.length > 0)) = l.filter (fun r => decide (r ≠ "")) := by
    intro l
    apply List.filter_congr
    intro r _
    by_cases hr : r = ""
    · subst hr; rfl
    · have hd : r.data ≠ [] := fun e => hr (String.ext e)
      have hl : 0 < r.length := List.length_pos.mpr hd
      simp [hr, hl]
  show List.take 5 _ = List.take 5 _
  rw [hf]
  rfl

/-- C24, counterexample: on a Rank element without a `tspan` the rank string
`A, B` leaves only `A` on display, not the two entries `A` and `B`. -/
theorem ranks_displayed_counterexample :
    ¬ ∀ (rank : String) (el : TextElement), trim el.textContent = "Rank" →
        ¬ rankSuppressed (some rank) →
        displayedRanks (badgeTextEffects sampleDates.1 "A B" (some { rank := some rank }) el) =
          (rankEntries rank).take 5 := by
  intro h
  have h1 := h "A, B" (rankElement false) (by decide) (by decide)
  revert h1
  decide

/-- C24, amended: for every rank string that is not suppressed and has an
entry, the ranks to display are the first at most 5 of its comma-separated
entries after trimming each entry and dropping the empty ones, in their
order; on a Rank element with a `tspan` they are all displayed, one `tspan`
line per entry when there are several, and on an element without a `tspan`
only the first of them is displayed; never more than 5. -/
theorem ranks_displayed (today : JsDate) (name : String) (info : Record) (el : TextElement)
    (rank : String) (hel : trim el.textContent = "Rank") (hrank : info.rank = some rank)
    (hs : ¬ rankSuppressed (some rank)) (hne : rankEntries rank ≠ []) :
    ranksToDisplay rank = (rankEntries rank).take 5
    ∧ (ranksToDisplay rank).length ≤ 5
    ∧ (el.hasTspan = true →
        displayedRanks (badgeTextEffects today name (some info) el) = ranksToDisplay rank
        ∧ (1 < (ranksToDisplay rank).length →
            badgeTextEffects today name (some info) el =
              [TextEffect.setTspans (ranksToDisplay rank)]))
    ∧ (el.hasTspan = false →
        displayedRanks (badgeTextEffects today name (some info) el) =
          (ranksToDisplay rank).take 1) := by
  have hfx := badgeTextEffects_rank today name info el hel
  rw [hrank, rankEffects_of_not_suppressed rank el hs] at hfx
  have heq := ranksToDisplay_eq rank
  have hne2 : ranksToDisplay rank ≠ [] := by
    rw [heq]
    cases hl : rankEntries rank with
    | nil => exact absurd hl hne
    | cons a t => simp
  refine ⟨heq, ?_, ?_, ?_⟩
  · rw [heq]; exact List.length_take_le _ _
  · intro ht
    rw [hfx]
    cases hl : ranksToDisplay rank with
    | nil => exact absurd hl hne2
    | cons a t =>
      cases t with
      | nil => simp [ht, displayedRanks]
      | cons b t => simp [ht, displayedRanks]
  · intro ht
    rw [hfx]
    cases hl : ranksToDisplay rank with
    | nil => exact absurd hl hne2
    | cons a t => simp [ht, displayedRanks]

/-- Witness for C24 (amended) at six ranks on a Rank element with a `tspan`. -/
theorem ranks_displayed_witness :
    displayedRanks (badgeTextEffects sampleDates.1 "A B" (some { rank := some "A, B,,C,D,E,F" })
        (rankElement true)) = ["A", "B", "C", "D", "E"] :=
  ((ranks_displayed sampleDates.1 "A B" { rank := some "A, B,,C,D,E,F" } (rankElement true)
      "A, B,,C,D,E,F" (by decide) rfl (by decide) (by decide)).2.2.1 rfl).1.trans (by decide)

/-- C30, the failing input: for the rank string `,` the Rank region is not
hidden, the list of ranks to display is empty, and the value written into
the region is `undefined`. -/
theorem rank_comma_writes_undefined :
    ¬ rankSuppressed (some ",")
    ∧ ranksToDisplay "," = []
    ∧ badgeTextEffects sampleDates.1 "A B" (some { rank := some "," }) (rankElement true) =
        [TextEffect.updateTextContent none]
    ∧ badgeTextEffects sampleDates.1 "A B" (some { rank := some ", ," }) (rankElement false) =
        [TextEffect.updateTextContent none] := by
  decide

/-! ## JavaScript numbers -/

theorem floorLog2Aux_spec (fuel n : Nat) (h1 : 1 ≤ n) (hf : n ≤ fuel) :
    2 ^ floorLog2Aux fuel n ≤ n ∧ n < 2 ^ (floorLog2Aux fuel n + 1) := by
  induction fuel generalizing n with
  | zero => omega
  | succ fuel ih =>
    unfold floorLog2Aux
    by_cases h2 : 2 ≤ n
    · simp only [h2, if_true]
      have hm1 : 1 ≤ n / 2 := by omega
      have hm2 : n / 2 ≤ fuel := by omega
      obtain ⟨a, b⟩ := ih (n / 2) hm1 hm2
      constructor
      · rw [pow_succ]
        omega
      · rw [pow_succ]
        omega
    · simp only [h2, if_false]
      omega

/-- `floorLog2 n` is the binary logarithm of `n` rounded down. -/
theorem floorLog2_spec (n : Nat) (h1 : 1 ≤ n) :
    2 ^ floorLog2 n ≤ n ∧ n < 2 ^ (floorLog2 n + 1) :=
  floorLog2Aux_spec n n h1 (le_refl n)

theorem twoPow_eq (e : Int) : twoPow e = (2 : ℚ) ^ e := by
  unfold twoPow
  by_cases h : 0 ≤ e
  · obtain ⟨n, rfl⟩ := Int.eq_ofNat_of_zero_le h
    simp
  · simp only [h, if_false]
    obtain ⟨n, hn⟩ := Int.eq_ofNat_of_zero_le (show 0 ≤ -e by omega)
    have he : e = -(n : Int) := by omega
    subst he
    simp

theorem twoPow_pos (e : Int) : 0 < twoPow e := by
  rw [twoPow_eq]
  positivity

theorem twoPow_le_twoPow {a b : Int} (h : a ≤ b) : twoPow a ≤ twoPow b := by
  rw [twoPow_eq, twoPow_eq]
  exact zpow_le_zpow_right₀ (by norm_num) h

theorem twoPow_lt_iff {a b : Int} : twoPow a < twoPow b ↔ a < b := by
  rw [twoPow_eq, twoPow_eq]
  exact zpow_lt_zpow_iff_right₀ (by norm_num)

theorem twoPow_succ (e : Int) : twoPow (e + 1) = 2 * twoPow e := by
  rw [twoPow_eq, twoPow_eq, zpow_add_one₀ (by norm_num : (2 : ℚ) ≠ 0)]
  ring

theorem twoPow_natCast (n : Nat) : twoPow (n : Int) = ((2 ^ n : Nat) : ℚ) := by
  rw [twoPow_eq]
  simp

theorem twoPow_add (a b : Int) : twoPow (a + b) = twoPow a * twoPow b := by
  rw [twoPow_eq, twoPow_eq, twoPow_eq, zpow_add₀ (by norm_num : (2 : ℚ) ≠ 0)]

/-- The binary exponent brackets the number: `2 ^ e ≤ a < 2 ^ (e + 1)`. -/
theorem binaryExponent_spec (a : ℚ) (ha : 0 < a) :
    twoPow (binaryExponent a) ≤ a ∧ a < twoPow (binaryExponent a + 1) := by
  have hnum : 0 < a.num := Rat.num_pos.mpr ha
  have hn1 : 1 ≤ a.num.natAbs := by omega
  have hd1 : 1 ≤ a.den := a.den_pos
  obtain ⟨n1, n2⟩ := floorLog2_spec a.num.natAbs hn1
  obtain ⟨d1, d2⟩ := floorLog2_spec a.den hd1
  have e1 : a * (a.den : ℚ) = (a.num.natAbs : ℚ) := by
    have h0 : ((a.num.natAbs : Int) : ℚ) = (a.num : ℚ) := by
      rw [Int.natAbs_of_nonneg hnum.le]
    rw [Rat.mul_den_eq_num, ← h0]
    exact Int.cast_natCast _
  have hdpos : (0 : ℚ) < (a.den : ℚ) := by exact_mod_cast hd1
  have c1 : twoPow (floorLog2 a.num.natAbs : Int) ≤ (a.num.natAbs : ℚ) := by
    rw [twoPow_natCast]
    exact_mod_cast n1
  have c2 : (a.num.natAbs : ℚ) < twoPow ((floorLog2 a.num.natAbs : Int) + 1) := by
    have h := twoPow_natCast (floorLog2 a.num.natAbs + 1)
    push_cast at h
    rw [h]
    exact_mod_cast n2
  have c3 : twoPow (floorLog2 a.den : Int) ≤ (a.den : ℚ) := by
    rw [twoPow_natCast]
    exact_mod_cast d1
  have c4 : (a.den : ℚ) < twoPow ((floorLog2 a.den : Int) + 1) := by
    have h := twoPow_natCast (floorLog2 a.den + 1)
    push_cast at h
    rw [h]
    exact_mod_cast d2
  unfold binaryExponent
  simp only
  split_ifs with h
  · refine ⟨h, ?_⟩
    by_contra hc
    have hc2 : twoPow ((floorLog2 a.num.natAbs : Int) - (floorLog2 a.den : Int) + 1) ≤ a :=
      not_lt.mp hc
    have h3 : twoPow ((floorLog2 a.num.natAbs : Int) - (floorLog2 a.den : Int) + 1)
        * twoPow (floorLog2 a.den : Int) = twoPow ((floorLog2 a.num.natAbs : Int) + 1) := by
      rw [← twoPow_add]
      congr 1
      ring
    have h4 : twoPow ((floorLog2 a.num.natAbs : Int) - (floorLog2 a.den : Int) + 1)
        * twoPow (floorLog2 a.den : Int) ≤ a * (a.den : ℚ) :=
      mul_le_mul hc2 c3 (twoPow_pos _).le ha.le
    linarith
  · refine ⟨?_, ?_⟩
    · by_contra hc
      have hc2 : a < twoPow ((floorLog2 a.num.natAbs : Int) - (floorLog2 a.den : Int) - 1) :=
        not_le.mp hc
      have h3 : twoPow ((floorLog2 a.num.natAbs : Int) - (floorLog2 a.den : Int) - 1)
          * twoPow ((floorLog2 a.den : Int) + 1) = twoPow (floorLog2 a.num.natAbs : Int) := by
        rw [← twoPow_add]
        congr 1
        ring
      have h4 : a * (a.den : ℚ)
          < twoPow ((floorLog2 a.num.natAbs : Int) - (floorLog2 a.den : Int) - 1)
            * twoPow ((floorLog2 a.den : Int) + 1) :=
        mul_lt_mul hc2 c4.le hdpos (twoPow_pos _).le
      linarith
    · rw [show (floorLog2 a.num.natAbs : Int) - (floorLog2 a.den : Int) - 1 + 1
          = (floorLog2 a.num.natAbs : Int) - (floorLog2 a.den : Int) by ring]
      exact not_le.mp h

/-- The binary exponent of a positive number below `2 ^ k` is below `k`. -/
theorem binaryExponent_lt (a : ℚ) (k : Int) (ha : 0 < a) (hk : a < twoPow k) :
    binaryExponent a < k := by
  unfold binaryExponent
  simp only
  split_ifs with h
  · exact twoPow_lt_iff.mp (lt_of_le_of_lt h hk)
  · by_contra hc
    have hnum : 0 < a.num := Rat.num_pos.mpr ha
    have hn1 : 1 ≤ a.num.natAbs := by omega
    have hd1 : 1 ≤ a.den := a.den_pos
    obtain ⟨n1, _⟩ := floorLog2_spec a.num.natAbs hn1
    obtain ⟨_, d2⟩ := floorLog2_spec a.den hd1
    have hle : k + ((floorLog2 a.den : Int) + 1) ≤ (floorLog2 a.num.natAbs : Int) := by omega
    have e1 : a * (a.den : ℚ) = (a.num.natAbs : ℚ) := by
      have h0 : ((a.num.natAbs : Int) : ℚ) = (a.num : ℚ) := by
        rw [Int.natAbs_of_nonneg hnum.le]
      rw [Rat.mul_den_eq_num, ← h0]
      exact Int.cast_natCast _
    have c1 : ((2 ^ floorLog2 a.num.natAbs : Nat) : ℚ) ≤ (a.num.natAbs : ℚ) := by
      exact_mod_cast n1
    have c2 : (a.den : ℚ) < ((2 ^ (floorLog2 a.den + 1) : Nat) : ℚ) := by
      exact_mod_cast d2
    have c3 : twoPow k * ((2 ^ (floorLog2 a.den + 1) : Nat) : ℚ)
        ≤ ((2 ^ floorLog2 a.num.natAbs : Nat) : ℚ) := by
      rw [← twoPow_natCast, ← twoPow_natCast, ← twoPow_add]
      apply twoPow_le_twoPow
      push_cast
      exact hle
    have c4 : a * (a.den : ℚ) < twoPow k * ((2 ^ (floorLog2 a.den + 1) : Nat) : ℚ) := by
      have hdpos : (0 : ℚ) < (a.den : ℚ) := by exact_mod_cast hd1
      calc a * (a.den : ℚ) < twoPow k * (a.den : ℚ) := by
            exact mul_lt_mul_of_pos_right hk hdpos
        _ ≤ twoPow k * ((2 ^ (floorLog2 a.den + 1) : Nat) : ℚ) := by
            exact mul_le_mul_of_nonneg_left c2.le (twoPow_pos k).le
    linarith

/-- `roundHalfEven x` is no further than one half from `x`. -/
theorem roundHalfEven_near (x : ℚ) :
    x - 1 / 2 ≤ (roundHalfEven x : ℚ) ∧ (roundHalfEven x : ℚ) ≤ x + 1 / 2 := by
  unfold roundHalfEven
  have h1 := Int.floor_le x
  have h2 := Int.lt_floor_add_one x
  simp only
  split_ifs with a b c <;> push_cast <;> constructor <;> linarith

/-- A positive number below `2 ^ k`, within the range of the normal numbers,
is rounded to a finite number no further than `2 ^ (k - 54)` away. -/
theorem roundDouble_near (q : ℚ) (k : Int) (hq : 0 < q) (hk : q < twoPow k)
    (hk1 : -1021 ≤ k) (hk2 : k ≤ 1023) :
    ∃ r, roundDouble q = JsNumber.fin r ∧ q - twoPow (k - 54) ≤ r ∧ r ≤ q + twoPow (k - 54) := by
  have hb := binaryExponent_lt q k hq hk
  have he : max (binaryExponent q) (-1022) ≤ k - 1 := by
    apply max_le <;> omega
  have hulp : twoPow (max (binaryExponent q) (-1022) - 52) ≤ twoPow (k - 53) :=
    twoPow_le_twoPow (by omega)
  have hpos := twoPow_pos (max (binaryExponent q) (-1022) - 52)
  obtain ⟨n1, n2⟩ := roundHalfEven_near (q / twoPow (max (binaryExponent q) (-1022) - 52))
  have h54 : twoPow (k - 53) = 2 * twoPow (k - 54) := by
    have h := twoPow_succ (k - 54)
    rw [show k - 54 + 1 = k - 53 by ring] at h
    exact h
  have hp54 := twoPow_pos (k - 54)
  set ulp := twoPow (max (binaryExponent q) (-1022) - 52) with hu
  set m := (roundHalfEven (q / ulp) : ℚ) with hm
  have e1 : q / ulp * ulp = q := div_mul_cancel₀ q hpos.ne'
  have lo : q - ulp / 2 ≤ m * ulp := by
    have h := mul_le_mul_of_nonneg_right n1 hpos.le
    rw [sub_mul, e1] at h
    linarith
  have hi : m * ulp ≤ q + ulp / 2 := by
    have h := mul_le_mul_of_nonneg_right n2 hpos.le
    rw [add_mul, e1] at h
    linarith
  have hover : ¬ twoPow 1024 ≤ m * ulp := by
    have h1024 : twoPow k ≤ twoPow 1023 := twoPow_le_twoPow hk2
    have h2 : twoPow 1024 = 2 * twoPow 1023 := twoPow_succ 1023
    intro hc
    have hq' : q < twoPow 1023 := lt_of_lt_of_le hk h1024
    have h3 : twoPow (k - 54) ≤ twoPow 1023 := twoPow_le_twoPow (by omega)
    linarith
  refine ⟨m * ulp, ?_, by linarith, by linarith⟩
  unfold roundDouble
  simp only [hq.ne', hq, if_true, if_false]
  rw [← hu, ← hm]
  simp only [hover, if_false]

/-- The literal `56.692913386` of the code as a binary64 number. -/
theorem roundDouble_twipsPerMm :
    roundDouble 56.692913386 = JsNumber.fin (3989409118745897 / 70368744177664) := by
  decide!

/-- The literal `25.4` of the code as a binary64 number. -/
theorem roundDouble_mmPerInch :
    roundDouble 25.4 = JsNumber.fin (3574732204225331 / 140737488355328) := by
  decide!

/-- The page size in twips of every whole number of millimetres from 1 to
2000: the two roundings of `Math.round(w * 56.692913386)` do not move it from
`w × 1440 / 25.4` rounded to the nearest integer. -/
theorem twips_of_whole_mm (w : ℕ) (h1 : 1 ≤ w) (h2 : w ≤ 2000) :
    JsNumber.round (JsNumber.mul (JsNumber.fin (w : ℚ)) (roundDouble 56.692913386)) =
      JsNumber.fin ((round ((w : ℚ) * 1440 / 25.4) : ℤ) : ℚ) := by
  have hw1 : (1 : ℚ) ≤ (w : ℚ) := by exact_mod_cast h1
  have hw2 : (w : ℚ) ≤ 2000 := by exact_mod_cast h2
  have hq0 : (0 : ℚ) < (w : ℚ) * (3989409118745897 / 70368744177664) := by positivity
  have h17 : twoPow 17 = 131072 := by decide!
  have hq1 : (w : ℚ) * (3989409118745897 / 70368744177664) < twoPow 17 := by
    rw [h17]
    linarith
  obtain ⟨r, hr, lo, hi⟩ := roundDouble_near _ 17 hq0 hq1 (by norm_num) (by norm_num)
  have h37 : twoPow (17 - 54) = 1 / 137438953472 := by decide!
  rw [h37] at lo hi
  rw [roundDouble_twipsPerMm]
  show JsNumber.round (roundDouble _) = _
  rw [hr]
  show JsNumber.fin ((⌊r + 1 / 2⌋ : ℤ) : ℚ) = _
  congr 2
  rw [round_eq]
  have hx : (w : ℚ) * 1440 / 25.4 + 1 / 2 = (((14400 * w + 127 : ℕ) : ℤ) : ℚ) / 254 := by
    push_cast
    norm_num
    ring
  have hdiv : ((14400 * w + 127 : ℕ) : ℤ) = 254 * (((14400 * w + 127 : ℕ) : ℤ) / 254)
      + ((14400 * w + 127 : ℕ) : ℤ) % 254 := (Int.ediv_add_emod _ _).symm
  have hrem1 : 1 ≤ ((14400 * w + 127 : ℕ) : ℤ) % 254 := by omega
  have hrem2 : ((14400 * w + 127 : ℕ) : ℤ) % 254 ≤ 253 := by omega
  set n := ((14400 * w + 127 : ℕ) : ℤ) / 254 with hn
  set rem := ((14400 * w + 127 : ℕ) : ℤ) % 254 with hrem
  have hxq : (w : ℚ) * 1440 / 25.4 + 1 / 2 = (n : ℚ) + (rem : ℚ) / 254 := by
    rw [hx, hdiv]
    push_cast
    ring
  have r1 : (1 : ℚ) ≤ (rem : ℚ) := by exact_mod_cast hrem1
  have r2 : (rem : ℚ) ≤ 253 := by exact_mod_cast hrem2
  have e2 : ⌊(w : ℚ) * 1440 / 25.4 + 1 / 2⌋ = n := by
    rw [Int.floor_eq_iff, hxq]
    constructor <;> linarith
  rw [e2, Int.floor_eq_iff]
  have hwx : (w : ℚ) * 1440 / 25.4 = (n : ℚ) + (rem : ℚ) / 254 - 1 / 2 := by linarith
  have hc : (w : ℚ) * (3989409118745897 / 70368744177664)
      = (w : ℚ) * 1440 / 25.4 + (w : ℚ) * (3989409118745897 / 70368744177664 - 1440 / 25.4) := by
    ring
  have hd1 : (0 : ℚ) ≤ 3989409118745897 / 70368744177664 - 1440 / 25.4 := by norm_num
  have hd2 : (3989409118745897 / 70368744177664 - 1440 / 25.4 : ℚ) ≤ 1 / 1000000000 := by
    norm_num
  have hp1 : (0 : ℚ) ≤ (w : ℚ) * (3989409118745897 / 70368744177664 - 1440 / 25.4) :=
    mul_nonneg (by linarith) hd1
  have hp2 : (w : ℚ) * (3989409118745897 / 70368744177664 - 1440 / 25.4)
      ≤ 2000 * (1 / 1000000000) :=
    mul_le_mul hw2 hd2 hd1 (by norm_num)
  constructor <;> linarith

/-- The image extent in EMU of every whole number of millimetres from 1 to
2000: the roundings of `Math.round((w / 25.4) * 914400)` do not move it from
`36000 × w`. -/
theorem emu_of_whole_mm (w : ℕ) (h1 : 1 ≤ w) (h2 : w ≤ 2000) :
    JsNumber.round (JsNumber.mul (JsNumber.div (JsNumber.fin (w : ℚ)) (roundDouble 25.4))
      (JsNumber.fin 914400)) = JsNumber.fin ((36000 * w : ℕ) : ℚ) := by
  have hw1 : (1 : ℚ) ≤ (w : ℚ) := by exact_mod_cast h1
  have hw2 : (w : ℚ) ≤ 2000 := by exact_mod_cast h2
  have hc0 : (3574732204225331 / 140737488355328 : ℚ) ≠ 0 := by norm_num
  have hq : (w : ℚ) / (3574732204225331 / 140737488355328)
      = (w : ℚ) * (140737488355328 / 3574732204225331) := by
    rw [div_eq_mul_inv, inv_div]
  have hk1 : (10 / 254 : ℚ) ≤ 140737488355328 / 3574732204225331 := by norm_num
  have hk2 : (140737488355328 / 3574732204225331 : ℚ) ≤ 10 / 254 + 1 / 10 ^ 16 := by norm_num
  have hq0 : (0 : ℚ) < (w : ℚ) / (3574732204225331 / 140737488355328) := by positivity
  have hqa : (w : ℚ) * (10 / 254) ≤ (w : ℚ) / (3574732204225331 / 140737488355328) := by
    rw [hq]
    exact mul_le_mul_of_nonneg_left hk1 (by linarith)
  have hqb : (w : ℚ) / (3574732204225331 / 140737488355328)
      ≤ (w : ℚ) * (10 / 254 + 1 / 10 ^ 16) := by
    rw [hq]
    exact mul_le_mul_of_nonneg_left hk2 (by linarith)
  have h7 : twoPow 7 = 128 := by decide!
  have hq1 : (w : ℚ) / (3574732204225331 / 140737488355328) < twoPow 7 := by
    rw [h7]
    norm_num at hqb ⊢
    linarith
  obtain ⟨t1, ht1, lo1, hi1⟩ := roundDouble_near _ 7 hq0 hq1 (by norm_num) (by norm_num)
  have h47 : twoPow (7 - 54) = 1 / 140737488355328 := by decide!
  rw [h47] at lo1 hi1
  have ht0 : (0 : ℚ) < t1 * 914400 := by
    have h : (0 : ℚ) < t1 := by
      norm_num at hqa lo1 ⊢
      linarith
    positivity
  have h27a : twoPow 27 = 134217728 := by decide!
  have ht2 : t1 * 914400 < twoPow 27 := by
    rw [h27a]
    norm_num at hqb hi1 ⊢
    linarith
  obtain ⟨t2, ht2e, lo2, hi2⟩ := roundDouble_near _ 27 ht0 ht2 (by norm_num) (by norm_num)
  have h27 : twoPow (27 - 54) = 1 / 134217728 := by decide!
  rw [h27] at lo2 hi2
  rw [roundDouble_mmPerInch]
  show JsNumber.round (JsNumber.mul (if _ then _ else roundDouble _) _) = _
  rw [if_neg hc0, ht1]
  show JsNumber.round (roundDouble _) = _
  rw [ht2e]
  show JsNumber.fin ((⌊t2 + 1 / 2⌋ : ℤ) : ℚ) = _
  congr 1
  have h : ⌊t2 + 1 / 2⌋ = ((36000 * w : ℕ) : ℤ) := by
    rw [Int.floor_eq_iff]
    push_cast
    norm_num at hqa hqb lo1 hi1 lo2 hi2 ⊢
    constructor <;> linarith
  rw [h]
  push_cast
  ring

/-- The size of a canvas assigned a number from 0 up to 2147483647 is the
number without its fraction. -/
theorem canvasSize_floor (default : Nat) (q : ℚ) (h0 : 0 ≤ q) (h1 : q < 2147483648) :
    canvasSize default (JsNumber.fin q) = ⌊q⌋.toNat := by
  have f0 : 0 ≤ ⌊q⌋ := Int.floor_nonneg.mpr h0
  have f1 : ⌊q⌋ < 2147483648 := by
    rw [Int.floor_lt]
    exact_mod_cast h1
  have hm : ⌊q⌋ % 4294967296 = ⌊q⌋ := Int.emod_eq_of_lt f0 (by omega)
  have hle : ⌊q⌋.toNat ≤ 2147483647 := by omega
  simp only [canvasSize, h0, if_true, hm, hle]

/-- The size of a canvas assigned a whole number up to 2147483647 is that
number. -/
theorem canvasSize_whole (default n : Nat) (h : n ≤ 2147483647) :
    canvasSize default (JsNumber.fin (n : ℚ)) = n := by
  have h1 : ((n : ℚ)) < 2147483648 := by
    have : n < 2147483648 := by omega
    exact_mod_cast this
  rw [canvasSize_floor default (n : ℚ) (Nat.cast_nonneg n) h1]
  simp

/-! ## The exporters -/

theorem filter_filter_isRedrawn (doc : SvgDocument) :
    (imageElements doc).filter (fun img => isDataImage (hrefOf img)) =
      doc.elements.filter isRedrawn := by
  simp only [imageElements, List.filter_filter, isRedrawn]
  apply List.filter_congr
  intro el _
  exact Bool.and_comm _ _

theorem canvasWidth_eq (doc : SvgDocument) :
    (if truthy doc.viewBox = true then parseFloatOf (splitWhiteSpace (doc.viewBox.getD ""))[2]?
      else JsNumber.fin 595) = viewBoxWidth doc := by
  unfold viewBoxWidth
  cases hv : doc.viewBox with
  | none => simp [truthy]
  | some v => by_cases h : v = "" <;> simp [truthy, h]

theorem canvasHeight_eq (doc : SvgDocument) :
    (if truthy doc.viewBox = true then parseFloatOf (splitWhiteSpace (doc.viewBox.getD ""))[3]?
      else JsNumber.fin 842) = viewBoxHeight doc := by
  unfold viewBoxHeight
  cases hv : doc.viewBox with
  | none => simp [truthy]
  | some v => by_cases h : v = "" <;> simp [truthy, h]

theorem physicalSize_eq (attr : Option String) (size : JsNumber) :
    (if truthy attr = true ∧ includes (attr.getD "") "mm" = true then parseFloatOf attr
      else if truthy attr = true then
        JsNumber.mul (JsNumber.div (parseFloatOf attr) (JsNumber.fin 96)) (roundDouble 25.4)
      else JsNumber.mul (JsNumber.div size (JsNumber.fin 96)) (roundDouble 25.4)) =
      physicalSize attr size := by
  unfold physicalSize pxToMm
  cases attr with
  | none => simp [truthy]
  | some a =>
    by_cases h : a = ""
    · simp [truthy, h]
    · by_cases hm : includes a "mm" = true <;> simp [truthy, h, hm, parseFloatOf]

/-- The value `convertSvgToPdfBlob` resolves with, in the vocabulary of the
specification. -/
theorem convertSvgToPdfBlob_resolved (env : RenderEnv) (doc : SvgDocument) (out : PdfOutput)
    (h : convertSvgToPdfBlob env doc = Settled.resolved out) :
    out =
      { orientation := orientationOf (widthMm doc) (heightMm doc)
        unit := "mm"
        format := (widthMm doc, heightMm doc)
        imageX := JsNumber.fin 0
        imageY := JsNumber.fin 0
        imageWidth := widthMm doc
        imageHeight := heightMm doc
        raster := rasterOf doc } := by
  unfold convertSvgToPdfBlob at h
  simp only [canvasWidth_eq, canvasHeight_eq, physicalSize_eq, filter_filter_isRedrawn] at h
  split at h
  · exact absurd h (by simp)
  · split at h
    · exact absurd h (by simp)
    · exact (Settled.resolved.inj h).symm

/-- The value `convertSvgToDocxBlob` resolves with, in the vocabulary of the
specification. -/
theorem convertSvgToDocxBlob_resolved (env : RenderEnv) (doc : SvgDocument) (out : DocxOutput)
    (h : convertSvgToDocxBlob env doc = Settled.resolved out) :
    out =
      { pageWidthMm := widthMm doc
        pageHeightMm := heightMm doc
        widthEMU :=
          JsNumber.round (JsNumber.mul (JsNumber.div (widthMm doc) (roundDouble 25.4))
            (JsNumber.fin 914400))
        heightEMU :=
          JsNumber.round (JsNumber.mul (JsNumber.div (heightMm doc) (roundDouble 25.4))
            (JsNumber.fin 914400))
        pageWidthTwips := JsNumber.round (JsNumber.mul (widthMm doc) (roundDouble 56.692913386))
        pageHeightTwips :=
          JsNumber.round (JsNumber.mul (heightMm doc) (roundDouble 56.692913386))
        orientation := orientationOf (widthMm doc) (heightMm doc)
        margins := ["0", "0", "0", "0", "0", "0", "0"]
        raster := rasterOf doc } := by
  unfold convertSvgToDocxBlob at h
  simp only [canvasWidth_eq, canvasHeight_eq, physicalSize_eq, filter_filter_isRedrawn] at h
  split at h
  · exact absurd h (by simp)
  · split at h
    · exact absurd h (by simp)
    · split at h
      · exact absurd h (by simp)
      · exact (Settled.resolved.inj h).symm

/-- When everything loads `convertSvgToPdfBlob` resolves. -/
theorem convertSvgToPdfBlob_allLoads (doc : SvgDocument) :
    ∃ out, convertSvgToPdfBlob allLoads doc = Settled.resolved out := by
  unfold convertSvgToPdfBlob
  simp [allLoads]

/-- When everything loads `convertSvgToDocxBlob` resolves. -/
theorem convertSvgToDocxBlob_allLoads (doc : SvgDocument) :
    ∃ out, convertSvgToDocxBlob allLoads doc = Settled.resolved out := by
  unfold convertSvgToDocxBlob
  simp [allLoads]

theorem includes_ne_empty (a sub : String) (h : includes a sub = true) (hs : sub ≠ "") :
    a ≠ "" := by
  intro e
  subst e
  unfold includes at h
  have h2 : sub.data <:+: ([] : List Char) := of_decide_eq_true h
  exact hs (String.ext (List.infix_nil.mp h2))

theorem physicalSize_mm (a : String) (size : JsNumber) (h : includes a "mm" = true) :
    physicalSize (some a) size = parseFloat a := by
  have hne : a ≠ "" := includes_ne_empty a "mm" h (by decide)
  simp [physicalSize, hne, h]

/-- C11: for every resolved document whose `width` and `height` attributes are
given in millimetres, with the numbers `W` and `H`, the page `convertSvgToPdfBlob`
creates has the unit `mm` and the format `[W, H]`, and the raster is placed at
`(0, 0)` with the extent `W` by `H`, whatever the view box, the scale and the
elements of the document are. -/
theorem pdf_page_is_declared_size (env : RenderEnv) (doc : SvgDocument) (sw sh : String)
    (W H : ℚ) (out : PdfOutput)
    (hw : doc.width = some sw) (hh : doc.height = some sh)
    (hwm : includes sw "mm" = true) (hhm : includes sh "mm" = true)
    (hW : parseFloat sw = JsNumber.fin W) (hH : parseFloat sh = JsNumber.fin H)
    (h : convertSvgToPdfBlob env doc = Settled.resolved out) :
    out.unit = "mm" ∧ out.format = (JsNumber.fin W, JsNumber.fin H)
    ∧ out.imageX = JsNumber.fin 0 ∧ out.imageY = JsNumber.fin 0
    ∧ out.imageWidth = JsNumber.fin W ∧ out.imageHeight = JsNumber.fin H := by
  have e := convertSvgToPdfBlob_resolved env doc out h
  have e1 : widthMm doc = JsNumber.fin W := by
    rw [widthMm, hw, physicalSize_mm sw _ hwm, hW]
  have e2 : heightMm doc = JsNumber.fin H := by
    rw [heightMm, hh, physicalSize_mm sh _ hhm, hH]
  rw [e1, e2] at e
  subst e
  exact ⟨rfl, rfl, rfl, rfl, rfl, rfl⟩

/-- Witness for C11: a document declared 210 mm by 297 mm, with a view box of
1000 by 400, yields a page of 210 by 297 mm. -/
theorem pdf_page_is_declared_size_witness :
    ∃ out, convertSvgToPdfBlob allLoads a4Document = Settled.resolved out
      ∧ out.format = (JsNumber.fin 210, JsNumber.fin 297)
      ∧ out.imageWidth = JsNumber.fin 210 ∧ out.imageHeight = JsNumber.fin 297 := by
  obtain ⟨out, h⟩ := convertSvgToPdfBlob_allLoads a4Document
  have t := pdf_page_is_declared_size allLoads a4Document "210mm" "297mm" 210 297 out rfl rfl
    (by decide) (by decide) (by decide!) (by decide!) h
  exact ⟨out, h, t.2.1, t.2.2.2.2.1, t.2.2.2.2.2⟩

/-- C12: in both exporters the physical width in millimetres is the number
parsed from the `width` attribute when the attribute contains `mm`; otherwise,
when the attribute has a value, its number divided by 96 and multiplied by
25.4; otherwise the width of the view box (595 without a view box) divided by
96 and multiplied by 25.4; the height likewise, with 842.  No other ratio
occurs. -/
theorem physical_size_resolution (env1 env2 : RenderEnv) (doc : SvgDocument) (p : PdfOutput)
    (d : DocxOutput) (hp : convertSvgToPdfBlob env1 doc = Settled.resolved p)
    (hd : convertSvgToDocxBlob env2 doc = Settled.resolved d) :
    p.format = (physicalSize doc.width (viewBoxWidth doc),
                physicalSize doc.height (viewBoxHeight doc))
    ∧ d.pageWidthMm = physicalSize doc.width (viewBoxWidth doc)
    ∧ d.pageHeightMm = physicalSize doc.height (viewBoxHeight doc)
    ∧ (∀ (a : String) (size : JsNumber), includes a "mm" = true →
        physicalSize (some a) size = parseFloat a)
    ∧ (∀ (a : String) (size : JsNumber), a ≠ "" → includes a "mm" = false →
        physicalSize (some a) size =
          JsNumber.mul (JsNumber.div (parseFloat a) (JsNumber.fin 96)) (roundDouble 25.4))
    ∧ (∀ size : JsNumber,
        physicalSize none size =
          JsNumber.mul (JsNumber.div size (JsNumber.fin 96)) (roundDouble 25.4)
        ∧ physicalSize (some "") size =
          JsNumber.mul (JsNumber.div size (JsNumber.fin 96)) (roundDouble 25.4))
    ∧ (doc.viewBox = none →
        viewBoxWidth doc = JsNumber.fin 595 ∧ viewBoxHeight doc = JsNumber.fin 842) := by
  have ep := convertSvgToPdfBlob_resolved env1 doc p hp
  have ed := convertSvgToDocxBlob_resolved env2 doc d hd
  subst ep ed
  refine ⟨rfl, rfl, rfl, fun a size h => physicalSize_mm a size h, ?_, ?_, ?_⟩
  · intro a size hne hm
    simp [physicalSize, pxToMm, hne, hm]
  · intro size
    exact ⟨rfl, rfl⟩
  · intro hv
    simp [viewBoxWidth, viewBoxHeight, hv]

/-- Witness for C12 at the document of 210 mm by 297 mm. -/
theorem physical_size_resolution_witness :
    ∃ p d, convertSvgToPdfBlob allLoads a4Document = Settled.resolved p
      ∧ convertSvgToDocxBlob allLoads a4Document = Settled.resolved d
      ∧ d.pageWidthMm = physicalSize a4Document.width (viewBoxWidth a4Document) := by
  obtain ⟨p, hp⟩ := convertSvgToPdfBlob_allLoads a4Document
  obtain ⟨d, hd⟩ := convertSvgToDocxBlob_allLoads a4Document
  exact ⟨p, d, hp, hd, (physical_size_resolution allLoads allLoads a4Document p d hp hd).2.1⟩

theorem renderScale_fin (w : ℚ) :
    renderScale (JsNumber.fin w) = if 250 < w then JsNumber.fin 10 else JsNumber.fin 3 := by
  by_cases h : 250 < w <;> simp [renderScale, JsNumber.gt, h]

/-- C14: both exporters choose the render scale from the physical width of
the document alone, the width in millimetres resolved from the `width`
attribute and the view box: the scale is 10 when that width is greater than
250 and 3 otherwise, 250 itself giving 3; two documents of the same physical
width are rendered at the same scale, and a document wider than 250 mm at a
higher scale than one that is not. -/
theorem render_scale_from_width (env1 env2 : RenderEnv) (doc : SvgDocument) (p : PdfOutput)
    (d : DocxOutput) (hp : convertSvgToPdfBlob env1 doc = Settled.resolved p)
    (hd : convertSvgToDocxBlob env2 doc = Settled.resolved d) :
    p.raster.scale =
      (if JsNumber.gt (physicalSize doc.width (viewBoxWidth doc)) (JsNumber.fin 250)
       then JsNumber.fin 10 else JsNumber.fin 3)
    ∧ d.raster.scale = p.raster.scale
    ∧ (∀ w : ℚ, physicalSize doc.width (viewBoxWidth doc) = JsNumber.fin w →
        (250 < w → p.raster.scale = JsNumber.fin 10 ∧ d.raster.scale = JsNumber.fin 10)
        ∧ (w ≤ 250 → p.raster.scale = JsNumber.fin 3 ∧ d.raster.scale = JsNumber.fin 3))
    ∧ (∀ (sw : String) (w : ℚ), doc.width = some sw → includes sw "mm" = true →
        parseFloat sw = JsNumber.fin w →
        (250 < w → p.raster.scale = JsNumber.fin 10 ∧ d.raster.scale = JsNumber.fin 10)
        ∧ (w ≤ 250 → p.raster.scale = JsNumber.fin 3 ∧ d.raster.scale = JsNumber.fin 3))
    ∧ (∀ (env3 env4 : RenderEnv) (doc2 : SvgDocument) (p2 : PdfOutput) (d2 : DocxOutput),
        convertSvgToPdfBlob env3 doc2 = Settled.resolved p2 →
        convertSvgToDocxBlob env4 doc2 = Settled.resolved d2 →
        physicalSize doc2.width (viewBoxWidth doc2)
          = physicalSize doc.width (viewBoxWidth doc) →
        p2.raster.scale = p.raster.scale ∧ d2.raster.scale = d.raster.scale)
    ∧ (∀ (env3 env4 : RenderEnv) (doc2 : SvgDocument) (p2 : PdfOutput) (d2 : DocxOutput)
        (w w2 : ℚ),
        convertSvgToPdfBlob env3 doc2 = Settled.resolved p2 →
        convertSvgToDocxBlob env4 doc2 = Settled.resolved d2 →
        physicalSize doc.width (viewBoxWidth doc) = JsNumber.fin w →
        physicalSize doc2.width (viewBoxWidth doc2) = JsNumber.fin w2 →
        250 < w → w2 ≤ 250 →
        JsNumber.gt p.raster.scale p2.raster.scale = true
        ∧ JsNumber.gt d.raster.scale d2.raster.scale = true) := by
  have ep := convertSvgToPdfBlob_resolved env1 doc p hp
  have ed := convertSvgToDocxBlob_resolved env2 doc d hd
  subst ep ed
  have key : ∀ w : ℚ, physicalSize doc.width (viewBoxWidth doc) = JsNumber.fin w →
      (250 < w → renderScale (widthMm doc) = JsNumber.fin 10)
      ∧ (w ≤ 250 → renderScale (widthMm doc) = JsNumber.fin 3) := by
    intro w hw
    have e : widthMm doc = JsNumber.fin w := hw
    rw [e, renderScale_fin]
    constructor
    · intro h
      rw [if_pos h]
    · intro h
      rw [if_neg (not_lt.mpr h)]
  refine ⟨rfl, rfl, ?_, ?_, ?_, ?_⟩
  · intro w hw
    exact ⟨fun h => ⟨(key w hw).1 h, (key w hw).1 h⟩, fun h => ⟨(key w hw).2 h, (key w hw).2 h⟩⟩
  · intro sw w hsw hmm hpf
    have hw : physicalSize doc.width (viewBoxWidth doc) = JsNumber.fin w := by
      rw [hsw, physicalSize_mm sw _ hmm, hpf]
    exact ⟨fun h => ⟨(key w hw).1 h, (key w hw).1 h⟩, fun h => ⟨(key w hw).2 h, (key w hw).2 h⟩⟩
  · intro env3 env4 doc2 p2 d2 hp2 hd2 hsame
    have ep2 := convertSvgToPdfBlob_resolved env3 doc2 p2 hp2
    have ed2 := convertSvgToDocxBlob_resolved env4 doc2 d2 hd2
    subst ep2 ed2
    have e : widthMm doc2 = widthMm doc := hsame
    exact ⟨congrArg renderScale e, congrArg renderScale e⟩
  · intro env3 env4 doc2 p2 d2 w w2 hp2 hd2 hw hw2 hwide hnarrow
    have ep2 := convertSvgToPdfBlob_resolved env3 doc2 p2 hp2
    have ed2 := convertSvgToDocxBlob_resolved env4 doc2 d2 hd2
    subst ep2 ed2
    have e1 : renderScale (widthMm doc) = JsNumber.fin 10 := (key w hw).1 hwide
    have e2 : renderScale (widthMm doc2) = JsNumber.fin 3 := by
      have e : widthMm doc2 = JsNumber.fin w2 := hw2
      rw [e, renderScale_fin, if_neg (not_lt.mpr hnarrow)]
    have g : JsNumber.gt (JsNumber.fin 10) (JsNumber.fin 3) = true := by decide!
    constructor
    · show JsNumber.gt (renderScale (widthMm doc)) (renderScale (widthMm doc2)) = true
      rw [e1, e2]
      exact g
    · show JsNumber.gt (renderScale (widthMm doc)) (renderScale (widthMm doc2)) = true
      rw [e1, e2]
      exact g

/-- Witness for C14: the document declared 297 mm wide is rendered at 10 by
both exporters. -/
theorem render_scale_from_width_witness :
    ∃ p d, convertSvgToPdfBlob allLoads wideDocument = Settled.resolved p
      ∧ convertSvgToDocxBlob allLoads wideDocument = Settled.resolved d
      ∧ p.raster.scale = JsNumber.fin 10 ∧ d.raster.scale = JsNumber.fin 10 := by
  obtain ⟨p, hp⟩ := convertSvgToPdfBlob_allLoads wideDocument
  obtain ⟨d, hd⟩ := convertSvgToDocxBlob_allLoads wideDocument
  have t := (render_scale_from_width allLoads allLoads wideDocument p d hp hd).2.2.2.1
    "297mm" 297 rfl (by decide) (by decide!)
  exact ⟨p, d, hp, hd, (t.1 (by norm_num)).1, (t.1 (by norm_num)).2⟩

theorem viewBox_of_four (doc : SvgDocument) (v minX minY w h : String)
    (hv : doc.viewBox = some v) (hs : splitWhiteSpace v = [minX, minY, w, h]) :
    viewBoxWidth doc = parseFloat w ∧ viewBoxHeight doc = parseFloat h := by
  have hne : v ≠ "" := by
    intro e
    subst e
    have h1 : splitWhiteSpace "" = [""] := by decide
    rw [h1] at hs
    simp at hs
  simp [viewBoxWidth, viewBoxHeight, hv, hne, hs, parseFloatOf]

/-- C15, as it fails: the view box `0 0 85.6 54` is rendered at the scale 3
on a canvas 256 wide, while `85.6 × 3` is not a whole number. -/
theorem raster_size_counterexample :
    ¬ ∀ (doc : SvgDocument) (p : PdfOutput) (v minX minY w h : String),
        convertSvgToPdfBlob allLoads doc = Settled.resolved p →
        doc.viewBox = some v → splitWhiteSpace v = [minX, minY, w, h] →
        JsNumber.fin (p.raster.width : ℚ) = JsNumber.mul (parseFloat w) p.raster.scale := by
  intro H
  obtain ⟨p, hp⟩ := convertSvgToPdfBlob_allLoads fractionalDocument
  have t := H fractionalDocument p "0 0 85.6 54" "0" "0" "85.6" "54" hp rfl (by decide)
  have ep := convertSvgToPdfBlob_resolved allLoads fractionalDocument p hp
  rw [ep] at t
  have h1 : (rasterOf fractionalDocument).width = 256 := by decide!
  have h2 : (rasterOf fractionalDocument).scale = JsNumber.fin 3 := by decide!
  have h3 : JsNumber.mul (parseFloat "85.6") (JsNumber.fin 3)
      ≠ JsNumber.fin ((256 : ℕ) : ℚ) := by decide!
  simp only [h1, h2] at t
  exact h3 t.symm

/-- C15, amended: for every resolved document with a view box of four numbers
`minX minY w h` the canvas of each exporter is `w` times the scale wide and
`h` times the scale high in whole pixels: the product goes through the
conversion of the canvas size, which drops the fraction of a number from 0 up
to 2147483647 and leaves a whole number as it is.  Without a view box the
canvas is 1785 by 2526 at the scale 3 and 5950 by 8420 at the scale 10, that is
595 and 842 times the scale.  The scale is that of the physical width, and the
`width` and `height` attributes enter through the scale only. -/
theorem raster_size (env1 env2 : RenderEnv) (doc : SvgDocument) (p : PdfOutput)
    (d : DocxOutput) (hp : convertSvgToPdfBlob env1 doc = Settled.resolved p)
    (hd : convertSvgToDocxBlob env2 doc = Settled.resolved d) :
    (∀ v minX minY w h : String, doc.viewBox = some v →
        splitWhiteSpace v = [minX, minY, w, h] →
        p.raster.width = canvasSize 300 (JsNumber.mul (parseFloat w) p.raster.scale)
        ∧ p.raster.height = canvasSize 150 (JsNumber.mul (parseFloat h) p.raster.scale)
        ∧ d.raster.width = canvasSize 300 (JsNumber.mul (parseFloat w) d.raster.scale)
        ∧ d.raster.height = canvasSize 150 (JsNumber.mul (parseFloat h) d.raster.scale))
    ∧ (∀ (default : Nat) (q : ℚ), 0 ≤ q → q < 2147483648 →
        canvasSize default (JsNumber.fin q) = ⌊q⌋.toNat)
    ∧ (∀ default n : Nat, n ≤ 2147483647 → canvasSize default (JsNumber.fin (n : ℚ)) = n)
    ∧ (doc.viewBox = none →
        (p.raster.scale = JsNumber.fin 3 ∧ p.raster.width = 1785 ∧ p.raster.height = 2526
          ∧ d.raster.width = 1785 ∧ d.raster.height = 2526)
        ∨ (p.raster.scale = JsNumber.fin 10 ∧ p.raster.width = 5950 ∧ p.raster.height = 8420
          ∧ d.raster.width = 5950 ∧ d.raster.height = 8420))
    ∧ p.raster.scale = renderScale (physicalSize doc.width (viewBoxWidth doc))
    ∧ d.raster.scale = renderScale (physicalSize doc.width (viewBoxWidth doc))
    ∧ (∀ (env3 env4 : RenderEnv) (doc2 : SvgDocument) (p2 : PdfOutput) (d2 : DocxOutput),
        convertSvgToPdfBlob env3 doc2 = Settled.resolved p2 →
        convertSvgToDocxBlob env4 doc2 = Settled.resolved d2 →
        doc2.viewBox = doc.viewBox → p2.raster.scale = p.raster.scale →
        p2.raster.width = p.raster.width ∧ p2.raster.height = p.raster.height
        ∧ d2.raster.width = d.raster.width ∧ d2.raster.height = d.raster.height) := by
  have ep := convertSvgToPdfBlob_resolved env1 doc p hp
  have ed := convertSvgToDocxBlob_resolved env2 doc d hd
  subst ep ed
  refine ⟨?_, canvasSize_floor, canvasSize_whole, ?_, rfl, rfl, ?_⟩
  · intro v minX minY w h hv hs
    obtain ⟨e1, e2⟩ := viewBox_of_four doc v minX minY w h hv hs
    simp only [rasterOf, e1, e2, and_self]
  · intro hv
    have e1 : viewBoxWidth doc = JsNumber.fin 595 := by simp [viewBoxWidth, hv]
    have e2 : viewBoxHeight doc = JsNumber.fin 842 := by simp [viewBoxHeight, hv]
    have hs : renderScale (widthMm doc) = JsNumber.fin 10
        ∨ renderScale (widthMm doc) = JsNumber.fin 3 := by
      unfold renderScale
      split_ifs
      · exact Or.inl rfl
      · exact Or.inr rfl
    have a1 : canvasSize 300 (JsNumber.mul (JsNumber.fin 595) (JsNumber.fin 3)) = 1785 := by
      decide!
    have a2 : canvasSize 150 (JsNumber.mul (JsNumber.fin 842) (JsNumber.fin 3)) = 2526 := by
      decide!
    have a3 : canvasSize 300 (JsNumber.mul (JsNumber.fin 595) (JsNumber.fin 10)) = 5950 := by
      decide!
    have a4 : canvasSize 150 (JsNumber.mul (JsNumber.fin 842) (JsNumber.fin 10)) = 8420 := by
      decide!
    rcases hs with hs | hs
    · right
      simp only [rasterOf, e1, e2, hs, a3, a4, and_self]
    · left
      simp only [rasterOf, e1, e2, hs, a1, a2, and_self]
  · intro env3 env4 doc2 p2 d2 hp2 hd2 hvb hsc
    have ep2 := convertSvgToPdfBlob_resolved env3 doc2 p2 hp2
    have ed2 := convertSvgToDocxBlob_resolved env4 doc2 d2 hd2
    subst ep2 ed2
    have e1 : viewBoxWidth doc2 = viewBoxWidth doc := by simp [viewBoxWidth, hvb]
    have e2 : viewBoxHeight doc2 = viewBoxHeight doc := by simp [viewBoxHeight, hvb]
    have hsc2 : renderScale (widthMm doc2) = renderScale (widthMm doc) := hsc
    simp only [rasterOf, e1, e2, hsc2, and_self]

/-- Witness for the amended C15: the document of 210 mm by 297 mm with the
view box `0 -5 1000 400` is painted on a canvas of 3000 by 1200. -/
theorem raster_size_witness :
    ∃ p d, convertSvgToPdfBlob allLoads a4Document = Settled.resolved p
      ∧ convertSvgToDocxBlob allLoads a4Document = Settled.resolved d
      ∧ p.raster.width = canvasSize 300 (JsNumber.mul (parseFloat "1000") p.raster.scale)
      ∧ p.raster.width = 3000 ∧ p.raster.height = 1200
      ∧ d.raster.width = 3000 ∧ d.raster.height = 1200 := by
  obtain ⟨p, hp⟩ := convertSvgToPdfBlob_allLoads a4Document
  obtain ⟨d, hd⟩ := convertSvgToDocxBlob_allLoads a4Document
  have t := (raster_size allLoads allLoads a4Document p d hp hd).1 "0 -5 1000 400" "0" "-5"
    "1000" "400" rfl (by decide)
  have ep := convertSvgToPdfBlob_resolved allLoads a4Document p hp
  have ed := convertSvgToDocxBlob_resolved allLoads a4Document d hd
  refine ⟨p, d, hp, hd, t.1, ?_, ?_, ?_, ?_⟩
  · rw [ep]; decide!
  · rw [ep]; decide!
  · rw [ed]; decide!
  · rw [ed]; decide!

theorem orientationOf_fin (w h : ℚ) :
    orientationOf (JsNumber.fin w) (JsNumber.fin h)
      = if h < w then "landscape" else "portrait" := by
  by_cases hlt : h < w <;> simp [orientationOf, JsNumber.gt, hlt]

/-- C16: both exporters set the orientation to landscape exactly when the
physical width of the document in millimetres is greater than its physical
height, the two resolved from the `width` and `height` attributes and the
view box, and to portrait otherwise, a square page being portrait; two
documents of the same physical width and height have the same orientation,
whatever their view boxes and canvases are. -/
theorem orientation_from_physical_size (env1 env2 : RenderEnv) (doc : SvgDocument)
    (p : PdfOutput) (d : DocxOutput)
    (hp : convertSvgToPdfBlob env1 doc = Settled.resolved p)
    (hd : convertSvgToDocxBlob env2 doc = Settled.resolved d) :
    p.orientation =
      (if JsNumber.gt (physicalSize doc.width (viewBoxWidth doc))
          (physicalSize doc.height (viewBoxHeight doc)) then "landscape" else "portrait")
    ∧ d.orientation = p.orientation
    ∧ (∀ w h : ℚ, physicalSize doc.width (viewBoxWidth doc) = JsNumber.fin w →
        physicalSize doc.height (viewBoxHeight doc) = JsNumber.fin h →
        (h < w → p.orientation = "landscape" ∧ d.orientation = "landscape")
        ∧ (w ≤ h → p.orientation = "portrait" ∧ d.orientation = "portrait"))
    ∧ (∀ (env3 env4 : RenderEnv) (doc2 : SvgDocument) (p2 : PdfOutput) (d2 : DocxOutput),
        convertSvgToPdfBlob env3 doc2 = Settled.resolved p2 →
        convertSvgToDocxBlob env4 doc2 = Settled.resolved d2 →
        physicalSize doc2.width (viewBoxWidth doc2)
          = physicalSize doc.width (viewBoxWidth doc) →
        physicalSize doc2.height (viewBoxHeight doc2)
          = physicalSize doc.height (viewBoxHeight doc) →
        p2.orientation = p.orientation ∧ d2.orientation = d.orientation) := by
  have ep := convertSvgToPdfBlob_resolved env1 doc p hp
  have ed := convertSvgToDocxBlob_resolved env2 doc d hd
  subst ep ed
  refine ⟨rfl, rfl, ?_, ?_⟩
  · intro w h hw hh
    have e1 : widthMm doc = JsNumber.fin w := hw
    have e2 : heightMm doc = JsNumber.fin h := hh
    have e : orientationOf (widthMm doc) (heightMm doc)
        = if h < w then "landscape" else "portrait" := by
      rw [e1, e2, orientationOf_fin]
    constructor
    · intro hlt
      have e3 : orientationOf (widthMm doc) (heightMm doc) = "landscape" := by
        rw [e, if_pos hlt]
      exact ⟨e3, e3⟩
    · intro hle
      have e3 : orientationOf (widthMm doc) (heightMm doc) = "portrait" := by
        rw [e, if_neg (not_lt.mpr hle)]
      exact ⟨e3, e3⟩
  · intro env3 env4 doc2 p2 d2 hp2 hd2 hw hh
    have ep2 := convertSvgToPdfBlob_resolved env3 doc2 p2 hp2
    have ed2 := convertSvgToDocxBlob_resolved env4 doc2 d2 hd2
    subst ep2 ed2
    have h1 : widthMm doc2 = widthMm doc := hw
    have h2 : heightMm doc2 = heightMm doc := hh
    simp only [h1, h2, and_self]

/-- Witness for C16: the document declared `76.2mm` wide and `288` pixels
high is landscape in both exporters: the height `288 / 96 * 25.4` is computed
as 76.19999999999999, below the width 76.2. -/
theorem orientation_from_physical_size_witness :
    ∃ p d, convertSvgToPdfBlob allLoads mixedUnitsDocument = Settled.resolved p
      ∧ convertSvgToDocxBlob allLoads mixedUnitsDocument = Settled.resolved d
      ∧ p.orientation = "landscape" ∧ d.orientation = "landscape" := by
  obtain ⟨p, hp⟩ := convertSvgToPdfBlob_allLoads mixedUnitsDocument
  obtain ⟨d, hd⟩ := convertSvgToDocxBlob_allLoads mixedUnitsDocument
  have t := (orientation_from_physical_size allLoads allLoads mixedUnitsDocument p d hp hd).2.2.1
    (5362098306337997 / 70368744177664) (5362098306337996 / 70368744177664)
    (by decide!) (by decide!)
  exact ⟨p, d, hp, hd, (t.1 (by norm_num)).1, (t.1 (by norm_num)).2⟩

/-- C17, counterexample: in the resolved badge the photo `PB1-filled` and the
flag `PHF1-filled` are image nodes with a `data:image` href, yet the second
pass draws the code image `QRB1-filled` alone. -/
theorem second_pass_counterexample :
    ¬ ∀ (doc : SvgDocument) (out : PdfOutput) (el : SvgElement),
        convertSvgToPdfBlob allLoads doc = Settled.resolved out →
        el ∈ doc.elements → el.tag = "image" → el.id ∈ filledIds.map some →
        isDataImage (hrefOf el) = true →
        overlayOf out.raster.scale el ∈ out.raster.overlays := by
  intro h
  obtain ⟨out, hout⟩ := convertSvgToPdfBlob_allLoads resolvedBadge
  have ep := convertSvgToPdfBlob_resolved allLoads resolvedBadge out hout
  have h1 := h resolvedBadge out
    { tag := "image", id := some "PB1-filled",
      xlinkHref := some "data:image/jpeg;base64,BBBB",
      x := some "561.42716", y := some "418.3492", width := some "388.95755",
      height := some "493.9761" } hout (by decide) rfl (by decide) (by decide)
  rw [ep] at h1
  revert h1
  decide!

/-- C17, amended: for every resolved document the second pass of each
exporter re-draws exactly the image nodes whose id contains `QR` and whose
href is a `data:image` URL, in document order, each at its x, y, width and
height multiplied by the scale: the code images `QRB1-filled`, `QRB2-filled`
and `PHQR-filled` are among them, the photos and flags `PB1-filled`,
`PB2-filled`, `PHF1-filled`, `PHF2-filled` and `PHF-filled` are not. -/
theorem second_pass_redraws_codes (env1 env2 : RenderEnv) (doc : SvgDocument)
    (p : PdfOutput) (d : DocxOutput)
    (hp : convertSvgToPdfBlob env1 doc = Settled.resolved p)
    (hd : convertSvgToDocxBlob env2 doc = Settled.resolved d) :
    p.raster.overlays = (doc.elements.filter isRedrawn).map (overlayOf p.raster.scale)
    ∧ d.raster.overlays = (doc.elements.filter isRedrawn).map (overlayOf d.raster.scale)
    ∧ (∀ el ∈ doc.elements, el.tag = "image" →
        el.id ∈ [some "QRB1-filled", some "QRB2-filled", some "PHQR-filled"] →
        isDataImage (hrefOf el) = true →
        overlayOf p.raster.scale el ∈ p.raster.overlays
        ∧ overlayOf d.raster.scale el ∈ d.raster.overlays)
    ∧ (∀ el : SvgElement,
        el.id ∈ [some "PB1-filled", some "PB2-filled", some "PHF1-filled",
          some "PHF2-filled", some "PHF-filled"] →
        isRedrawn el = false)
    ∧ (∀ (scale : JsNumber) (el : SvgElement),
        (overlayOf scale el).x = JsNumber.mul (parseFloatOf el.x) scale
        ∧ (overlayOf scale el).y = JsNumber.mul (parseFloatOf el.y) scale
        ∧ (overlayOf scale el).w = JsNumber.mul (parseFloatOf el.width) scale
        ∧ (overlayOf scale el).h = JsNumber.mul (parseFloatOf el.height) scale) := by
  have ep := convertSvgToPdfBlob_resolved env1 doc p hp
  have ed := convertSvgToDocxBlob_resolved env2 doc d hd
  subst ep ed
  refine ⟨rfl, rfl, ?_, ?_, fun _ _ => ⟨rfl, rfl, rfl, rfl⟩⟩
  · intro el hel htag hid hdata
    have hsel : matchesQrSelector el = true := by
      simp only [List.mem_cons, List.mem_singleton, List.not_mem_nil, or_false] at hid
      rcases hid with e | e | e <;> simp only [matchesQrSelector, htag, e] <;> decide
    have hr : isRedrawn el = true := by simp [isRedrawn, hsel, hdata]
    have hm : el ∈ doc.elements.filter isRedrawn := List.mem_filter.mpr ⟨hel, hr⟩
    exact ⟨List.mem_map_of_mem _ hm, List.mem_map_of_mem _ hm⟩
  · intro el hid
    simp only [List.mem_cons, List.mem_singleton, List.not_mem_nil, or_false] at hid
    have hsel : matchesQrSelector el = false := by
      rcases hid with e | e | e | e | e <;> simp only [matchesQrSelector, e] <;>
        cases (el.tag == "image") <;> decide
    simp [isRedrawn, hsel]

/-- Witness for C17 (amended) at the resolved badge: one image is drawn, the
code image, at three times its rectangle. -/
theorem second_pass_redraws_codes_witness :
    ∃ p d, convertSvgToPdfBlob allLoads resolvedBadge = Settled.resolved p
      ∧ convertSvgToDocxBlob allLoads resolvedBadge = Settled.resolved d
      ∧ p.raster.overlays =
          (resolvedBadge.elements.filter isRedrawn).map (overlayOf p.raster.scale)
      ∧ p.raster.overlays.length = 1 := by
  obtain ⟨p, hp⟩ := convertSvgToPdfBlob_allLoads resolvedBadge
  obtain ⟨d, hd⟩ := convertSvgToDocxBlob_allLoads resolvedBadge
  have ep := convertSvgToPdfBlob_resolved allLoads resolvedBadge p hp
  refine ⟨p, d, hp, hd,
    (second_pass_redraws_codes allLoads allLoads resolvedBadge p d hp hd).1, ?_⟩
  rw [ep]; decide!

/-- C28: for every resolved document the two exporters compute the same
physical width and height in millimetres, the same scale, the same canvas
width and height, the same orientation and the same list of overlaid images
with the same rectangles, each the x, y, width and height of the image
multiplied by the scale, with no offset for the origin of the view box. -/
theorem exporters_agree (env1 env2 : RenderEnv) (doc : SvgDocument) (p : PdfOutput)
    (d : DocxOutput) (hp : convertSvgToPdfBlob env1 doc = Settled.resolved p)
    (hd : convertSvgToDocxBlob env2 doc = Settled.resolved d) :
    p.format = (d.pageWidthMm, d.pageHeightMm)
    ∧ p.raster.scale = d.raster.scale
    ∧ p.raster.width = d.raster.width
    ∧ p.raster.height = d.raster.height
    ∧ p.orientation = d.orientation
    ∧ p.raster.overlays = d.raster.overlays
    ∧ p.raster.overlays =
        (doc.elements.filter isRedrawn).map (fun el =>
          { dataUrl := (hrefOf el).getD ""
            x := JsNumber.mul (parseFloatOf el.x) p.raster.scale
            y := JsNumber.mul (parseFloatOf el.y) p.raster.scale
            w := JsNumber.mul (parseFloatOf el.width) p.raster.scale
            h := JsNumber.mul (parseFloatOf el.height) p.raster.scale }) := by
  have ep := convertSvgToPdfBlob_resolved env1 doc p hp
  have ed := convertSvgToDocxBlob_resolved env2 doc d hd
  subst ep ed
  exact ⟨rfl, rfl, rfl, rfl, rfl, rfl, rfl⟩

/-- Witness for C28 at the resolved badge. -/
theorem exporters_agree_witness :
    ∃ p d, convertSvgToPdfBlob allLoads resolvedBadge = Settled.resolved p
      ∧ convertSvgToDocxBlob allLoads resolvedBadge = Settled.resolved d
      ∧ p.raster.overlays = d.raster.overlays ∧ p.orientation = d.orientation := by
  obtain ⟨p, hp⟩ := convertSvgToPdfBlob_allLoads resolvedBadge
  obtain ⟨d, hd⟩ := convertSvgToDocxBlob_allLoads resolvedBadge
  have t := exporters_agree allLoads allLoads resolvedBadge p d hp hd
  exact ⟨p, d, hp, hd, t.2.2.2.2.2.1, t.2.2.2.2.1⟩

/-- C13: in `convertSvgToDocxBlob`, for every document whose physical width is
a whole number of millimetres `w` from 1 to 2000, the page width
`round(w × 56.692913386)` is `w × 1440 / 25.4` rounded to the nearest twip and
the image extent `round(w / 25.4 × 914400)` is `36000 × w` EMU; the same for
the height; a `width` attribute in millimetres that reads `w` gives the
physical width `w`; all page margins are 0. -/
theorem docx_units (env : RenderEnv) (doc : SvgDocument) (d : DocxOutput)
    (hd : convertSvgToDocxBlob env doc = Settled.resolved d) :
    (∀ w : ℕ, 1 ≤ w → w ≤ 2000 →
        physicalSize doc.width (viewBoxWidth doc) = JsNumber.fin (w : ℚ) →
        d.pageWidthTwips = JsNumber.fin ((round ((w : ℚ) * 1440 / 25.4) : ℤ) : ℚ)
        ∧ d.widthEMU = JsNumber.fin ((36000 * w : ℕ) : ℚ))
    ∧ (∀ h : ℕ, 1 ≤ h → h ≤ 2000 →
        physicalSize doc.height (viewBoxHeight doc) = JsNumber.fin (h : ℚ) →
        d.pageHeightTwips = JsNumber.fin ((round ((h : ℚ) * 1440 / 25.4) : ℤ) : ℚ)
        ∧ d.heightEMU = JsNumber.fin ((36000 * h : ℕ) : ℚ))
    ∧ (∀ (sw : String) (w : ℕ), doc.width = some sw → includes sw "mm" = true →
        parseFloat sw = JsNumber.fin (w : ℚ) →
        physicalSize doc.width (viewBoxWidth doc) = JsNumber.fin (w : ℚ))
    ∧ (∀ (sh : String) (h : ℕ), doc.height = some sh → includes sh "mm" = true →
        parseFloat sh = JsNumber.fin (h : ℚ) →
        physicalSize doc.height (viewBoxHeight doc) = JsNumber.fin (h : ℚ))
    ∧ d.margins = ["0", "0", "0", "0", "0", "0", "0"] := by
  have ed := convertSvgToDocxBlob_resolved env doc d hd
  subst ed
  refine ⟨?_, ?_, ?_, ?_, rfl⟩
  · intro w h1 h2 hw
    have e : widthMm doc = JsNumber.fin (w : ℚ) := hw
    simp only [e]
    exact ⟨twips_of_whole_mm w h1 h2, emu_of_whole_mm w h1 h2⟩
  · intro h h1 h2 hh
    have e : heightMm doc = JsNumber.fin (h : ℚ) := hh
    simp only [e]
    exact ⟨twips_of_whole_mm h h1 h2, emu_of_whole_mm h h1 h2⟩
  · intro sw w hsw hmm hpf
    rw [hsw, physicalSize_mm sw _ hmm, hpf]
  · intro sh h hsh hmm hpf
    rw [hsh, physicalSize_mm sh _ hmm, hpf]

/-- Witness for C13: a document declared 210 mm by 297 mm gives a page of
11906 by 16838 twips and an image extent of 7560000 by 10692000 EMU, with all
margins 0. -/
theorem docx_units_witness :
    ∃ d, convertSvgToDocxBlob allLoads a4Document = Settled.resolved d
      ∧ d.pageWidthTwips = JsNumber.fin 11906 ∧ d.pageHeightTwips = JsNumber.fin 16838
      ∧ d.widthEMU = JsNumber.fin 7560000 ∧ d.heightEMU = JsNumber.fin 10692000
      ∧ d.margins = ["0", "0", "0", "0", "0", "0", "0"] := by
  obtain ⟨d, hd⟩ := convertSvgToDocxBlob_allLoads a4Document
  have t := docx_units allLoads a4Document d hd
  have hw : physicalSize a4Document.width (viewBoxWidth a4Document)
      = JsNumber.fin ((210 : ℕ) : ℚ) := t.2.2.1 "210mm" 210 rfl (by decide) (by decide!)
  have hh : physicalSize a4Document.height (viewBoxHeight a4Document)
      = JsNumber.fin ((297 : ℕ) : ℚ) := t.2.2.2.1 "297mm" 297 rfl (by decide) (by decide!)
  have tw := t.1 210 (by norm_num) (by norm_num) hw
  have th := t.2.1 297 (by norm_num) (by norm_num) hh
  refine ⟨d, hd, tw.1.trans (by decide!), th.1.trans (by decide!), tw.2.trans (by decide!),
    th.2.trans (by decide!), t.2.2.2.2⟩

/-! ## The batch run -/

theorem convertSvgToPdfBlob_ne_pending (env : RenderEnv) (doc : SvgDocument) :
    convertSvgToPdfBlob env doc ≠ Settled.pending := by
  unfold convertSvgToPdfBlob
  simp only
  split
  · simp
  · split <;> simp

theorem createBulkBadge_eq (env : RenderEnv) (name : String) (creation : Creation)
    (cache : List CacheItem) :
    createBulkBadge env name creation cache =
      match pushed env name "badge" creation with
      | some l => Settled.resolved (cache ++ l)
      | none => Settled.rejected := by
  cases creation with
  | throws => rfl
  | noTemplate => simp [createBulkBadge, pushed]
  | created svg =>
    have hp := convertSvgToPdfBlob_ne_pending env svg
    cases hc : convertSvgToPdfBlob env svg with
    | resolved pdf => simp [createBulkBadge, pushed, hc, storedItem]
    | rejected => simp [createBulkBadge, pushed, hc]
    | pending => exact absurd hc hp

theorem createBulkDisc_eq (env : RenderEnv) (name : String) (creation : Creation)
    (cache : List CacheItem) :
    createBulkDisc env name creation cache =
      match pushed env name "disc" creation with
      | some l => Settled.resolved (cache ++ l)
      | none => Settled.rejected := by
  cases creation with
  | throws => rfl
  | noTemplate => simp [createBulkDisc, pushed]
  | created svg =>
    have hp := convertSvgToPdfBlob_ne_pending env svg
    cases hc : convertSvgToPdfBlob env svg with
    | resolved pdf => simp [createBulkDisc, pushed, hc, storedItem]
    | rejected => simp [createBulkDisc, pushed, hc]
    | pending => exact absurd hc hp

/-- One turn of the loop always completes, with the entries, the error and
the skip of its row. -/
theorem processRow_eq (type : String) (env : RenderEnv) (i : Nat) (row : Record)
    (badge disc : Creation) (st : BulkState) :
    processRow type env i row badge disc st =
      Settled.resolved
        { cache := st.cache ++ rowEntries type env row badge disc
          errors := st.errors ++ (if rowFailed type env row badge disc then [i] else [])
          skippedDiscs := st.skippedDiscs ++ (if rowSkipped type env row badge then [i] else [])
          payloads := st.payloads ++ [generateBulkPayloads row]
          alerted := st.alerted } := by
  unfold processRow rowEntries rowFailed rowSkipped discAttempted badgeStep
  simp only [createBulkBadge_eq, createBulkDisc_eq, wantsBadges, wantsDiscs]
  by_cases hb : type = "badge" ∨ type = "both"
  · have hb2 : (type == "badge" || type == "both") = true := by simpa using hb
    by_cases hd : type = "disc" ∨ type = "both"
    · have hd2 : (type == "disc" || type == "both") = true := by simpa using hd
      cases h1 : pushed env (orElse row.name "") "badge" badge with
      | none => simp [hb, hb2, hd, hd2, h1]
      | some l =>
        by_cases hw : discWanted row = true
        · cases h2 : pushed env (orElse row.name "") "disc" disc with
          | none => simp [hb, hb2, hd, hd2, h1, h2, hw]
          | some l2 => simp [hb, hb2, hd, hd2, h1, h2, hw]
        · simp [hb, hb2, hd, hd2, h1, hw]
    · have hd2 : (type == "disc" || type == "both") = false := by simpa using hd
      cases h1 : pushed env (orElse row.name "") "badge" badge with
      | none => simp [hb, hb2, hd, hd2, h1]
      | some l => simp [hb, hb2, hd, hd2, h1]
  · have hb2 : (type == "badge" || type == "both") = false := by simpa using hb
    by_cases hd : type = "disc" ∨ type = "both"
    · have hd2 : (type == "disc" || type == "both") = true := by simpa using hd
      by_cases hw : discWanted row = true
      · cases h2 : pushed env (orElse row.name "") "disc" disc with
        | none => simp [hb, hb2, hd, hd2, h2, hw]
        | some l2 => simp [hb, hb2, hd, hd2, h2, hw]
      · simp [hb, hb2, hd, hd2, hw]
    · have hd2 : (type == "disc" || type == "both") = false := by simpa using hd
      simp [hb, hb2, hd, hd2]

/-- The loop of `generateBulk` always completes, in the state made of the
entries, errors and skips of its rows in order. -/
theorem bulkLoop_eq (type : String) (env : RenderEnv) (badge disc : Nat → Creation)
    (rows : List Record) :
    ∀ (i : Nat) (st : BulkState),
      bulkLoop type env badge disc i rows st =
        Settled.resolved (stateAfter type env badge disc i rows st) := by
  induction rows with
  | nil => intro i st; simp [bulkLoop, stateAfter]
  | cons row rows ih =>
    intro i st
    simp only [bulkLoop, processRow_eq, ih, stateAfter, List.enumFrom_cons, List.flatMap_cons,
      List.filter_cons, List.map_cons, List.append_assoc]
    congr 2
    · by_cases hf : rowFailed type env row (badge i) (disc i) = true <;> simp [hf]
    · by_cases hs : rowSkipped type env row (badge i) = true <;> simp [hs]

/-- `generateBulk` on data always completes, in the state of its rows. -/
theorem generateBulk_eq (type : String) (rows : List Record) (env : RenderEnv)
    (badge disc : Nat → Creation) (prior : List CacheItem) (hne : rows ≠ []) :
    generateBulk type rows env badge disc prior =
      Settled.resolved (stateAfter type env badge disc 0 rows emptyState) := by
  simp only [generateBulk, hne, if_false, bulkLoop_eq]
  rfl

theorem discWanted_iff (row : Record) :
    discWanted row = true ↔
      (toLowerCase (trim (orElse row.vehicleMake "")) ≠ ""
        ∧ toLowerCase (trim (orElse row.vehicleMake "")) ≠ "none"
        ∧ toLowerCase (trim (orElse row.vehicleMake "")) ≠ "n/a") := by
  simp [discWanted, and_assoc]

theorem pushed_of_resolved (env : RenderEnv) (name type : String) (svg : SvgDocument)
    (pdf : PdfOutput) (h : convertSvgToPdfBlob env svg = Settled.resolved pdf) :
    pushed env name type (Creation.created svg) = some [storedItem name type svg pdf] := by
  simp [pushed, h]

/-- C18: in `generateBulk` with the type `disc` or `both`, when the creations
succeed, the cache holds for every record its badge (type `both`) and then
its disc exactly when the vehicle make, trimmed and lower-cased, is
non-empty and neither `none` nor `n/a`; the skipped discs are logged, no
error is raised, and every record is processed.  The makes ``, `None` and
`N/A` give no disc, the make `Toyota` gives one. -/
theorem disc_created_iff_vehicle (type : String) (rows : List Record) (env : RenderEnv)
    (badge disc : Nat → Creation) (prior : List CacheItem)
    (svgB svgD : Nat → SvgDocument) (pdfB pdfD : Nat → PdfOutput)
    (ht : type = "disc" ∨ type = "both") (hne : rows ≠ [])
    (hB : ∀ i, badge i = Creation.created (svgB i)
      ∧ convertSvgToPdfBlob env (svgB i) = Settled.resolved (pdfB i))
    (hD : ∀ i, disc i = Creation.created (svgD i)
      ∧ convertSvgToPdfBlob env (svgD i) = Settled.resolved (pdfD i)) :
    ∃ st, generateBulk type rows env badge disc prior = Settled.resolved st
      ∧ st.cache = rows.enum.flatMap (fun ir =>
          (if type = "both" then
            [storedItem (orElse ir.2.name "") "badge" (svgB ir.1) (pdfB ir.1)] else [])
          ++ (if discWanted ir.2 then
            [storedItem (orElse ir.2.name "") "disc" (svgD ir.1) (pdfD ir.1)] else []))
      ∧ st.errors = []
      ∧ st.skippedDiscs = (rows.enum.filter (fun ir => !discWanted ir.2)).map Prod.fst
      ∧ st.payloads.length = rows.length
      ∧ (∀ row : Record, discWanted row = true ↔
          (toLowerCase (trim (orElse row.vehicleMake "")) ≠ ""
            ∧ toLowerCase (trim (orElse row.vehicleMake "")) ≠ "none"
            ∧ toLowerCase (trim (orElse row.vehicleMake "")) ≠ "n/a"))
      ∧ discWanted { vehicleMake := some "" } = false
      ∧ discWanted { vehicleMake := some "None" } = false
      ∧ discWanted { vehicleMake := some "N/A" } = false
      ∧ discWanted { vehicleMake := some "Toyota" } = true := by
  refine ⟨_, generateBulk_eq type rows env badge disc prior hne, ?_, ?_, ?_, ?_,
    discWanted_iff, by decide, by decide, by decide, by decide⟩
  · simp only [stateAfter, emptyState, List.nil_append, List.enum]
    congr 1
    funext ir
    have e1 := pushed_of_resolved env (orElse ir.2.name "") "badge" _ _ (hB ir.1).2
    have e2 := pushed_of_resolved env (orElse ir.2.name "") "disc" _ _ (hD ir.1).2
    rcases ht with ht | ht <;> subst ht <;>
      by_cases hw : discWanted ir.2 = true <;>
      simp [rowEntries, discAttempted, badgeStep, wantsBadges, wantsDiscs, (hB ir.1).1,
        (hD ir.1).1, e1, e2, hw]
  · simp only [stateAfter, emptyState, List.nil_append]
    have hf : ∀ ir : Nat × Record,
        rowFailed type env ir.2 (badge ir.1) (disc ir.1) = false := by
      intro ir
      have e1 := pushed_of_resolved env (orElse ir.2.name "") "badge" _ _ (hB ir.1).2
      have e2 := pushed_of_resolved env (orElse ir.2.name "") "disc" _ _ (hD ir.1).2
      rcases ht with ht | ht <;> subst ht <;>
        simp [rowFailed, discAttempted, badgeStep, wantsBadges, wantsDiscs, (hB ir.1).1,
          (hD ir.1).1, e1, e2]
    simp [hf]
  · simp only [stateAfter, emptyState, List.nil_append, List.enum]
    congr 2
    funext ir
    have e1 := pushed_of_resolved env (orElse ir.2.name "") "badge" _ _ (hB ir.1).2
    rcases ht with ht | ht <;> subst ht <;>
      simp [rowSkipped, badgeStep, wantsBadges, wantsDiscs, (hB ir.1).1, e1]
  · simp [stateAfter, emptyState]

/-- Witness for C18: a run of type `disc` over a row with the make `Toyota`
and a row with the make `None` stores one disc, for the first row. -/
theorem disc_created_iff_vehicle_witness :
    ∃ st, generateBulk "disc" [{ name := some "A", vehicleMake := some "Toyota" },
          { name := some "B", vehicleMake := some "None" }] allLoads
        (fun _ => Creation.created {}) (fun _ => Creation.created {}) [] = Settled.resolved st
      ∧ st.cache.map (fun item => (item.name, item.type)) = [("A", "disc")]
      ∧ st.skippedDiscs = [1] := by
  obtain ⟨out, hout⟩ := convertSvgToPdfBlob_allLoads {}
  obtain ⟨st, h, hc, _, hs, _⟩ := disc_created_iff_vehicle "disc"
    [{ name := some "A", vehicleMake := some "Toyota" },
     { name := some "B", vehicleMake := some "None" }] allLoads
    (fun _ => Creation.created {}) (fun _ => Creation.created {}) []
    (fun _ => {}) (fun _ => {}) (fun _ => out) (fun _ => out) (Or.inl rfl) (by simp)
    (fun _ => ⟨rfl, hout⟩) (fun _ => ⟨rfl, hout⟩)
  refine ⟨st, h, ?_, ?_⟩
  · rw [hc]
    have w1 : discWanted { name := some "A", vehicleMake := some "Toyota" } = true := by decide
    have w2 : discWanted { name := some "B", vehicleMake := some "None" } = false := by decide
    simp [List.enum, List.enumFrom, w1, w2, storedItem, orElse]
  · rw [hs]
    have w1 : discWanted { name := some "A", vehicleMake := some "Toyota" } = true := by decide
    have w2 : discWanted { name := some "B", vehicleMake := some "None" } = false := by decide
    simp [List.enum, List.enumFrom, w1, w2]

theorem flatMap_skip_index {β : Type} (k : Nat) (f : Nat × Record → β)
    (l : List (Nat × Record)) :
    l.flatMap (fun ir => if ir.1 = k then [] else [f ir]) =
      (l.filter (fun ir => decide (ir.1 ≠ k))).map f := by
  induction l with
  | nil => rfl
  | cons a t ih =>
    by_cases h : a.1 = k <;> simp [List.filter_cons, h, ih]

theorem enumFrom_index_only (rows : List Record) :
    ∀ i k : Nat, i ≤ k → k < i + rows.length →
      ((rows.enumFrom i).filter (fun ir => decide (ir.1 = k))).map Prod.fst = [k]
      ∧ ((rows.enumFrom i).filter (fun ir => decide (ir.1 ≠ k))).length + 1 = rows.length := by
  induction rows with
  | nil => intro i k h1 h2; simp at h2; omega
  | cons row rows ih =>
    intro i k h1 h2
    have hlen : (row :: rows).length = rows.length + 1 := rfl
    by_cases hik : i = k
    · subst hik
      have hnone : ∀ ir ∈ rows.enumFrom (i + 1), ir.1 ≠ i := by
        intro ir hir
        have := List.le_fst_of_mem_enumFrom hir
        omega
      have e1 : (rows.enumFrom (i + 1)).filter (fun ir => decide (ir.1 = i)) = [] := by
        rw [List.filter_eq_nil_iff]
        intro ir hir
        simpa using hnone ir hir
      have e2 : (rows.enumFrom (i + 1)).filter (fun ir => !decide (ir.1 = i)) =
          rows.enumFrom (i + 1) := by
        rw [List.filter_eq_self]
        intro ir hir
        simpa using hnone ir hir
      simp [List.enumFrom_cons, List.filter_cons, e1, e2]
    · have h3 : i + 1 ≤ k := by omega
      have h4 : k < i + 1 + rows.length := by rw [hlen] at h2; omega
      obtain ⟨a, b⟩ := ih (i + 1) k h3 h4
      simp only [List.enumFrom_cons, List.filter_cons, hik, decide_False, Bool.false_eq_true,
        if_false, a, ne_eq, not_false_eq_true, decide_True, if_true, List.length_cons, hlen,
        true_and]
      simpa using b

/-- C19: for every batch of `N` records run with a single kind in which the
creation or the conversion throws for exactly one record `k` and succeeds
for every other record, `generateBulk` runs to completion, logs exactly one
failure, that of record `k`, and the cache holds exactly `N − 1` entries, the
entries of the other records in order. -/
theorem one_failure_is_isolated (type : String) (rows : List Record) (env : RenderEnv)
    (badge disc : Nat → Creation) (prior : List CacheItem) (k : Nat)
    (svg : Nat → SvgDocument) (pdf : Nat → PdfOutput)
    (ht : type = "badge" ∨ type = "disc") (hk : k < rows.length)
    (hok : ∀ i, i ≠ k →
      (if type = "badge" then badge i else disc i) = Creation.created (svg i)
      ∧ convertSvgToPdfBlob env (svg i) = Settled.resolved (pdf i))
    (hfail : (if type = "badge" then badge k else disc k) = Creation.throws
      ∨ ∃ s, (if type = "badge" then badge k else disc k) = Creation.created s
          ∧ convertSvgToPdfBlob env s = Settled.rejected)
    (hveh : type = "disc" → ∀ row ∈ rows, discWanted row = true) :
    ∃ st, generateBulk type rows env badge disc prior = Settled.resolved st
      ∧ st.errors = [k]
      ∧ st.cache.length = rows.length - 1
      ∧ st.cache = (rows.enum.filter (fun ir => decide (ir.1 ≠ k))).map (fun ir =>
          storedItem (orElse ir.2.name "") type (svg ir.1) (pdf ir.1))
      ∧ st.payloads.length = rows.length := by
  have hne : rows ≠ [] := by
    intro e
    rw [e] at hk
    simp at hk
  have hidx := enumFrom_index_only rows 0 k (Nat.zero_le _) (by omega)
  have hpk : ∀ name : String,
      pushed env name type (if type = "badge" then badge k else disc k) = none := by
    intro name
    rcases hfail with h | ⟨s, h, hs⟩
    · simp [pushed, h]
    · simp [pushed, h, hs]
  have hpi : ∀ (i : Nat) (name : String), i ≠ k →
      pushed env name type (if type = "badge" then badge i else disc i) =
        some [storedItem name type (svg i) (pdf i)] := by
    intro i name hi
    rw [(hok i hi).1]
    exact pushed_of_resolved env name type _ _ (hok i hi).2
  have hentries : ∀ ir ∈ rows.enum,
      rowEntries type env ir.2 (badge ir.1) (disc ir.1) =
        (if ir.1 = k then []
         else [storedItem (orElse ir.2.name "") type (svg ir.1) (pdf ir.1)]) := by
    rintro ⟨i, row⟩ hir
    have hmem : row ∈ rows := List.snd_mem_of_mem_enum hir
    have hdb : ("disc" = "badge") = False := by decide
    rcases ht with ht | ht
    · subst ht
      by_cases hi : i = k
      · subst hi
        have := hpk (orElse row.name "")
        simp only [if_true] at this
        simp [rowEntries, discAttempted, badgeStep, wantsBadges, wantsDiscs, this]
      · have := hpi i (orElse row.name "") hi
        simp only [if_true] at this
        simp [rowEntries, discAttempted, badgeStep, wantsBadges, wantsDiscs, this, hi]
    · subst ht
      have hw := hveh rfl row hmem
      by_cases hi : i = k
      · subst hi
        have := hpk (orElse row.name "")
        simp only [hdb, if_false] at this
        simp [rowEntries, discAttempted, badgeStep, wantsBadges, wantsDiscs, this, hw]
      · have := hpi i (orElse row.name "") hi
        simp only [hdb, if_false] at this
        simp [rowEntries, discAttempted, badgeStep, wantsBadges, wantsDiscs, this, hi, hw]
  have hfailed : ∀ ir ∈ rows.enum,
      rowFailed type env ir.2 (badge ir.1) (disc ir.1) = decide (ir.1 = k) := by
    rintro ⟨i, row⟩ hir
    have hmem : row ∈ rows := List.snd_mem_of_mem_enum hir
    have hdb : ("disc" = "badge") = False := by decide
    rcases ht with ht | ht
    · subst ht
      by_cases hi : i = k
      · subst hi
        have := hpk (orElse row.name "")
        simp only [if_true] at this
        simp [rowFailed, discAttempted, badgeStep, wantsBadges, wantsDiscs, this]
      · have := hpi i (orElse row.name "") hi
        simp only [if_true] at this
        simp [rowFailed, discAttempted, badgeStep, wantsBadges, wantsDiscs, this, hi]
    · subst ht
      have hw := hveh rfl row hmem
      by_cases hi : i = k
      · subst hi
        have := hpk (orElse row.name "")
        simp only [hdb, if_false] at this
        simp [rowFailed, discAttempted, badgeStep, wantsBadges, wantsDiscs, this, hw]
      · have := hpi i (orElse row.name "") hi
        simp only [hdb, if_false] at this
        simp [rowFailed, discAttempted, badgeStep, wantsBadges, wantsDiscs, this, hi, hw]
  have hcache : (stateAfter type env badge disc 0 rows emptyState).cache =
      (rows.enum.filter (fun ir => decide (ir.1 ≠ k))).map (fun ir =>
        storedItem (orElse ir.2.name "") type (svg ir.1) (pdf ir.1)) := by
    simp only [stateAfter, emptyState, List.nil_append]
    rw [← flatMap_skip_index]
    exact List.flatMap_congr hentries
  refine ⟨_, generateBulk_eq type rows env badge disc prior hne, ?_, ?_, hcache, ?_⟩
  · simp only [stateAfter, emptyState, List.nil_append]
    have e : (rows.enumFrom 0).filter
        (fun ir => rowFailed type env ir.2 (badge ir.1) (disc ir.1)) =
        (rows.enumFrom 0).filter (fun ir => decide (ir.1 = k)) := List.filter_congr hfailed
    rw [e]
    exact hidx.1
  · rw [hcache, List.length_map]
    have := hidx.2
    simp only [List.enum]
    omega
  · simp [stateAfter, emptyState]

/-- Witness for C19: in a badge run over three records the second of which
throws, one failure is logged and two entries are stored. -/
theorem one_failure_is_isolated_witness :
    ∃ st, generateBulk "badge" [minimalRow, sampleRecord, blankRecord] allLoads
        (fun i => if i = 1 then Creation.throws else Creation.created {})
        (fun _ => Creation.noTemplate) [] = Settled.resolved st
      ∧ st.errors = [1] ∧ st.cache.length = 2 := by
  obtain ⟨out, hout⟩ := convertSvgToPdfBlob_allLoads {}
  obtain ⟨st, h, he, hl, _⟩ := one_failure_is_isolated "badge"
    [minimalRow, sampleRecord, blankRecord] allLoads
    (fun i => if i = 1 then Creation.throws else Creation.created {})
    (fun _ => Creation.noTemplate) [] 1 (fun _ => {}) (fun _ => out)
    (Or.inl rfl) (by decide)
    (fun i hi => ⟨by simp [hi], hout⟩) (Or.inl (by simp)) (fun h => absurd h (by decide))
  exact ⟨st, h, he, hl⟩

/-- C29: in `generateBulk` with the type `both`, when the badge creation of a
record throws, no disc is attempted for it: the turn ends with the cache as
it was and one error logged, whatever the disc creation would have done; when
the disc creation throws after the badge succeeded, the cache keeps the badge
entry; in either case the run goes on to completion, every record is
processed, and the cache after any number of records is an initial part of
the final cache. -/
theorem both_kinds_failure_isolation (env : RenderEnv) (i : Nat) (row : Record)
    (badge disc : Creation) (st : BulkState) :
    (createBulkBadge env (orElse row.name "") badge st.cache = Settled.rejected →
        ∀ disc2 : Creation,
          processRow "both" env i row badge disc2 st =
            Settled.resolved
              { st with
                errors := st.errors ++ [i]
                payloads := st.payloads ++ [generateBulkPayloads row] })
    ∧ (∀ cache1 : List CacheItem,
        createBulkBadge env (orElse row.name "") badge st.cache = Settled.resolved cache1 →
        discWanted row = true →
        createBulkDisc env (orElse row.name "") disc cache1 = Settled.rejected →
          processRow "both" env i row badge disc st =
            Settled.resolved
              { st with
                cache := cache1
                errors := st.errors ++ [i]
                payloads := st.payloads ++ [generateBulkPayloads row] }
          ∧ st.cache <+: cache1)
    ∧ (∀ (rows : List Record) (badges discs : Nat → Creation) (prior : List CacheItem),
        rows ≠ [] →
        ∃ final, generateBulk "both" rows env badges discs prior = Settled.resolved final
          ∧ final.payloads = rows.map generateBulkPayloads
          ∧ ∀ j : Nat, ∃ mid,
              bulkLoop "both" env badges discs 0 (rows.take j) emptyState = Settled.resolved mid
              ∧ mid.cache <+: final.cache) := by
  refine ⟨?_, ?_, ?_⟩
  · intro hb disc2
    simp [processRow, hb]
  · intro cache1 hb hw hd
    refine ⟨by simp [processRow, hb, hw, hd], ?_⟩
    rw [createBulkBadge_eq] at hb
    cases hp : pushed env (orElse row.name "") "badge" badge with
    | none => simp [hp] at hb
    | some l =>
      simp only [hp, Settled.resolved.injEq] at hb
      exact ⟨l, hb⟩
  · intro rows badges discs prior hne
    refine ⟨_, generateBulk_eq "both" rows env badges discs prior hne, ?_, ?_⟩
    · simp [stateAfter, emptyState]
    · intro j
      refine ⟨_, bulkLoop_eq "both" env badges discs (rows.take j) 0 emptyState, ?_⟩
      simp only [stateAfter, emptyState, List.nil_append]
      obtain ⟨t, ht⟩ := List.take_prefix j rows
      have e : rows.enumFrom 0 = (rows.take j).enumFrom 0 ++ t.enumFrom (0 + (rows.take j).length) := by
        rw [← List.enumFrom_append, ht]
      rw [e, List.flatMap_append]
      exact List.prefix_append _ _

/-- Witness for C29: a badge that throws leaves the cache empty and logs the
record, with a disc creation that would have succeeded. -/
theorem both_kinds_failure_isolation_witness :
    processRow "both" allLoads 0 sampleRecord Creation.throws (Creation.created {}) emptyState =
      Settled.resolved
        { emptyState with
          errors := [0]
          payloads := [generateBulkPayloads sampleRecord] } :=
  (both_kinds_failure_isolation allLoads 0 sampleRecord Creation.throws Creation.noTemplate
    emptyState).1 rfl (Creation.created {})

/-! ## The required fields -/

theorem missingFields_length_pos_iff (form : FormValues) :
    (missingFields (collectFormData form)).length > 0 ↔
      ∃ v ∈ [trim form.idNumber, trim form.name, trim form.contactNumber,
        trim form.iceContactName, trim form.iceContactNumber, trim form.startingDate,
        trim form.membershipNumber, trim form.position, trim form.country], v = "" := by
  rw [gt_iff_lt, List.length_pos, ne_eq, missingFields, List.filter_eq_nil_iff]
  simp only [requiredFields, collectFormData, truthy, List.mem_cons, List.mem_singleton,
    List.not_mem_nil, or_false]
  constructor
  · intro h
    by_contra hc
    apply h
    intro a ha
    rcases ha with rfl | rfl | rfl | rfl | rfl | rfl | rfl | rfl | rfl <;>
      simp only [Bool.not_eq_true', Bool.not_eq_false, bne_iff_ne, ne_eq] <;>
      intro e <;> exact hc ⟨_, by simp, e⟩
  · rintro ⟨v, hv, rfl⟩ hall
    rcases hv with e | e | e | e | e | e | e | e | e
    · have := hall (some (trim form.idNumber)) (by simp); simp [← e] at this
    · have := hall (some (trim form.name)) (by simp); simp [← e] at this
    · have := hall (some (trim form.contactNumber)) (by simp); simp [← e] at this
    · have := hall (some (trim form.iceContactName)) (by simp); simp [← e] at this
    · have := hall (some (trim form.iceContactNumber)) (by simp); simp [← e] at this
    · have := hall (some (trim form.startingDate)) (by simp); simp [← e] at this
    · have := hall (some (trim form.membershipNumber)) (by simp); simp [← e] at this
    · have := hall (some (trim form.position)) (by simp); simp [← e] at this
    · have := hall (some (trim form.country)) (by simp); simp [← e] at this

/-- C26: `generateIndividual` builds no payload and creates no badge or disc,
alerting instead, when any of the nine required fields is empty after
trimming, and builds both payloads, without alert, when all nine are
non-empty; `generateBulk` has no such check: it builds the payloads of every
record. -/
theorem required_fields_gate (form : FormValues) (type : String) (badgeThrows : Bool) :
    ((∃ v ∈ [trim form.idNumber, trim form.name, trim form.contactNumber,
        trim form.iceContactName, trim form.iceContactNumber, trim form.startingDate,
        trim form.membershipNumber, trim form.position, trim form.country], v = "") →
      generateIndividualPayloads form = none
      ∧ generateIndividual type form badgeThrows = [IndividualAction.alert])
    ∧ ((∀ v ∈ [trim form.idNumber, trim form.name, trim form.contactNumber,
        trim form.iceContactName, trim form.iceContactNumber, trim form.startingDate,
        trim form.membershipNumber, trim form.position, trim form.country], v ≠ "") →
      generateIndividualPayloads form =
        some (buildBadgeQRPayload (qrCodeData (collectFormData form)),
              buildDiscQRPayload (discQrCodeData (collectFormData form)))
      ∧ IndividualAction.alert ∉ generateIndividual type form badgeThrows
      ∧ (type = "both" → badgeThrows = false →
          generateIndividual type form badgeThrows =
            [IndividualAction.createBadge
               (buildBadgeQRPayload (qrCodeData (collectFormData form))),
             IndividualAction.createDisc
               (buildDiscQRPayload (discQrCodeData (collectFormData form)))]))
    ∧ (∀ (bulkType : String) (rows : List Record) (env : RenderEnv)
        (badge disc : Nat → Creation) (prior : List CacheItem), rows ≠ [] →
        ∃ st, generateBulk bulkType rows env badge disc prior = Settled.resolved st
          ∧ st.payloads = rows.map generateBulkPayloads) := by
  refine ⟨?_, ?_, ?_⟩
  · intro h
    have hm := (missingFields_length_pos_iff form).mpr h
    simp [generateIndividualPayloads, generateIndividual, hm]
  · intro h
    have hm : ¬ (missingFields (collectFormData form)).length > 0 := by
      rw [missingFields_length_pos_iff]
      rintro ⟨v, hv, e⟩
      exact h v hv e
    refine ⟨by simp [generateIndividualPayloads, hm], ?_, ?_⟩
    · simp only [generateIndividual, hm, if_false]
      split
      · split
        · simp
        · split <;> simp
      · split <;> simp
    · intro ht hb
      simp [generateIndividual, hm, ht, hb]
  · intro bulkType rows env badge disc prior hne
    exact ⟨_, generateBulk_eq bulkType rows env badge disc prior hne,
      by simp [stateAfter, emptyState]⟩

/-- Witness for C26: the minimal form passes the check, the same form without
a country does not. -/
theorem required_fields_gate_witness :
    generateIndividual "both" { minimalForm with country := "  " } false =
        [IndividualAction.alert]
    ∧ generateIndividualPayloads minimalForm =
        some (buildBadgeQRPayload (qrCodeData (collectFormData minimalForm)),
              buildDiscQRPayload (discQrCodeData (collectFormData minimalForm))) :=
  ⟨((required_fields_gate { minimalForm with country := "  " } "both" false).1
      ⟨"", by decide, rfl⟩).2,
   ((required_fields_gate minimalForm "both" false).2.1 (by decide)).1⟩

/-! ## The archive -/

theorem forceTrailingSlash_length (p : String) :
    (forceTrailingSlash p).length ≤ p.length + 1 := by
  unfold forceTrailingSlash
  split_ifs
  · omega
  · rw [String.length_append]
    exact le_refl _

theorem forceTrailingSlash_idem (p : String) :
    forceTrailingSlash (forceTrailingSlash p) = forceTrailingSlash p := by
  by_cases h : p.data.getLast? = some '/'
  · simp [forceTrailingSlash, h]
  · have h2 : (p ++ "/").data.getLast? = some '/' := by
      simp [String.data_append]
    simp [forceTrailingSlash, h, h2]

theorem lastSlash_lt (path : List Char) (i : Nat) (h : lastSlash path = some i) :
    i < path.length := by
  unfold lastSlash at h
  simp only at h
  split_ifs at h with hk
  have := Option.some.inj h
  omega

theorem lastSlash_lt_of_last (path : List Char) (i : Nat) (h : lastSlash path = some i)
    (hl : path.getLast? ≠ some '/') : i + 1 < path.length := by
  unfold lastSlash at h
  simp only at h
  split_ifs at h with hk
  have e := Option.some.inj h
  have hk1 : 1 ≤ path.reverse.indexOf '/' := by
    cases hr : path.reverse with
    | nil =>
      have : path = [] := by simpa using hr
      subst this
      simp at hk
    | cons c r =>
      have hc : path.getLast? = some c := by
        rw [← List.head?_reverse, hr]
        rfl
      have hne : c ≠ '/' := by
        intro e2
        exact hl (by rw [hc, e2])
      rw [List.indexOf_cons_ne _ hne]
      omega
  omega

/-- The folder of a path, with its `/`, is shorter than the path. -/
theorem parentFolder_lt (p : String) (h : parentFolder p ≠ "") :
    (forceTrailingSlash (parentFolder p)).length < p.length := by
  unfold parentFolder at h ⊢
  simp only at h ⊢
  by_cases hl : p.data.getLast? = some '/'
  · simp only [hl, if_true] at h ⊢
    cases hs : lastSlash p.data.dropLast with
    | none => simp [hs] at h
    | some i =>
      simp only [hs] at h ⊢
      by_cases hi : 0 < i
      · simp only [hi, if_true]
        have h1 := lastSlash_lt _ _ hs
        have h2 := forceTrailingSlash_length ⟨List.take i p.data.dropLast⟩
        have h3 : (⟨List.take i p.data.dropLast⟩ : String).length ≤ i := by
          show (List.take i p.data.dropLast).length ≤ i
          simp
        have h4 : p.data.dropLast.length = p.data.length - 1 := List.length_dropLast _
        have h5 : p.length = p.data.length := rfl
        omega
      · simp [hi] at h
  · simp only [hl, if_false] at h ⊢
    cases hs : lastSlash p.data with
    | none => simp [hs] at h
    | some i =>
      simp only [hs] at h ⊢
      by_cases hi : 0 < i
      · simp only [hi, if_true]
        have h1 := lastSlash_lt_of_last _ _ hs hl
        have h2 := forceTrailingSlash_length ⟨List.take i p.data⟩
        have h3 : (⟨List.take i p.data⟩ : String).length ≤ i := by
          show (List.take i p.data).length ≤ i
          simp
        have h5 : p.length = p.data.length := rfl
        omega
      · simp [hi] at h

theorem fileAdd_succ (fuel : Nat) (files : ZipFiles) (name : String) (entry : ZipEntry)
    (dir : Bool) :
    fileAdd (fuel + 1) files name entry dir =
      setEntry
        (if parentFolder (if dir then forceTrailingSlash name else name) = "" then files
         else if hasEntry files
            (forceTrailingSlash (parentFolder (if dir then forceTrailingSlash name else name)))
         then files
         else fileAdd fuel files
            (forceTrailingSlash (parentFolder (if dir then forceTrailingSlash name else name)))
            ZipEntry.folder true)
        (if dir then forceTrailingSlash name else name) entry := rfl

/-- The bound on the depth of the folders is no restriction: from the length
of the name on, a larger bound gives the same archive. -/
theorem fileAdd_fuel (fuel : Nat) :
    ∀ (files : ZipFiles) (name : String) (entry : ZipEntry) (dir : Bool),
      (if dir then forceTrailingSlash name else name).length ≤ fuel →
      fileAdd (fuel + 1) files name entry dir = fileAdd fuel files name entry dir := by
  induction fuel with
  | zero =>
    intro files name entry dir h
    have h0 : (if dir then forceTrailingSlash name else name) = "" := by
      have : (if dir then forceTrailingSlash name else name).length = 0 := by omega
      exact String.ext (List.length_eq_zero.mp this)
    have hp : parentFolder "" = "" := by decide
    rw [fileAdd_succ]
    simp only [fileAdd, h0, hp, if_true]
  | succ fuel ih =>
    intro files name entry dir h
    rw [fileAdd_succ (fuel + 1) files name entry dir, fileAdd_succ fuel files name entry dir]
    by_cases hp : parentFolder (if dir then forceTrailingSlash name else name) = ""
    · simp only [hp, if_true]
    · simp only [hp, if_false]
      have hlt := parentFolder_lt _ hp
      have hm : (if true then forceTrailingSlash (forceTrailingSlash
          (parentFolder (if dir then forceTrailingSlash name else name)))
          else forceTrailingSlash
            (parentFolder (if dir then forceTrailingSlash name else name))).length
          ≤ fuel := by
        simp only [if_true, forceTrailingSlash_idem]
        omega
      rw [ih files _ ZipEntry.folder true hm]

theorem fileAdd_fuel_le (name : String) (files : ZipFiles) (entry : ZipEntry) (fuel : Nat)
    (h : name.length ≤ fuel) :
    fileAdd fuel files name entry false = fileAdd name.length files name entry false := by
  induction fuel with
  | zero =>
    have : name.length = 0 := by omega
    rw [this]
  | succ fuel ih =>
    by_cases he : name.length = fuel + 1
    · rw [he]
    · rw [fileAdd_fuel fuel files name entry false (by simp only [Bool.false_eq_true, if_false]; omega)]
      exact ih (by omega)

theorem hasEntry_iff (files : ZipFiles) (n : String) :
    hasEntry files n = true ↔ n ∈ entryNames files := by
  unfold hasEntry entryNames
  rw [List.any_eq_true]
  constructor
  · rintro ⟨e, he, hen⟩
    exact List.mem_map.mpr ⟨e, he, by simpa using hen⟩
  · intro h
    obtain ⟨e, he, hen⟩ := List.mem_map.mp h
    exact ⟨e, he, by simp [hen]⟩

theorem setEntry_names (files : ZipFiles) (n : String) (b : ZipEntry) :
    entryNames (setEntry files n b) =
      if n ∈ entryNames files then entryNames files else entryNames files ++ [n] := by
  unfold setEntry
  by_cases h : n ∈ entryNames files
  · have hany : hasEntry files n = true := (hasEntry_iff files n).mpr h
    have hin : n ∈ List.map Prod.fst files := h
    simp only [hany, if_true, hin, entryNames, List.map_map]
    apply List.map_congr_left
    intro e _
    by_cases he : e.1 = n <;> simp [he]
  · have hany : hasEntry files n = false := by
      rw [Bool.eq_false_iff]
      intro ht
      exact h ((hasEntry_iff files n).mp ht)
    have hin : n ∉ List.map Prod.fst files := h
    simp [hany, hin, entryNames]

theorem setEntry_new (files : ZipFiles) (n : String) (b : ZipEntry)
    (h : n ∉ entryNames files) : setEntry files n b = files ++ [(n, b)] := by
  unfold setEntry
  have hany : hasEntry files n = false := by
    rw [Bool.eq_false_iff]
    intro ht
    exact h ((hasEntry_iff files n).mp ht)
  simp [hany]

theorem entryOf_cons (e : String × ZipEntry) (rest : ZipFiles) (m : String) :
    entryOf (e :: rest) m = if e.1 = m then some e.2 else entryOf rest m := by
  unfold entryOf
  rw [List.find?_cons]
  by_cases h : e.1 = m
  · have hb : (e.1 == m) = true := by simpa using h
    rw [hb, if_pos h]
    rfl
  · have hb : (e.1 == m) = false := by simpa using h
    rw [hb, if_neg h]

theorem entryOf_nil (m : String) : entryOf [] m = none := rfl

theorem entryOf_append_new (files : ZipFiles) (n m : String) (b : ZipEntry)
    (h : n ∉ entryNames files) :
    entryOf (files ++ [(n, b)]) m = if m = n then some b else entryOf files m := by
  induction files with
  | nil =>
    rw [List.nil_append, entryOf_cons, entryOf_nil]
    by_cases hm : m = n
    · subst hm
      simp
    · have : ¬ n = m := fun e => hm e.symm
      simp [hm, this]
  | cons e rest ih =>
    have hn : n ∉ entryNames rest := by
      intro hc
      exact h (List.mem_cons_of_mem _ hc)
    have hen : e.1 ≠ n := by
      intro hc
      exact h (by simp [entryNames, ← hc])
    rw [List.cons_append, entryOf_cons, entryOf_cons, ih hn]
    by_cases hem : e.1 = m
    · have hmn : m ≠ n := by
        intro hc
        exact hen (hem.trans hc)
      simp [hem, hmn]
    · simp [hem]

theorem entryOf_map_set (files : ZipFiles) (n m : String) (b : ZipEntry)
    (h : n ∈ entryNames files) :
    entryOf (files.map (fun e => if e.1 = n then (n, b) else e)) m =
      if m = n then some b else entryOf files m := by
  induction files with
  | nil => simp [entryNames] at h
  | cons e rest ih =>
    have hrest : (entryOf (rest.map (fun e => if e.1 = n then (n, b) else e)) m =
        if m = n then some b else entryOf rest m) ∨ n ∉ entryNames rest := by
      by_cases hr : n ∈ entryNames rest
      · exact Or.inl (ih hr)
      · exact Or.inr hr
    rw [List.map_cons, entryOf_cons, entryOf_cons]
    by_cases hen : e.1 = n
    · simp only [hen, if_true]
      by_cases hm : m = n
      · subst hm
        simp
      · have hnm : ¬ n = m := fun c => hm c.symm
        simp only [hnm, if_false, hm]
        rcases hrest with hr | hr
        · rw [hr, if_neg hm]
        · have hid : rest.map (fun e => if e.1 = n then (n, b) else e) = rest := by
            have hc : rest.map (fun e => if e.1 = n then (n, b) else e) = rest.map id := by
              apply List.map_congr_left
              intro x hx
              have hx2 : x.1 ≠ n := by
                intro c
                exact hr (List.mem_map.mpr ⟨x, hx, c⟩)
              simp [hx2]
            rw [hc, List.map_id]
          rw [hid]
    · have hr : n ∈ entryNames rest := by
        simp only [entryNames, List.map_cons, List.mem_cons] at h
        rcases h with h | h
        · exact absurd h.symm hen
        · exact h
      simp only [hen, if_false]
      rw [ih hr]
      by_cases hem : e.1 = m
      · have hm : m ≠ n := fun c => hen (hem.trans c)
        simp [hem, hm]
      · simp [hem]

/-- After `this.files[name] = object` the name holds the object and every
other name what it held. -/
theorem entryOf_setEntry (files : ZipFiles) (n m : String) (b : ZipEntry) :
    entryOf (setEntry files n b) m = if m = n then some b else entryOf files m := by
  by_cases h : n ∈ entryNames files
  · have hany : hasEntry files n = true := (hasEntry_iff files n).mpr h
    unfold setEntry
    simp only [hany, if_true]
    exact entryOf_map_set files n m b h
  · rw [setEntry_new files n b h]
    exact entryOf_append_new files n m b h

theorem setEntry_nodup (files : ZipFiles) (n : String) (b : ZipEntry)
    (h : (entryNames files).Nodup) : (entryNames (setEntry files n b)).Nodup := by
  rw [setEntry_names]
  split_ifs with hn
  · exact h
  · exact List.Nodup.append h (List.nodup_singleton n) (by simpa using hn)

theorem setEntry_subset (files : ZipFiles) (n m : String) (b : ZipEntry)
    (h : m ∈ entryNames files) : m ∈ entryNames (setEntry files n b) := by
  rw [setEntry_names]
  split_ifs
  · exact h
  · exact List.mem_append_left _ h

theorem setEntry_mem (files : ZipFiles) (n : String) (b : ZipEntry) :
    n ∈ entryNames (setEntry files n b) := by
  rw [setEntry_names]
  split_ifs with h
  · exact h
  · simp

/-- What `fileAdd` leaves of an archive: the names stay pairwise distinct, no
name is lost, the name added holds the new entry and every other name that
was there holds what it held. -/
theorem fileAdd_spec (fuel : Nat) :
    ∀ (files : ZipFiles) (name : String) (entry : ZipEntry) (dir : Bool),
      ((entryNames files).Nodup → (entryNames (fileAdd fuel files name entry dir)).Nodup)
      ∧ (∀ m ∈ entryNames files, m ∈ entryNames (fileAdd fuel files name entry dir))
      ∧ (if dir then forceTrailingSlash name else name)
          ∈ entryNames (fileAdd fuel files name entry dir)
      ∧ entryOf (fileAdd fuel files name entry dir)
          (if dir then forceTrailingSlash name else name) = some entry
      ∧ (∀ m ∈ entryNames files, m ≠ (if dir then forceTrailingSlash name else name) →
          entryOf (fileAdd fuel files name entry dir) m = entryOf files m) := by
  induction fuel with
  | zero =>
    intro files name entry dir
    simp only [fileAdd]
    refine ⟨setEntry_nodup _ _ _, fun m hm => setEntry_subset _ _ _ _ hm, setEntry_mem _ _ _, ?_, ?_⟩
    · rw [entryOf_setEntry, if_pos rfl]
    · intro m _ hne
      rw [entryOf_setEntry, if_neg hne]
  | succ fuel ih =>
    intro files name entry dir
    rw [fileAdd_succ]
    by_cases hp : parentFolder (if dir then forceTrailingSlash name else name) = ""
    · simp only [hp, if_true]
      refine ⟨setEntry_nodup _ _ _, fun m hm => setEntry_subset _ _ _ _ hm, setEntry_mem _ _ _,
        ?_, ?_⟩
      · rw [entryOf_setEntry, if_pos rfl]
      · intro m _ hne
        rw [entryOf_setEntry, if_neg hne]
    · simp only [hp, if_false]
      by_cases hh : hasEntry files
          (forceTrailingSlash (parentFolder (if dir then forceTrailingSlash name else name)))
          = true
      · simp only [hh, if_true]
        refine ⟨setEntry_nodup _ _ _, fun m hm => setEntry_subset _ _ _ _ hm, setEntry_mem _ _ _,
          ?_, ?_⟩
        · rw [entryOf_setEntry, if_pos rfl]
        · intro m _ hne
          rw [entryOf_setEntry, if_neg hne]
      · simp only [hh, Bool.false_eq_true, if_false]
        obtain ⟨i1, i2, _, _, i5⟩ := ih files
          (forceTrailingSlash (parentFolder (if dir then forceTrailingSlash name else name)))
          ZipEntry.folder true
        refine ⟨fun hn => setEntry_nodup _ _ _ (i1 hn),
          fun m hm => setEntry_subset _ _ _ _ (i2 m hm), setEntry_mem _ _ _, ?_, ?_⟩
        · rw [entryOf_setEntry, if_pos rfl]
        · intro m hm hne
          rw [entryOf_setEntry, if_neg hne]
          apply i5 m hm
          intro hc
          apply hh
          rw [hasEntry_iff]
          simp only [if_true, forceTrailingSlash_idem] at hc
          rw [← hc]
          exact hm

/-- A name without a parent folder is set without more. -/
theorem zipFile_flat (zip : ZipFiles) (n : String) (b : FileBlob) (h : parentFolder n = "") :
    zipFile zip n b = setEntry zip n (ZipEntry.file b) := by
  unfold zipFile
  cases hl : n.length with
  | zero => simp [fileAdd]
  | succ k =>
    rw [fileAdd_succ]
    simp [h]

theorem lastSlash_none (path : List Char) (h : '/' ∉ path) : lastSlash path = none := by
  unfold lastSlash
  have h2 : '/' ∉ path.reverse := by simpa using h
  have h3 : path.reverse.indexOf '/' = path.reverse.length := List.indexOf_eq_length.mpr h2
  simp [h3]

/-- A name without `/` has no parent folder. -/
theorem parentFolder_of_no_slash (n : String) (h : '/' ∉ n.data) : parentFolder n = "" := by
  unfold parentFolder
  have hl : n.data.getLast? ≠ some '/' := by
    intro hc
    exact h (List.mem_of_mem_getLast? hc)
  simp only [hl, if_false, lastSlash_none n.data h]


theorem lastItem_cons (fileFormat : String) (item : CacheItem) (rest : List CacheItem)
    (n : String) :
    lastItem fileFormat (item :: rest) n =
      match lastItem fileFormat rest n with
      | some x => some x
      | none => if itemFileName fileFormat item = n then some item else none := by
  unfold lastItem
  rw [List.reverse_cons, List.find?_append]
  cases h : List.find? (fun item => itemFileName fileFormat item == n) rest.reverse with
  | some x => rfl
  | none =>
    by_cases hn : itemFileName fileFormat item = n
    · simp [List.find?_cons, hn]
    · simp [List.find?_cons, hn]

/-- A turn of the loop of `downloadAll` that goes on: the item has an entry,
and it is put into the archive under the file name of the item. -/
theorem zipLoop_cons (fileFormat : String) (env : RenderEnv) (item : CacheItem)
    (items : List CacheItem) (zip entries : ZipFiles)
    (h : zipLoop fileFormat env (item :: items) zip = Download.saved entries) :
    ∃ b, itemEntry env fileFormat item = some (ZipEntry.file b)
      ∧ zipLoop fileFormat env items (zipFile zip (itemFileName fileFormat item) b)
          = Download.saved entries := by
  simp only [zipLoop] at h
  unfold itemEntry
  split at h
  · rename_i hf
    split at h
    · rename_i fileBlob hc
      exact ⟨FileBlob.docx fileBlob, by simp [hf, hc], h⟩
    · exact absurd h (by simp)
    · exact absurd h (by simp)
  · rename_i hf
    exact ⟨FileBlob.pdf item.pdfBlob, by simp [hf], h⟩

theorem zipFile_spec (zip : ZipFiles) (n : String) (b : FileBlob) :
    ((entryNames zip).Nodup → (entryNames (zipFile zip n b)).Nodup)
    ∧ (∀ m ∈ entryNames zip, m ∈ entryNames (zipFile zip n b))
    ∧ n ∈ entryNames (zipFile zip n b)
    ∧ entryOf (zipFile zip n b) n = some (ZipEntry.file b)
    ∧ (∀ m ∈ entryNames zip, m ≠ n → entryOf (zipFile zip n b) m = entryOf zip m) := by
  have h := fileAdd_spec n.length zip n (ZipEntry.file b) false
  simpa [zipFile] using h

/-- What the loop of `downloadAll` leaves in the archive: the names are
pairwise distinct, every name that was there and the file name of every item
is there, a file name holds the entry of the last item of that name, and a
name that was there and is the file name of no item holds what it held. -/
theorem zipLoop_spec (fileFormat : String) (env : RenderEnv) (items : List CacheItem) :
    ∀ (zip entries : ZipFiles),
      zipLoop fileFormat env items zip = Download.saved entries →
      ((entryNames zip).Nodup → (entryNames entries).Nodup)
      ∧ (∀ m ∈ entryNames zip, m ∈ entryNames entries)
      ∧ (∀ item ∈ items, itemFileName fileFormat item ∈ entryNames entries)
      ∧ (∀ (n : String) (item : CacheItem), lastItem fileFormat items n = some item →
          entryOf entries n = itemEntry env fileFormat item
          ∧ (itemEntry env fileFormat item).isSome = true)
      ∧ (∀ n ∈ entryNames zip, lastItem fileFormat items n = none →
          entryOf entries n = entryOf zip n) := by
  induction items with
  | nil =>
    intro zip entries h
    simp only [zipLoop, Download.saved.injEq] at h
    subst h
    refine ⟨fun hn => hn, fun m hm => hm, ?_, ?_, fun n _ _ => rfl⟩
    · intro item hi
      simp at hi
    · intro n item hl
      simp [lastItem] at hl
  | cons item items ih =>
    intro zip entries h
    obtain ⟨b, hb, hrest⟩ := zipLoop_cons fileFormat env item items zip entries h
    obtain ⟨z1, z2, z3, z4, z5⟩ := zipFile_spec zip (itemFileName fileFormat item) b
    obtain ⟨i1, i2, i3, i4, i5⟩ := ih _ entries hrest
    refine ⟨fun hn => i1 (z1 hn), fun m hm => i2 m (z2 m hm), ?_, ?_, ?_⟩
    · intro it hit
      rcases List.mem_cons.mp hit with he | he
      · subst he
        exact i2 _ z3
      · exact i3 it he
    · intro n it hl
      rw [lastItem_cons] at hl
      cases hr : lastItem fileFormat items n with
      | some x =>
        rw [hr] at hl
        have hx : x = it := Option.some.inj hl
        subst hx
        exact i4 n x hr
      | none =>
        rw [hr] at hl
        by_cases hn : itemFileName fileFormat item = n
        · simp only [hn, if_true] at hl
          have hx : item = it := Option.some.inj hl
          subst hx
          subst hn
          rw [i5 _ z3 hr, z4, hb]
          exact ⟨rfl, rfl⟩
        · simp [hn] at hl
    · intro n hn hl
      rw [lastItem_cons] at hl
      cases hr : lastItem fileFormat items n with
      | some x => simp [hr] at hl
      | none =>
        rw [hr] at hl
        by_cases hne : itemFileName fileFormat item = n
        · simp [hne] at hl
        · rw [i5 n (z2 n hn) hr, z5 n hn (fun c => hne c.symm)]

/-- With pairwise distinct file names that have no parent folder, the loop
adds one entry for each item, in order. -/
theorem zipLoop_flat (fileFormat : String) (env : RenderEnv) (items : List CacheItem) :
    ∀ (zip entries : ZipFiles),
      zipLoop fileFormat env items zip = Download.saved entries →
      (∀ it ∈ items, itemFileName fileFormat it ∉ entryNames zip) →
      (items.map (itemFileName fileFormat)).Nodup →
      (∀ it ∈ items, parentFolder (itemFileName fileFormat it) = "") →
      entries.map (fun e => (e.1, some e.2)) =
        zip.map (fun e => (e.1, some e.2))
          ++ items.map (fun it => (itemFileName fileFormat it, itemEntry env fileFormat it)) := by
  induction items with
  | nil =>
    intro zip entries h _ _ _
    simp only [zipLoop, Download.saved.injEq] at h
    simp [← h]
  | cons item items ih =>
    intro zip entries h hdis hnd hflat
    obtain ⟨b, hb, hrest⟩ := zipLoop_cons fileFormat env item items zip entries h
    have hnew : itemFileName fileFormat item ∉ entryNames zip :=
      hdis item (List.mem_cons_self _ _)
    obtain ⟨hni, hnd2⟩ := List.nodup_cons.mp hnd
    have hz : zipFile zip (itemFileName fileFormat item) b
        = zip ++ [(itemFileName fileFormat item, ZipEntry.file b)] := by
      rw [zipFile_flat zip _ b (hflat item (List.mem_cons_self _ _)), setEntry_new _ _ _ hnew]
    rw [hz] at hrest
    have hi := ih (zip ++ [(itemFileName fileFormat item, ZipEntry.file b)]) entries hrest (by
      intro it hit
      simp only [entryNames, List.map_append, List.map_cons, List.map_nil, List.mem_append,
        List.mem_singleton, not_or]
      refine ⟨hdis it (List.mem_cons_of_mem _ hit), ?_⟩
      intro e
      exact hni (e ▸ List.mem_map_of_mem _ hit)) hnd2
      (fun it hit => hflat it (List.mem_cons_of_mem _ hit))
    rw [hi]
    simp [hb]

/-- C20, as it fails: a cache of two items of the same name and kind, two
members called `A B`, gives an archive of one entry, and the one item of a
member called `D/E` gives an archive of two entries, a folder `D/` and the
file in it. -/
theorem archive_entries_counterexample :
    downloadAll [sampleItem, sampleItem] "pdf" allLoads
        = Download.saved [("A_B_badge.pdf", ZipEntry.file (FileBlob.pdf samplePdf))]
      ∧ downloadAll [slashItem] "pdf" allLoads
        = Download.saved [("D/", ZipEntry.folder),
            ("D/E_badge.pdf", ZipEntry.file (FileBlob.pdf samplePdf))] := by
  constructor <;> decide!

/-- C20, amended: for every cache whose items have pairwise distinct file
names none of which has a parent folder, as is every name without `/`, the
archive built by `downloadAll` contains exactly as many entries as the cache
has items, one per item, in order, under the file name of the item and
holding the entry made of the item.  For every cache the names of the entries
are pairwise distinct, the file name of every item is among them, and the
entry under a file name is made of the last item of that file name. -/
theorem archive_one_entry_per_item (cache : List CacheItem) (fileFormat : String)
    (env : RenderEnv) (entries : ZipFiles)
    (h : downloadAll cache fileFormat env = Download.saved entries) :
    ((cache.map (itemFileName fileFormat)).Nodup →
      (∀ item ∈ cache, parentFolder (itemFileName fileFormat item) = "") →
      entries.length = cache.length
      ∧ entryNames entries = cache.map (fun item =>
          sanitizeName item.name ++ "_" ++ item.type ++ "." ++ fileExtension fileFormat)
      ∧ entries.map (fun e => (e.1, some e.2))
          = cache.map (fun item => (itemFileName fileFormat item, itemEntry env fileFormat item))
      ∧ (fileFormat ≠ "docx" →
          entries = cache.map (fun item =>
            (itemFileName fileFormat item, ZipEntry.file (FileBlob.pdf item.pdfBlob)))))
    ∧ (entryNames entries).Nodup
    ∧ (∀ item ∈ cache, itemFileName fileFormat item ∈ entryNames entries)
    ∧ (∀ (name : String) (item : CacheItem), lastItem fileFormat cache name = some item →
        entryOf entries name = itemEntry env fileFormat item
        ∧ (itemEntry env fileFormat item).isSome = true)
    ∧ (∀ name : String, '/' ∉ name.data → parentFolder name = "") := by
  unfold downloadAll at h
  split at h
  · exact absurd h (by simp)
  · obtain ⟨s1, _, s3, s4, _⟩ := zipLoop_spec fileFormat env cache [] entries h
    refine ⟨?_, s1 (by simp [entryNames]), s3, s4, parentFolder_of_no_slash⟩
    intro hnd hflat
    have hf := zipLoop_flat fileFormat env cache [] entries h (by simp [entryNames]) hnd hflat
    simp only [List.map_nil, List.nil_append] at hf
    have hnames : entryNames entries = cache.map (itemFileName fileFormat) := by
      have := congrArg (List.map Prod.fst) hf
      simpa [entryNames, Function.comp_def] using this
    refine ⟨?_, hnames, hf, ?_⟩
    · have := congrArg List.length hnames
      simpa [entryNames] using this
    · intro hd
      have hs : ∀ item : CacheItem, itemEntry env fileFormat item
          = some (ZipEntry.file (FileBlob.pdf item.pdfBlob)) := by
        intro item
        simp [itemEntry, hd]
      simp only [hs] at hf
      have hinj : Function.Injective (fun e : String × ZipEntry => (e.1, some e.2)) := by
        intro a c hac
        simp only [Prod.mk.injEq, Option.some.injEq] at hac
        exact Prod.ext hac.1 hac.2
      apply List.map_injective_iff.mpr hinj
      rw [hf, List.map_map]
      rfl

/-- Witness for the amended C20: a badge and a disc of the same member make
two entries. -/
theorem archive_one_entry_per_item_witness :
    downloadAll [sampleItem, { sampleItem with type := "disc" }] "pdf" allLoads =
        Download.saved [("A_B_badge.pdf", ZipEntry.file (FileBlob.pdf samplePdf)),
          ("A_B_disc.pdf", ZipEntry.file (FileBlob.pdf samplePdf))]
    ∧ [("A_B_badge.pdf", ZipEntry.file (FileBlob.pdf samplePdf)),
          ("A_B_disc.pdf", ZipEntry.file (FileBlob.pdf samplePdf))].length =
        [sampleItem, { sampleItem with type := "disc" }].length :=
  ⟨by decide!,
   ((archive_one_entry_per_item [sampleItem, { sampleItem with type := "disc" }] "pdf" allLoads
      _ (by decide!)).1 (by decide) (by decide)).1⟩

/-! ## Placeholders -/

theorem replaceById_length (doc : List TemplateNode) (id : String) (img : ImageNode) :
    (replaceById doc id img).length = doc.length := by
  induction doc with
  | nil => rfl
  | cons n rest ih =>
    unfold replaceById
    split
    · rfl
    · simp [ih]

theorem occurrences_cons (n : TemplateNode) (rest : List TemplateNode) (id : String) :
    occurrences (n :: rest) id
      = (if nodeId n = some id then 1 else 0) + occurrences rest id := by
  unfold occurrences
  by_cases h : nodeId n = some id
  · simp [List.filter_cons, h]; omega
  · simp [List.filter_cons, h]

theorem map_of_no_occurrence (doc : List TemplateNode) (id : String) (new : TemplateNode)
    (h : occurrences doc id = 0) :
    doc.map (fun n => if nodeId n = some id then new else n) = doc := by
  induction doc with
  | nil => rfl
  | cons n rest ih =>
    rw [occurrences_cons] at h
    by_cases hn : nodeId n = some id
    · simp [hn] at h
    · simp only [hn, if_false, Nat.zero_add] at h
      simp only [List.map_cons, hn, if_false, ih h]

/-- When the id occurs at most once, `replaceById` changes the node of that id
and no other. -/
theorem replaceById_eq_map (doc : List TemplateNode) (id : String) (img : ImageNode)
    (h : occurrences doc id ≤ 1) :
    replaceById doc id img
      = doc.map (fun n => if nodeId n = some id then TemplateNode.image img else n) := by
  induction doc with
  | nil => rfl
  | cons n rest ih =>
    rw [occurrences_cons] at h
    unfold replaceById
    by_cases hn : nodeId n = some id
    · simp only [hn, if_true] at h
      have h0 : occurrences rest id = 0 := by omega
      simp only [hn, if_true, List.map_cons, map_of_no_occurrence rest id _ h0]
    · simp only [hn, if_false, Nat.zero_add] at h
      simp only [hn, if_false, List.map_cons, ih h]

/-- The replacement of one id does not change how often another id occurs. -/
theorem occurrences_replaceById (doc : List TemplateNode) (id id' : String) (img : ImageNode)
    (hne : id ≠ id') (himg : img.id ≠ id') :
    occurrences (replaceById doc id img) id' = occurrences doc id' := by
  induction doc with
  | nil => rfl
  | cons n rest ih =>
    unfold replaceById
    by_cases hn : nodeId n = some id
    · have h1 : nodeId n ≠ some id' := by
        rw [hn]; intro h; exact hne (Option.some.inj h)
      have h2 : nodeId (TemplateNode.image img) ≠ some id' := by
        intro h; exact himg (Option.some.inj h)
      simp only [hn, if_true]
      rw [occurrences_cons, occurrences_cons, if_neg h2, if_neg h1]
    · simp only [hn, if_false]
      rw [occurrences_cons, occurrences_cons, ih]

/-- After the replacement of an id that occurred at most once, by an image of
another id, the id occurs no more. -/
theorem occurrences_replaceById_self (doc : List TemplateNode) (id : String) (img : ImageNode)
    (himg : img.id ≠ id) (h : occurrences doc id ≤ 1) :
    occurrences (replaceById doc id img) id = 0 := by
  induction doc with
  | nil => rfl
  | cons n rest ih =>
    rw [occurrences_cons] at h
    unfold replaceById
    have h2 : nodeId (TemplateNode.image img) ≠ some id := by
      intro e; exact himg (Option.some.inj e)
    by_cases hn : nodeId n = some id
    · simp only [hn, if_true] at h
      simp only [hn, if_true]
      rw [occurrences_cons, if_neg h2]
      omega
    · simp only [hn, if_false, Nat.zero_add] at h
      simp only [hn, if_false]
      rw [occurrences_cons, if_neg hn, ih h]
theorem nodeId_image (img : ImageNode) : nodeId (TemplateNode.image img) = some img.id := rfl

theorem qrb1Image_id (u : String) : (qrb1Image u).id = "QRB1-filled" := rfl

theorem qrb2Image_id (u : String) : (qrb2Image u).id = "QRB2-filled" := rfl

theorem pb1Image_id (u : String) : (pb1Image u).id = "PB1-filled" := rfl

theorem pb2Image_id (u : String) : (pb2Image u).id = "PB2-filled" := rfl

theorem phf1Image_id (u : String) : (phf1Image u).id = "PHF1-filled" := rfl

theorem phf2Image_id (u : String) : (phf2Image u).id = "PHF2-filled" := rfl

theorem phqrImage_id (u : String) : (phqrImage u).id = "PHQR-filled" := rfl

theorem phfImage_id (u : String) : (phfImage u).id = "PHF-filled" := rfl

/-- On a node, the replacements of the badge one after the other give the node
of the specification. -/
theorem resolvedBadgeNode_steps (qrDataUrl : String) (photoDataUrl flagDataUrl : Option String)
    (n : TemplateNode) :
    resolvedBadgeNode qrDataUrl photoDataUrl flagDataUrl n
      = (let r := fun (id : String) (img : ImageNode) (m : TemplateNode) =>
            if nodeId m = some id then TemplateNode.image img else m
         let m := r "QRB2" (qrb2Image qrDataUrl) (r "QRB1" (qrb1Image qrDataUrl) n)
         let m := if truthy photoDataUrl then
            r "PB2" (pb2Image (photoDataUrl.getD "")) (r "PB1" (pb1Image (photoDataUrl.getD "")) m)
            else m
         if flagDataUrl.isSome then
            r "PHF2" (phf2Image (flagDataUrl.getD "")) (r "PHF1" (phf1Image (flagDataUrl.getD "")) m)
         else m) := by
  unfold resolvedBadgeNode
  by_cases h1 : nodeId n = some "QRB1"
  · cases hp : truthy photoDataUrl <;> cases hf : flagDataUrl.isSome <;>
      simp [h1, nodeId_image, qrb1Image_id, qrb2Image_id, pb1Image_id, pb2Image_id, phf1Image_id, phf2Image_id, hp, hf]
  by_cases h2 : nodeId n = some "QRB2"
  · cases hp : truthy photoDataUrl <;> cases hf : flagDataUrl.isSome <;>
      simp [h1, h2, nodeId_image, qrb1Image_id, qrb2Image_id, pb1Image_id, pb2Image_id, phf1Image_id, phf2Image_id, hp, hf]
  by_cases h3 : nodeId n = some "PB1"
  · cases hp : truthy photoDataUrl <;> cases hf : flagDataUrl.isSome <;>
      simp [h1, h2, h3, nodeId_image, qrb1Image_id, qrb2Image_id, pb1Image_id, pb2Image_id, phf1Image_id, phf2Image_id, hp, hf]
  by_cases h4 : nodeId n = some "PB2"
  · cases hp : truthy photoDataUrl <;> cases hf : flagDataUrl.isSome <;>
      simp [h1, h2, h3, h4, nodeId_image, qrb1Image_id, qrb2Image_id, pb1Image_id, pb2Image_id, phf1Image_id, phf2Image_id, hp, hf]
  by_cases h5 : nodeId n = some "PHF1"
  · cases hp : truthy photoDataUrl <;> cases hf : flagDataUrl.isSome <;>
      simp [h1, h2, h3, h4, h5, nodeId_image, qrb1Image_id, qrb2Image_id, pb1Image_id, pb2Image_id, phf1Image_id, phf2Image_id, hp, hf]
  by_cases h6 : nodeId n = some "PHF2"
  · cases hp : truthy photoDataUrl <;> cases hf : flagDataUrl.isSome <;>
      simp [h1, h2, h3, h4, h5, h6, nodeId_image, qrb1Image_id, qrb2Image_id, pb1Image_id, pb2Image_id, phf1Image_id, phf2Image_id, hp, hf]
  cases hp : truthy photoDataUrl <;> cases hf : flagDataUrl.isSome <;>
    simp [h1, h2, h3, h4, h5, h6, hp, hf]
theorem resolvedDiscNode_steps (qrDataUrl : String) (flagDataUrl : Option String)
    (n : TemplateNode) :
    resolvedDiscNode qrDataUrl flagDataUrl n
      = (let r := fun (id : String) (img : ImageNode) (m : TemplateNode) =>
            if nodeId m = some id then TemplateNode.image img else m
         let m := r "PHQR" (phqrImage qrDataUrl) n
         if flagDataUrl.isSome then r "PHF" (phfImage (flagDataUrl.getD "")) m else m) := by
  unfold resolvedDiscNode
  by_cases h1 : nodeId n = some "PHQR"
  · cases hf : flagDataUrl.isSome <;> simp [h1, nodeId_image, phqrImage_id, hf]
  by_cases h2 : nodeId n = some "PHF"
  · cases hf : flagDataUrl.isSome <;> simp [h1, h2, nodeId_image, phfImage_id, hf]
  cases hf : flagDataUrl.isSome <;> simp [h1, h2, hf]

/-- The placeholder part of `createBadge` as one pass over the nodes, for a
template in which no placeholder id occurs twice. -/
theorem resolveBadgePlaceholders_eq_map (template : List TemplateNode) (qrDataUrl : String)
    (photoDataUrl flagDataUrl : Option String)
    (hu : ∀ id ∈ ["QRB1", "QRB2", "PB1", "PB2", "PHF1", "PHF2"], occurrences template id ≤ 1) :
    resolveBadgePlaceholders template qrDataUrl photoDataUrl flagDataUrl
      = template.map (resolvedBadgeNode qrDataUrl photoDataUrl flagDataUrl) := by
  have u1 := hu "QRB1" (by simp)
  have u2 := hu "QRB2" (by simp)
  have u3 := hu "PB1" (by simp)
  have u4 := hu "PB2" (by simp)
  have u5 := hu "PHF1" (by simp)
  have u6 := hu "PHF2" (by simp)
  have hfun : resolvedBadgeNode qrDataUrl photoDataUrl flagDataUrl = _ :=
    funext (resolvedBadgeNode_steps qrDataUrl photoDataUrl flagDataUrl)
  rw [hfun]
  -- the document after the two code images
  have d2 : ∀ id, id ≠ "QRB1" → id ≠ "QRB2" → id ≠ "QRB1-filled" → id ≠ "QRB2-filled" →
      occurrences (replaceById (replaceById template "QRB1" (qrb1Image qrDataUrl)) "QRB2"
        (qrb2Image qrDataUrl)) id = occurrences template id := by
    intro id a b c d
    rw [occurrences_replaceById _ _ _ _ (Ne.symm b) (by rw [qrb2Image_id]; exact Ne.symm d),
      occurrences_replaceById _ _ _ _ (Ne.symm a) (by rw [qrb1Image_id]; exact Ne.symm c)]
  have e1 := replaceById_eq_map template "QRB1" (qrb1Image qrDataUrl) u1
  have e2 := replaceById_eq_map (replaceById template "QRB1" (qrb1Image qrDataUrl)) "QRB2"
    (qrb2Image qrDataUrl)
    (by rw [occurrences_replaceById _ _ _ _ (by decide) (by rw [qrb1Image_id]; decide)]; exact u2)
  unfold resolveBadgePlaceholders
  cases photoDataUrl with
  | none =>
    cases flagDataUrl with
    | none =>
      simp only [truthy, Option.isSome, Bool.false_eq_true, if_false]
      rw [e2, e1, List.map_map]; rfl
    | some fu =>
      have e5 := replaceById_eq_map _ "PHF1" (phf1Image fu)
        (by rw [d2 "PHF1" (by decide) (by decide) (by decide) (by decide)]; exact u5)
      have e6 := replaceById_eq_map (replaceById (replaceById (replaceById template "QRB1"
        (qrb1Image qrDataUrl)) "QRB2" (qrb2Image qrDataUrl)) "PHF1" (phf1Image fu)) "PHF2"
        (phf2Image fu)
        (by rw [occurrences_replaceById _ _ _ _ (by decide) (by rw [phf1Image_id]; decide),
              d2 "PHF2" (by decide) (by decide) (by decide) (by decide)]; exact u6)
      simp only [truthy, Option.isSome, Bool.false_eq_true, if_false, if_true, Option.getD]
      rw [e6, e5, e2, e1]
      simp only [List.map_map]; rfl
  | some pu =>
    by_cases hp : pu = ""
    · subst hp
      have hp0 : (("" : String) != "") = false := by decide
      cases flagDataUrl with
      | none =>
        simp only [truthy, hp0, Option.isSome, Bool.false_eq_true, if_false]
        rw [e2, e1, List.map_map]; rfl
      | some fu =>
        have e5 := replaceById_eq_map _ "PHF1" (phf1Image fu)
          (by rw [d2 "PHF1" (by decide) (by decide) (by decide) (by decide)]; exact u5)
        have e6 := replaceById_eq_map (replaceById (replaceById (replaceById template "QRB1"
          (qrb1Image qrDataUrl)) "QRB2" (qrb2Image qrDataUrl)) "PHF1" (phf1Image fu)) "PHF2"
          (phf2Image fu)
          (by rw [occurrences_replaceById _ _ _ _ (by decide) (by rw [phf1Image_id]; decide),
                d2 "PHF2" (by decide) (by decide) (by decide) (by decide)]; exact u6)
        simp only [truthy, hp0, Option.isSome, Bool.false_eq_true, if_false, if_true, Option.getD]
        rw [e6, e5, e2, e1]
        simp only [List.map_map]; rfl
    · have hp' : (pu != "") = true := by simpa using hp
      have e3 := replaceById_eq_map _ "PB1" (pb1Image pu)
        (by rw [d2 "PB1" (by decide) (by decide) (by decide) (by decide)]; exact u3)
      have e4 := replaceById_eq_map (replaceById (replaceById (replaceById template "QRB1"
        (qrb1Image qrDataUrl)) "QRB2" (qrb2Image qrDataUrl)) "PB1" (pb1Image pu)) "PB2"
        (pb2Image pu)
        (by rw [occurrences_replaceById _ _ _ _ (by decide) (by rw [pb1Image_id]; decide),
              d2 "PB2" (by decide) (by decide) (by decide) (by decide)]; exact u4)
      have d4 : ∀ id, id ≠ "PB1" → id ≠ "PB2" → id ≠ "PB1-filled" → id ≠ "PB2-filled" →
          id ≠ "QRB1" → id ≠ "QRB2" → id ≠ "QRB1-filled" → id ≠ "QRB2-filled" →
          occurrences (replaceById (replaceById (replaceById (replaceById template "QRB1"
            (qrb1Image qrDataUrl)) "QRB2" (qrb2Image qrDataUrl)) "PB1" (pb1Image pu)) "PB2"
            (pb2Image pu)) id = occurrences template id := by
        intro id a b c d a' b' c' d'
        rw [occurrences_replaceById _ _ _ _ (Ne.symm b) (by rw [pb2Image_id]; exact Ne.symm d),
          occurrences_replaceById _ _ _ _ (Ne.symm a) (by rw [pb1Image_id]; exact Ne.symm c),
          d2 id a' b' c' d']
      cases flagDataUrl with
      | none =>
        simp only [truthy, hp', Option.isSome, Bool.false_eq_true, if_false, if_true,
          Option.getD]
        rw [e4, e3, e2, e1]
        simp only [List.map_map]; rfl
      | some fu =>
        have e5 := replaceById_eq_map _ "PHF1" (phf1Image fu)
          (by rw [d4 "PHF1" (by decide) (by decide) (by decide) (by decide) (by decide)
                (by decide) (by decide) (by decide)]; exact u5)
        have e6 := replaceById_eq_map (replaceById (replaceById (replaceById (replaceById
          (replaceById template "QRB1" (qrb1Image qrDataUrl)) "QRB2" (qrb2Image qrDataUrl))
          "PB1" (pb1Image pu)) "PB2" (pb2Image pu)) "PHF1" (phf1Image fu)) "PHF2" (phf2Image fu)
          (by rw [occurrences_replaceById _ _ _ _ (by decide) (by rw [phf1Image_id]; decide),
                d4 "PHF2" (by decide) (by decide) (by decide) (by decide) (by decide)
                (by decide) (by decide) (by decide)]; exact u6)
        simp only [truthy, hp', Option.isSome, if_true, Option.getD]
        rw [e6, e5, e4, e3, e2, e1]
        simp only [List.map_map]; rfl

/-- The placeholder part of `createDisc` as one pass over the nodes, for a
template in which no placeholder id occurs twice. -/
theorem resolveDiscPlaceholders_eq_map (template : List TemplateNode) (qrDataUrl : String)
    (flagDataUrl : Option String)
    (hu : ∀ id ∈ ["PHQR", "PHF"], occurrences template id ≤ 1) :
    resolveDiscPlaceholders template qrDataUrl flagDataUrl
      = template.map (resolvedDiscNode qrDataUrl flagDataUrl) := by
  have u1 := hu "PHQR" (by simp)
  have u2 := hu "PHF" (by simp)
  have hfun : resolvedDiscNode qrDataUrl flagDataUrl = _ :=
    funext (resolvedDiscNode_steps qrDataUrl flagDataUrl)
  rw [hfun]
  have e1 := replaceById_eq_map template "PHQR" (phqrImage qrDataUrl) u1
  unfold resolveDiscPlaceholders
  cases flagDataUrl with
  | none =>
    simp only [Option.isSome, Bool.false_eq_true, if_false]
    rw [e1]
  | some fu =>
    have e2 := replaceById_eq_map (replaceById template "PHQR" (phqrImage qrDataUrl)) "PHF"
      (phfImage fu)
      (by rw [occurrences_replaceById _ _ _ _ (by decide) (by rw [phqrImage_id]; decide)]
          exact u2)
    simp only [Option.isSome, if_true, Option.getD]
    rw [e2, e1, List.map_map]; rfl
theorem occurrences_map_zero (f : TemplateNode → TemplateNode) (doc : List TemplateNode)
    (id : String) (h : ∀ n, nodeId (f n) ≠ some id) : occurrences (doc.map f) id = 0 := by
  induction doc with
  | nil => rfl
  | cons n rest ih => rw [List.map_cons, occurrences_cons, if_neg (h n), ih]

theorem resolvedBadgeNode_no_code (qrDataUrl : String) (photoDataUrl flagDataUrl : Option String)
    (n : TemplateNode) :
    nodeId (resolvedBadgeNode qrDataUrl photoDataUrl flagDataUrl n) ≠ some "QRB1"
      ∧ nodeId (resolvedBadgeNode qrDataUrl photoDataUrl flagDataUrl n) ≠ some "QRB2" := by
  unfold resolvedBadgeNode
  split_ifs <;>
    simp_all [nodeId_image, qrb1Image_id, qrb2Image_id, pb1Image_id, pb2Image_id,
      phf1Image_id, phf2Image_id]

theorem resolvedBadgeNode_no_photo (qrDataUrl : String) (photoDataUrl flagDataUrl : Option String)
    (n : TemplateNode) (hp : truthy photoDataUrl = true) :
    nodeId (resolvedBadgeNode qrDataUrl photoDataUrl flagDataUrl n) ≠ some "PB1"
      ∧ nodeId (resolvedBadgeNode qrDataUrl photoDataUrl flagDataUrl n) ≠ some "PB2" := by
  unfold resolvedBadgeNode
  split_ifs <;>
    simp_all [nodeId_image, qrb1Image_id, qrb2Image_id, pb1Image_id, pb2Image_id,
      phf1Image_id, phf2Image_id]

theorem resolvedBadgeNode_no_flag (qrDataUrl : String) (photoDataUrl flagDataUrl : Option String)
    (n : TemplateNode) (hf : flagDataUrl.isSome = true) :
    nodeId (resolvedBadgeNode qrDataUrl photoDataUrl flagDataUrl n) ≠ some "PHF1"
      ∧ nodeId (resolvedBadgeNode qrDataUrl photoDataUrl flagDataUrl n) ≠ some "PHF2" := by
  unfold resolvedBadgeNode
  split_ifs <;>
    simp_all [nodeId_image, qrb1Image_id, qrb2Image_id, pb1Image_id, pb2Image_id,
      phf1Image_id, phf2Image_id]

theorem resolvedDiscNode_no_code (qrDataUrl : String) (flagDataUrl : Option String)
    (n : TemplateNode) :
    nodeId (resolvedDiscNode qrDataUrl flagDataUrl n) ≠ some "PHQR" := by
  unfold resolvedDiscNode
  split_ifs <;> simp_all [nodeId_image, phqrImage_id, phfImage_id]

theorem resolvedDiscNode_no_flag (qrDataUrl : String) (flagDataUrl : Option String)
    (n : TemplateNode) (hf : flagDataUrl.isSome = true) :
    nodeId (resolvedDiscNode qrDataUrl flagDataUrl n) ≠ some "PHF" := by
  unfold resolvedDiscNode
  split_ifs <;> simp_all [nodeId_image, phqrImage_id, phfImage_id]

/-- C22, as it fails: a badge made with a photo but without a flag keeps its
node `PHF1`, a disc made without a flag keeps its node `PHF`, and of two nodes
of the id `QRB1` the second stays. -/
theorem placeholders_counterexample :
    occurrences
        (resolveBadgePlaceholders sampleBadgeTemplate "data:qr" (some "data:photo") none)
        "PHF1" = 1
      ∧ occurrences
        (resolveDiscPlaceholders [TemplateNode.original "path" (some "PHF") "<path id=\"PHF\"/>"]
          "data:qr" none) "PHF" = 1
      ∧ occurrences
        (resolveBadgePlaceholders
          [TemplateNode.original "path" (some "QRB1") "<path id=\"QRB1\" d=\"a\"/>",
           TemplateNode.original "path" (some "QRB1") "<path id=\"QRB1\" d=\"b\"/>"]
          "data:qr" none none) "QRB1" = 1 := by
  refine ⟨by decide, by decide, by decide⟩

/-- C22, amended: in a template where no placeholder id occurs twice, the
resolution is one pass over the nodes in their order, which gives for a
placeholder the one image of its literal geometry and for every other node the
node itself: `QRB1`, `QRB2` and `PHQR` always, `PB1` and `PB2` when a photo is
supplied, `PHF1`, `PHF2` and `PHF` when a flag is available.  No node of the
id of a replaced placeholder remains; without a photo `PB1` and `PB2` are
unchanged, and without a flag `PHF1`, `PHF2` and `PHF` are unchanged. -/
theorem placeholders_resolved (template : List TemplateNode) (qrDataUrl : String)
    (photoDataUrl flagDataUrl : Option String)
    (hu : ∀ id ∈ ["QRB1", "QRB2", "PB1", "PB2", "PHF1", "PHF2", "PHQR", "PHF"],
      occurrences template id ≤ 1) :
    resolveBadgePlaceholders template qrDataUrl photoDataUrl flagDataUrl
        = template.map (resolvedBadgeNode qrDataUrl photoDataUrl flagDataUrl)
      ∧ resolveDiscPlaceholders template qrDataUrl flagDataUrl
        = template.map (resolvedDiscNode qrDataUrl flagDataUrl)
      ∧ occurrences
          (resolveBadgePlaceholders template qrDataUrl photoDataUrl flagDataUrl) "QRB1" = 0
      ∧ occurrences
          (resolveBadgePlaceholders template qrDataUrl photoDataUrl flagDataUrl) "QRB2" = 0
      ∧ occurrences (resolveDiscPlaceholders template qrDataUrl flagDataUrl) "PHQR" = 0
      ∧ (truthy photoDataUrl = true →
          occurrences
              (resolveBadgePlaceholders template qrDataUrl photoDataUrl flagDataUrl) "PB1" = 0
            ∧ occurrences
              (resolveBadgePlaceholders template qrDataUrl photoDataUrl flagDataUrl) "PB2" = 0)
      ∧ (flagDataUrl.isSome = true →
          occurrences
              (resolveBadgePlaceholders template qrDataUrl photoDataUrl flagDataUrl) "PHF1" = 0
            ∧ occurrences
              (resolveBadgePlaceholders template qrDataUrl photoDataUrl flagDataUrl) "PHF2" = 0
            ∧ occurrences (resolveDiscPlaceholders template qrDataUrl flagDataUrl) "PHF" = 0)
      ∧ (truthy photoDataUrl = false → ∀ n ∈ template,
          nodeId n = some "PB1" ∨ nodeId n = some "PB2" →
            resolvedBadgeNode qrDataUrl photoDataUrl flagDataUrl n = n)
      ∧ (flagDataUrl = none → ∀ n ∈ template,
          (nodeId n = some "PHF1" ∨ nodeId n = some "PHF2" →
            resolvedBadgeNode qrDataUrl photoDataUrl flagDataUrl n = n)
          ∧ (nodeId n = some "PHF" → resolvedDiscNode qrDataUrl flagDataUrl n = n)) := by
  have hb' := resolveBadgePlaceholders_eq_map template qrDataUrl photoDataUrl flagDataUrl
    (fun id hid => hu id (by simp only [List.mem_cons] at hid ⊢; tauto))
  have hd' := resolveDiscPlaceholders_eq_map template qrDataUrl flagDataUrl
    (fun id hid => hu id (by simp only [List.mem_cons] at hid ⊢; tauto))
  refine ⟨hb', hd', ?_, ?_, ?_, ?_, ?_, ?_, ?_⟩
  · rw [hb']
    exact occurrences_map_zero _ _ _ (fun n => (resolvedBadgeNode_no_code _ _ _ n).1)
  · rw [hb']
    exact occurrences_map_zero _ _ _ (fun n => (resolvedBadgeNode_no_code _ _ _ n).2)
  · rw [hd']
    exact occurrences_map_zero _ _ _ (fun n => resolvedDiscNode_no_code _ _ n)
  · intro hp
    rw [hb']
    exact ⟨occurrences_map_zero _ _ _ (fun n => (resolvedBadgeNode_no_photo _ _ _ n hp).1),
      occurrences_map_zero _ _ _ (fun n => (resolvedBadgeNode_no_photo _ _ _ n hp).2)⟩
  · intro hf
    rw [hb', hd']
    exact ⟨occurrences_map_zero _ _ _ (fun n => (resolvedBadgeNode_no_flag _ _ _ n hf).1),
      occurrences_map_zero _ _ _ (fun n => (resolvedBadgeNode_no_flag _ _ _ n hf).2),
      occurrences_map_zero _ _ _ (fun n => resolvedDiscNode_no_flag _ _ n hf)⟩
  · intro hp n _ hn
    unfold resolvedBadgeNode
    rcases hn with hn | hn <;> simp [hn, hp]
  · intro hf n _
    subst hf
    constructor
    · intro hn
      unfold resolvedBadgeNode
      rcases hn with hn | hn <;> simp [hn]
    · intro hn
      unfold resolvedDiscNode
      simp [hn]

/-- The amended C22 on a badge template with all six placeholders, a photo and
a flag. -/
theorem placeholders_resolved_witness :
    resolveBadgePlaceholders sampleBadgeTemplate "data:qr" (some "data:photo")
        (some "data:flag")
      = sampleBadgeTemplate.map
          (resolvedBadgeNode "data:qr" (some "data:photo") (some "data:flag")) :=
  (placeholders_resolved sampleBadgeTemplate "data:qr" (some "data:photo") (some "data:flag")
    (by decide)).1

/-- C27: the flag image of the disc, for a placeholder at `(x, y)` of width
`w` and height `h`, has width `h`, height `w`, the origin
`(x + (w - h)/2, y + (h - w)/2)` and a rotation of -90 degrees about
`(x + w/2, y + h/2)`; the centre of its rectangle is the centre of the
placeholder, the rotation takes its rectangle exactly to the rectangle of the
placeholder, and the literal `132.13499` of the code is
`146.51217 - 14.37718`. -/
theorem disc_flag_geometry (x y w h : ℚ) (flagDataUrl : String) :
    (rotatedFlagImage x y w h flagDataUrl).width = h
      ∧ (rotatedFlagImage x y w h flagDataUrl).height = w
      ∧ (rotatedFlagImage x y w h flagDataUrl).x = x + (w - h) / 2
      ∧ (rotatedFlagImage x y w h flagDataUrl).y = y + (h - w) / 2
      ∧ (rotatedFlagImage x y w h flagDataUrl).transform
          = some (Rotation.mk (-90) (x + w / 2) (y + h / 2))
      ∧ (rotatedFlagImage x y w h flagDataUrl).x
          + (rotatedFlagImage x y w h flagDataUrl).width / 2 = x + w / 2
      ∧ (rotatedFlagImage x y w h flagDataUrl).y
          + (rotatedFlagImage x y w h flagDataUrl).height / 2 = y + h / 2
      ∧ (∀ p : ℚ × ℚ,
          ((rotatedFlagImage x y w h flagDataUrl).x ≤ p.1
            ∧ p.1 ≤ (rotatedFlagImage x y w h flagDataUrl).x
                + (rotatedFlagImage x y w h flagDataUrl).width
            ∧ (rotatedFlagImage x y w h flagDataUrl).y ≤ p.2
            ∧ p.2 ≤ (rotatedFlagImage x y w h flagDataUrl).y
                + (rotatedFlagImage x y w h flagDataUrl).height)
            ↔ (x ≤ (turnMinus90 (x + w / 2) (y + h / 2) p).1
                ∧ (turnMinus90 (x + w / 2) (y + h / 2) p).1 ≤ x + w
                ∧ y ≤ (turnMinus90 (x + w / 2) (y + h / 2) p).2
                ∧ (turnMinus90 (x + w / 2) (y + h / 2) p).2 ≤ y + h))
      ∧ phfImage flagDataUrl
          = rotatedFlagImage 37.049837 (146.51217 - 14.37718) 10.176637 14.37718 flagDataUrl := by
  have e : (132.13499 : ℚ) = 146.51217 - 14.37718 := by norm_num
  refine ⟨rfl, rfl, rfl, rfl, rfl, ?_, ?_, ?_, ?_⟩
  · show x + (w - h) / 2 + h / 2 = x + w / 2
    ring
  · show y + (h - w) / 2 + w / 2 = y + h / 2
    ring
  · intro p
    show (x + (w - h) / 2 ≤ p.1 ∧ p.1 ≤ x + (w - h) / 2 + h
        ∧ y + (h - w) / 2 ≤ p.2 ∧ p.2 ≤ y + (h - w) / 2 + w)
      ↔ (x ≤ x + w / 2 + (p.2 - (y + h / 2)) ∧ x + w / 2 + (p.2 - (y + h / 2)) ≤ x + w
        ∧ y ≤ y + h / 2 - (p.1 - (x + w / 2)) ∧ y + h / 2 - (p.1 - (x + w / 2)) ≤ y + h)
    constructor
    · rintro ⟨a, b, c, d⟩
      refine ⟨?_, ?_, ?_, ?_⟩ <;> linarith
    · rintro ⟨a, b, c, d⟩
      refine ⟨?_, ?_, ?_, ?_⟩ <;> linarith
  · unfold phfImage
    rw [e]

end QRGenerator
